import Mathlib

/-!
# C-Dogs SDL `map.c`: tile grid, spatial item index, exploration tracking,
access codes, doors, placement

A shallow embedding of `src/cdogs/map.c`, with the properties of its
specification proved about the embedded functions.

Conventions of the embedding:
* C `int` values are `Int`.  Counters and indices stay within the number of
  tiles of the grid; the product `100 * tilesSeen` of
  `MapGetExploredPercentage`, which leaves the range of a 32-bit `int` once
  more than 21474836 tiles are seen, is reduced to 32 bits with `wrapInt32`.
* `unsigned short` access codes are `Nat`, truncated with `% 65536` where a
  wider value is narrowed.
* `struct vec2` holds `float` coordinates in the source.  No function below
  does arithmetic on them: they are only compared with `0`, copied, and sent
  through `Vec2ToTile`.  They are modelled by integer coordinates.
* `CArray` is a `List`; a pointer to a tile is the index of the tile in
  `Map.Tiles` (`none` is `NULL`).
* A call either returns, stops in a failed `CASSERT`, or leaves defined
  behaviour (dereferencing `NULL`, indexing outside a `CArray`): see `Res`.
-/

namespace CDogs

/-! ## Data model -/

/-- Integer vector `struct vec2i`. -/
structure Vec2i where
  x : Int
  y : Int
  deriving DecidableEq, Repr

/-- Position `struct vec2`; the coordinates are `float` in the source. -/
structure Vec2 where
  x : Int
  y : Int
  deriving DecidableEq, Repr

/-- Entity reference `ThingId` stored by value in a tile. -/
structure ThingId where
  Id : Int
  Kind : Int
  deriving DecidableEq, Repr

/-- Tile record `Tile`: the fields `map.c` reads or writes
(the picture pointers are left out). -/
structure Tile where
  flags : Nat
  isVisited : Bool
  things : List ThingId
  deriving DecidableEq, Repr

/-- Dynamic entity `TTileItem`: the fields `map.c` reads or writes. -/
structure TTileItem where
  Pos : Vec2
  id : Int
  kind : Int
  deriving DecidableEq, Repr

/-- The grid `Map`: the fields used by the functions embedded here. -/
structure Map where
  Tiles : List Tile
  iMap : List Nat
  Size : Vec2i
  tilesSeen : Int
  NumExplorableTiles : Int
  keyAccessCount : Int
  deriving DecidableEq, Repr

/-- Declarations that `map.c` uses and that live in headers outside
`src/`: they are parameters of the embedding. -/
structure Env where
  /-- `Vec2ToTile`: the tile coordinates of a position. -/
  Vec2ToTile : Vec2 → Vec2i
  /-- `KIND_PICKUP`: the last entity kind of the `TileItemKind` enum. -/
  KIND_PICKUP : Int
  /-- `MAPTILE_NO_WALK`: the tile flag of a tile that cannot be walked on. -/
  MAPTILE_NO_WALK : Nat

/-- Outcome of a call on state `σ` returning `α`. -/
inductive Res (σ : Type) (α : Type) where
  /-- The call returned `r`, leaving state `s`. -/
  | ok (r : α) (s : σ)
  /-- A `CASSERT` failed with message `msg`; `s` is the state at that point. -/
  | assertFail (msg : String) (s : σ)
  /-- Behaviour is undefined (`NULL` dereference, index outside a `CArray`). -/
  | undef
  deriving DecidableEq, Repr

/-- Data-model invariant of the grid: both arrays have `Size.x * Size.y`
entries. -/
def Map.WF (m : Map) : Prop :=
  0 ≤ m.Size.x ∧ 0 ≤ m.Size.y ∧
  (m.Tiles.length : Int) = m.Size.x * m.Size.y ∧
  (m.iMap.length : Int) = m.Size.x * m.Size.y

instance (m : Map) : Decidable m.WF := by
  unfold Map.WF; infer_instance

/-! ## Access codes -/

/-- Modelled from the spec: `map.h` is not under `src/`.  Base types are the
enumeration Floor, Wall, Door, Room, Nothing, Square in that order. -/
def MAP_FLOOR : Nat := 0
/-- Modelled from the spec: second base type of the enumeration (`map.h`). -/
def MAP_WALL : Nat := 1
/-- Modelled from the spec: third base type of the enumeration (`map.h`). -/
def MAP_DOOR : Nat := 2
/-- Modelled from the spec: fourth base type of the enumeration (`map.h`). -/
def MAP_ROOM : Nat := 3
/-- Modelled from the spec: fifth base type of the enumeration (`map.h`),
the code read outside the grid. -/
def MAP_NOTHING : Nat := 4
/-- Modelled from the spec: sixth base type of the enumeration (`map.h`). -/
def MAP_SQUARE : Nat := 5
/-- Modelled from the spec: the reserved low bitmask of the base type
(`map.h`). -/
def MAP_MASKACCESS : Nat := 0xFF
/-- Modelled from the spec: the reserved bitmask of the four keycard
colours (`map.h`); `MapPlaceCard` spells it `0xF00`. -/
def MAP_ACCESSBITS : Nat := 0x0F00
/-- Modelled from the spec: Yellow, the lowest colour bit (`map.h`). -/
def MAP_ACCESS_YELLOW : Nat := 0x0100
/-- Modelled from the spec: Green, the second colour bit (`map.h`). -/
def MAP_ACCESS_GREEN : Nat := 0x0200
/-- Modelled from the spec: Blue, the third colour bit (`map.h`). -/
def MAP_ACCESS_BLUE : Nat := 0x0400
/-- Modelled from the spec: Red, the fourth colour bit (`map.h`). -/
def MAP_ACCESS_RED : Nat := 0x0800
/-- Modelled from the spec: the leave-free placement hint bit (`map.h`). -/
def MAP_LEAVEFREE : Nat := 0x1000

/-! ## Tile grid -/

/-- `CArrayGet`: the element at index `i`, `none` outside the array. -/
def CArrayGet {α : Type} (a : List α) (i : Int) : Option α :=
  if 0 ≤ i then a[i.toNat]? else none

/-- Pointer returned by `MapGetTile`: `NULL` outside the grid, otherwise the
address of element `pos.y * Size.x + pos.x` of `Tiles`. -/
def MapGetTilePtr (m : Map) (pos : Vec2i) : Option Int :=
  if pos.x < 0 ∨ pos.x ≥ m.Size.x ∨ pos.y < 0 ∨ pos.y ≥ m.Size.y then none
  else some (pos.y * m.Size.x + pos.x)

/-- `MapGetTile`, read through: the tile the returned pointer designates. -/
def MapGetTile (m : Map) (pos : Vec2i) : Option Tile :=
  (MapGetTilePtr m pos).bind (CArrayGet m.Tiles)

/-- `MapIsTileIn`. -/
def MapIsTileIn (m : Map) (pos : Vec2i) : Bool :=
  !(decide (pos.x < 0) || decide (pos.y < 0) ||
    decide (pos.x > m.Size.x - 1) || decide (pos.y > m.Size.y - 1))

/-- `MapIsPosIn`. -/
def MapIsPosIn (E : Env) (m : Map) (pos : Vec2) : Bool :=
  MapIsTileIn m (E.Vec2ToTile pos)

/-- `IMapGet`: `none` stands for a read outside the `iMap` array. -/
def IMapGet (m : Map) (pos : Vec2i) : Option Nat :=
  if pos.x < 0 ∨ pos.x ≥ m.Size.x ∨ pos.y < 0 ∨ pos.y ≥ m.Size.y then
    some MAP_NOTHING
  else CArrayGet m.iMap (pos.y * m.Size.x + pos.x)

/-- Store through a tile pointer: the element of `Tiles` at index `p` becomes
`tile`. -/
def Map.setTile (m : Map) (p : Int) (tile : Tile) : Map :=
  { m with Tiles := m.Tiles.set p.toNat tile }

/-! ## Spatial item index -/

/-- `MapGetTileOfItem`, as a pointer. -/
def MapGetTileOfItem (E : Env) (m : Map) (t : TTileItem) : Option Int :=
  MapGetTilePtr m (E.Vec2ToTile t.Pos)

/-- `AddItemToTile`: the two assertions, then `CArrayPushBack` on the things
of the tile that `tile` points to (a tile of `m`). -/
def AddItemToTile (E : Env) (m : Map) (t : TTileItem) (tile : Option Int) :
    Res Map Unit :=
  let tid : ThingId := { Id := t.id, Kind := t.kind }
  if ¬ (tid.Id ≥ 0) then Res.assertFail "invalid ThingId" m
  else if ¬ (tid.Kind ≥ 0 ∧ tid.Kind ≤ E.KIND_PICKUP) then
    Res.assertFail "unknown thing kind" m
  else
    match tile with
    | none => Res.undef
    | some p =>
      match CArrayGet m.Tiles p with
      | none => Res.undef
      | some tl =>
        Res.ok () (m.setTile p { tl with things := tl.things ++ [tid] })

/-- The `CA_FOREACH` scan of `MapRemoveTileItem`: the index of the first entry
with the given id and kind, scanning from index `i`. -/
def findThing (id kind : Int) : List ThingId → Nat → Option Nat
  | [], _ => none
  | tid :: rest, i =>
    if tid.Id = id ∧ tid.Kind = kind then some i
    else findThing id kind rest (i + 1)

/-- `MapRemoveTileItem`. -/
def MapRemoveTileItem (E : Env) (m : Map) (t : TTileItem) : Res Map Unit :=
  if !MapIsPosIn E m t.Pos then Res.ok () m
  else
    match MapGetTileOfItem E m t with
    | none => Res.undef
    | some p =>
      match CArrayGet m.Tiles p with
      | none => Res.undef
      | some tile =>
        match findThing t.id t.kind tile.things 0 with
        | some k =>
          Res.ok () (m.setTile p { tile with things := tile.things.eraseIdx k })
        | none => Res.assertFail "Did not find element to delete" m

/-- `MapTryMoveTileItem`; the state is the map and the item. -/
def MapTryMoveTileItem (E : Env) (m : Map) (t : TTileItem) (pos : Vec2) :
    Res (Map × TTileItem) Bool :=
  if !MapIsPosIn E m pos then Res.ok false (m, t)
  else
    let doRemove := decide (t.Pos.x ≥ 0) && decide (t.Pos.y ≥ 0)
    let t1 := E.Vec2ToTile t.Pos
    let t2 := E.Vec2ToTile pos
    if decide (t1 = t2) && doRemove then Res.ok true (m, { t with Pos := pos })
    else
      match (if doRemove then MapRemoveTileItem E m t else Res.ok () m) with
      | Res.undef => Res.undef
      | Res.assertFail msg m1 => Res.assertFail msg (m1, t)
      | Res.ok _ m1 =>
        let t' : TTileItem := { t with Pos := pos }
        match AddItemToTile E m1 t' (MapGetTilePtr m1 t2) with
        | Res.undef => Res.undef
        | Res.assertFail msg m2 => Res.assertFail msg (m2, t')
        | Res.ok _ m2 => Res.ok true (m2, t')

/-- The entity reference `(id, kind)` under which an item is stored. -/
def TTileItem.thing (t : TTileItem) : ThingId := { Id := t.id, Kind := t.kind }

/-- The occupant list of the tile at index `i` of `Tiles` (empty when the
grid has no such tile). -/
def thingsAt (m : Map) (i : Nat) : List ThingId :=
  match m.Tiles[i]? with
  | some tile => tile.things
  | none => []

/-- `MapMarkAsVisited`. -/
def MapMarkAsVisited (E : Env) (m : Map) (pos : Vec2i) : Res Map Unit :=
  match MapGetTilePtr m pos with
  | none => Res.undef
  | some p =>
    match CArrayGet m.Tiles p with
    | none => Res.undef
    | some t =>
      let m1 : Map :=
        if !t.isVisited && decide (t.flags &&& E.MAPTILE_NO_WALK = 0) then
          { m with tilesSeen := m.tilesSeen + 1 }
        else m
      Res.ok () (m1.setTile p { t with isVisited := true })

/-- A counting loop `for (i = lo; i < lo + n; i++) body(i)`, stopping at the
first iteration that does not return. -/
def forLoop {σ : Type} (body : Int → σ → Res σ Unit) : Nat → Int → σ → Res σ Unit
  | 0, _, s => Res.ok () s
  | n + 1, i, s =>
    match body i s with
    | Res.ok _ s1 => forLoop body n (i + 1) s1
    | r => r

/-- `MapMarkAllAsVisited`: rows `pos.y` from `0` to `Size.y - 1`, and in each
row `pos.x` from `0` to `Size.x - 1`.  The loop bounds are `map->Size`, which
the body never writes. -/
def MapMarkAllAsVisited (E : Env) (m : Map) : Res Map Unit :=
  forLoop
    (fun y m1 =>
      forLoop (fun x m2 => MapMarkAsVisited E m2 { x := x, y := y })
        m1.Size.x.toNat 0 m1)
    m.Size.y.toNat 0 m

/-- The value a 32-bit `int` holds after an arithmetic result `x`: `x` itself
when it is in the range `-2^31 .. 2^31 - 1`, and otherwise `x` reduced modulo
`2^32` into that range (signed overflow is undefined in C; two's complement
wrap-around is what the compiled code does). -/
def wrapInt32 (x : Int) : Int :=
  (x + 2147483648) % 4294967296 - 2147483648

/-- `MapGetExploredPercentage`: the product `100 * tilesSeen` is computed in
`int`, then divided by C integer division (truncating); `none` is a division
that C leaves undefined (by zero, or of `INT_MIN` by `-1`). -/
def MapGetExploredPercentage (m : Map) : Option Int :=
  if m.NumExplorableTiles = 0 ∨
      (wrapInt32 (100 * m.tilesSeen) = -2147483648 ∧ m.NumExplorableTiles = -1) then none
  else some (Int.tdiv (wrapInt32 (100 * m.tilesSeen)) m.NumExplorableTiles)

/-- The counting loop at the end of `MapLoad`: `NumExplorableTiles` is reset
and incremented for every tile without `MAPTILE_NO_WALK`. -/
def MapLoad_countExplorable (E : Env) (m : Map) : Res Map Unit :=
  forLoop
    (fun y m1 =>
      forLoop
        (fun x m2 =>
          match MapGetTile m2 { x := x, y := y } with
          | none => Res.undef
          | some t =>
            if t.flags &&& E.MAPTILE_NO_WALK = 0 then
              Res.ok () { m2 with NumExplorableTiles := m2.NumExplorableTiles + 1 }
            else Res.ok () m2)
        m1.Size.x.toNat 0 m1)
    m.Size.y.toNat 0 { m with NumExplorableTiles := 0 }

/-- Number of tiles of the grid without the no-walk flag. -/
def numWalkable (E : Env) (m : Map) : Nat :=
  m.Tiles.countP (fun t => decide (t.flags &&& E.MAPTILE_NO_WALK = 0))

/-- Number of tiles of the grid that are visited and lack the no-walk flag. -/
def numSeen (E : Env) (m : Map) : Nat :=
  m.Tiles.countP (fun t => t.isVisited && decide (t.flags &&& E.MAPTILE_NO_WALK = 0))

/-- A call of the exploration tracker. -/
inductive ExploreOp where
  /-- `MapMarkAsVisited(map, pos)`. -/
  | mark (pos : Vec2i)
  /-- `MapMarkAllAsVisited(map)`. -/
  | markAll
  deriving DecidableEq, Repr

/-- A sequence of tracker calls, run in order; it stops at the first call
that does not return. -/
def runExplore (E : Env) : Map → List ExploreOp → Res Map Unit
  | m, [] => Res.ok () m
  | m, ExploreOp.mark pos :: ops =>
    match MapMarkAsVisited E m pos with
    | Res.ok _ m1 => runExplore E m1 ops
    | r => r
  | m, ExploreOp.markAll :: ops =>
    match MapMarkAllAsVisited E m with
    | Res.ok _ m1 => runExplore E m1 ops
    | r => r

/-- The freshly loaded state of the tracker: no tile is visited, the visited
counter is zero, and `NumExplorableTiles` is the number of tiles without the
no-walk flag (what the last loop of `MapLoad` computes). -/
def FreshlyLoaded (E : Env) (m : Map) : Prop :=
  m.WF ∧ (∀ tile ∈ m.Tiles, tile.isVisited = false) ∧ m.tilesSeen = 0 ∧
  m.NumExplorableTiles = (numWalkable E m : Int)

/-- State `s` is state `m` after exploring: the same grid, tile flags and
occupants; visited tiles stay visited; the visited counter has moved by as
much as the number of visited walkable tiles, and has not decreased. -/
def ExploredFrom (E : Env) (m s : Map) : Prop :=
  s.Size = m.Size ∧ s.iMap = m.iMap ∧
  s.NumExplorableTiles = m.NumExplorableTiles ∧
  s.keyAccessCount = m.keyAccessCount ∧
  s.Tiles.map Tile.flags = m.Tiles.map Tile.flags ∧
  s.Tiles.map Tile.things = m.Tiles.map Tile.things ∧
  (∀ (j : Nat) (tl : Tile), m.Tiles[j]? = some tl → tl.isVisited = true →
    ∃ tl1 : Tile, s.Tiles[j]? = some tl1 ∧ tl1.isVisited = true) ∧
  s.tilesSeen - (numSeen E s : Int) = m.tilesSeen - (numSeen E m : Int) ∧
  m.tilesSeen ≤ s.tilesSeen

/-- The first `n` tiles of the grid, in row-major order, are visited. -/
def VisitedUpTo (s : Map) (n : Nat) : Prop :=
  ∀ j, j < n → ∃ tl : Tile, s.Tiles[j]? = some tl ∧ tl.isVisited = true

/-! ## Access/lock model -/

/-- `GetAccessMask`: the shift is done on `int` and the result narrowed to
`unsigned short`; `none` is a shift that C leaves undefined. -/
def GetAccessMask (k : Int) : Option Nat :=
  if k = -1 then some 0
  else if k < 0 ∨ MAP_ACCESS_YELLOW <<< k.toNat ≥ 2 ^ 31 then none
  else some ((MAP_ACCESS_YELLOW <<< k.toNat) % 65536)

/-- Modelled from the spec: keycard flag Yellow, lowest in priority (the
`FLAGS_KEYCARD_` constants are declared outside `src/`). -/
def FLAGS_KEYCARD_YELLOW : Nat := 0x1
/-- Modelled from the spec: keycard flag Green, above Yellow in priority. -/
def FLAGS_KEYCARD_GREEN : Nat := 0x2
/-- Modelled from the spec: keycard flag Blue, above Green in priority. -/
def FLAGS_KEYCARD_BLUE : Nat := 0x4
/-- Modelled from the spec: keycard flag Red, highest in priority. -/
def FLAGS_KEYCARD_RED : Nat := 0x8

/-- `AccessCodeToFlags`.  Both callers pass an `unsigned short` access code,
so the `int` argument is never negative. -/
def AccessCodeToFlags (code : Nat) : Nat :=
  if code &&& MAP_ACCESS_RED ≠ 0 then FLAGS_KEYCARD_RED
  else if code &&& MAP_ACCESS_BLUE ≠ 0 then FLAGS_KEYCARD_BLUE
  else if code &&& MAP_ACCESS_GREEN ≠ 0 then FLAGS_KEYCARD_GREEN
  else if code &&& MAP_ACCESS_YELLOW ≠ 0 then FLAGS_KEYCARD_YELLOW
  else 0

/-- The keycard colours in priority order, Red first, each with its access
bit and its keycard flag. -/
def keycardPriority : List (Nat × Nat) :=
  [(MAP_ACCESS_RED, FLAGS_KEYCARD_RED), (MAP_ACCESS_BLUE, FLAGS_KEYCARD_BLUE),
   (MAP_ACCESS_GREEN, FLAGS_KEYCARD_GREEN), (MAP_ACCESS_YELLOW, FLAGS_KEYCARD_YELLOW)]

/-- The decoding as the specification words it: the flag of the first colour
of the priority order whose access bit is set in `code`, or `0` (none). -/
def decodeKeycardFlagSpec (code : Nat) : Nat :=
  match keycardPriority.find? (fun c => decide (code &&& c.1 ≠ 0)) with
  | some c => c.2
  | none => 0

/-- `MapGetAccessLevel`: `none` is an undefined read of `iMap`. -/
def MapGetAccessLevel (m : Map) (x y : Int) : Option Nat :=
  (IMapGet m { x := x, y := y }).map AccessCodeToFlags

/-- `MapGetDoorKeycardFlag`: the cell itself, then left, right, up, down;
the first non-zero level is returned. -/
def MapGetDoorKeycardFlag (m : Map) (pos : Vec2i) : Option Nat :=
  (MapGetAccessLevel m pos.x pos.y).bind fun l0 =>
  if l0 ≠ 0 then some l0 else
  (MapGetAccessLevel m (pos.x - 1) pos.y).bind fun l1 =>
  if l1 ≠ 0 then some l1 else
  (MapGetAccessLevel m (pos.x + 1) pos.y).bind fun l2 =>
  if l2 ≠ 0 then some l2 else
  (MapGetAccessLevel m pos.x (pos.y - 1)).bind fun l3 =>
  if l3 ≠ 0 then some l3 else
  MapGetAccessLevel m pos.x (pos.y + 1)

/-- `MapGetAccessFlags`: `MAX` is the larger of two `int`s. -/
def MapGetAccessFlags (m : Map) (x y : Int) : Option Nat :=
  (IMapGet m { x := x, y := y }).bind fun c0 =>
  (IMapGet m { x := x - 1, y := y }).bind fun c1 =>
  (IMapGet m { x := x + 1, y := y }).bind fun c2 =>
  (IMapGet m { x := x, y := y - 1 }).bind fun c3 =>
  (IMapGet m { x := x, y := y + 1 }).bind fun c4 =>
  some (max (max (max (max (max 0 (AccessCodeToFlags c0)) (AccessCodeToFlags c1))
    (AccessCodeToFlags c2)) (AccessCodeToFlags c3)) (AccessCodeToFlags c4))

/-- The five cells probed around a door cell, in the order of the code:
self, left, right, up, down. -/
def probeCells (pos : Vec2i) : List Vec2i :=
  [pos, { x := pos.x - 1, y := pos.y }, { x := pos.x + 1, y := pos.y },
   { x := pos.x, y := pos.y - 1 }, { x := pos.x, y := pos.y + 1 }]

/-- The keycard flag decoded from the access code of cell `v` (`0` when the
read of `iMap` is undefined, which a well-formed grid excludes). -/
def levelAt (m : Map) (v : Vec2i) : Nat :=
  ((IMapGet m v).map AccessCodeToFlags).getD 0

/-- The first non-zero entry of a list, `0` when there is none. -/
def firstNonzero : List Nat → Nat
  | [] => 0
  | a :: l => if a ≠ 0 then a else firstNonzero l

/-- Priority rank of a keycard flag: Red 4, Blue 3, Green 2, Yellow 1, and 0
for anything else (none). -/
def keycardRank (flag : Nat) : Nat :=
  if flag = FLAGS_KEYCARD_RED then 4
  else if flag = FLAGS_KEYCARD_BLUE then 3
  else if flag = FLAGS_KEYCARD_GREEN then 2
  else if flag = FLAGS_KEYCARD_YELLOW then 1
  else 0

/-! ## Door grouping -/

/-- Declarations used by the post-processing and placement code of `map.c`
that live outside `src/`: they are parameters of the embedding. -/
structure PlaceEnv where
  /-- `MapAddDoorGroup` (door code): what creating a door group at a cell with
  the given key flags does to the map. -/
  MapAddDoorGroup : Map → Vec2i → Nat → Map
  /-- `TileIsClear`, applied to a tile pointer (`none` is `NULL`). -/
  TileIsClear : Option Tile → Bool
  /-- `Vec2CenterOfTile`: the position of the centre of a tile. -/
  Vec2CenterOfTile : Vec2i → Vec2
  /-- `OBJECTIVE_COLLECT` of the objective type enum. -/
  OBJECTIVE_COLLECT : Int
  /-- `OBJECTIVE_DESTROY` of the objective type enum. -/
  OBJECTIVE_DESTROY : Int

/-- A call `MapAddDoorGroup(map, m, v, flags)`. -/
structure DoorGroupRequest where
  v : Vec2i
  flags : Nat
  deriving DecidableEq, Repr

/-- The body of the loops of `MapSetupDoors` at cell `(x, y)`: the three
tests are evaluated left to right and stop at the first that fails; the state
is the map and the door groups requested so far. -/
def setupDoorsCell (P : PlaceEnv) (x y : Int) (s : Map × List DoorGroupRequest) :
    Res (Map × List DoorGroupRequest) Unit :=
  match IMapGet s.1 { x := x, y := y } with
  | none => Res.undef
  | some c =>
    if c &&& MAP_MASKACCESS ≠ MAP_DOOR then Res.ok () s
    else
      match IMapGet s.1 { x := x - 1, y := y } with
      | none => Res.undef
      | some cl =>
        if cl &&& MAP_MASKACCESS = MAP_DOOR then Res.ok () s
        else
          match IMapGet s.1 { x := x, y := y - 1 } with
          | none => Res.undef
          | some cu =>
            if cu &&& MAP_MASKACCESS = MAP_DOOR then Res.ok () s
            else
              match MapGetAccessFlags s.1 x y with
              | none => Res.undef
              | some f =>
                Res.ok ()
                  (P.MapAddDoorGroup s.1 { x := x, y := y } f,
                   s.2 ++ [{ v := { x := x, y := y }, flags := f }])

/-- `MapSetupDoors`: the outer loop runs over `v.x`, the inner loop over
`v.y`.  The loop bounds are `map->Size`. -/
def MapSetupDoors (P : PlaceEnv) (m : Map) : Res (Map × List DoorGroupRequest) Unit :=
  forLoop
    (fun x s1 => forLoop (fun y s2 => setupDoorsCell P x y s2) s1.1.Size.y.toNat 0 s1)
    m.Size.x.toNat 0 (m, [])

/-- The base type of the cell at `v` (`MAP_NOTHING` when the read of `iMap` is
undefined, which a well-formed grid excludes). -/
def baseAt (m : Map) (v : Vec2i) : Nat :=
  ((IMapGet m v).getD MAP_NOTHING) &&& MAP_MASKACCESS

/-- A cell starts a door group: it is a door and neither its left nor its top
neighbour is one. -/
def isDoorAnchor (m : Map) (v : Vec2i) : Bool :=
  decide (baseAt m v = MAP_DOOR) &&
  decide (baseAt m { x := v.x - 1, y := v.y } ≠ MAP_DOOR) &&
  decide (baseAt m { x := v.x, y := v.y - 1 } ≠ MAP_DOOR)

/-- The numeric maximum of the five decoded levels around `v`. -/
def flagsAt (m : Map) (v : Vec2i) : Nat :=
  ((probeCells v).map (levelAt m)).foldl max 0

/-- The cells of column `k`, top to bottom. -/
def colCells (k H : Nat) : List Vec2i :=
  (List.range H).map (fun (j : Nat) => ({ x := (k : Int), y := (j : Int) } : Vec2i))

/-- The cells of the first `W` columns in the scan order of `MapSetupDoors`:
column after column, each from top to bottom. -/
def scanCells (W H : Nat) : List Vec2i :=
  ((List.range W).map (fun k => colCells k H)).flatten

/-- The map passed on by the external door-group constructor has the same
size and access codes. -/
def KeepsCodes (P : PlaceEnv) : Prop :=
  ∀ m v f, (P.MapAddDoorGroup m v f).Size = m.Size ∧ (P.MapAddDoorGroup m v f).iMap = m.iMap

/-- Cell `a` comes before cell `b` in the scan order of `MapSetupDoors`
(column after column): a smaller `x`, or the same `x` and a smaller `y`. -/
def columnMajorBefore (a b : Vec2i) : Prop :=
  a.x < b.x ∨ (a.x = b.x ∧ a.y < b.y)

/-- Cell `a` comes before cell `b` in row-major order (row after row): a
smaller `y`, or the same `y` and a smaller `x`. -/
def rowMajorBefore (a b : Vec2i) : Prop :=
  a.y < b.y ∨ (a.y = b.y ∧ a.x < b.x)

instance (a b : Vec2i) : Decidable (columnMajorBefore a b) := by
  unfold columnMajorBefore; infer_instance

instance (a b : Vec2i) : Decidable (rowMajorBefore a b) := by
  unfold rowMajorBefore; infer_instance

/-! ## Placement engine -/

/-- Modelled from the spec: the placement access constraint of
`PlacementAccessFlags` (none / must be in a locked area / must not be in a
locked area); the enumeration is declared outside `src/`. -/
inductive PlacementAccessFlags where
  | PLACEMENT_ACCESS_ANY
  | PLACEMENT_ACCESS_LOCKED
  | PLACEMENT_ACCESS_NOT_LOCKED
  deriving DecidableEq, Repr

/-- `MapHasLockedRooms`. -/
def MapHasLockedRooms (m : Map) : Bool :=
  decide (m.keyAccessCount > 1)

/-- `MapTileIsInLockedRoom`: `none` is an undefined read of `iMap`. -/
def MapTileIsInLockedRoom (m : Map) (tilePos : Vec2i) : Option Bool :=
  (IMapGet m tilePos).map (fun c => decide (c &&& MAP_ACCESSBITS ≠ 0))

/-- `GetPlacementRetries`: the number of retries and the two output flags
`locked` and `unlocked`. -/
def GetPlacementRetries (m : Map) (paFlags : PlacementAccessFlags) : Int × Bool × Bool :=
  let locked :=
    decide (paFlags = PlacementAccessFlags.PLACEMENT_ACCESS_LOCKED) && MapHasLockedRooms m
  let unlocked := decide (paFlags = PlacementAccessFlags.PLACEMENT_ACCESS_NOT_LOCKED)
  (if locked || unlocked then 1000 else 100, locked, unlocked)

/-- A placement callback `tryPlaceFunc(map, tilePos, data)`: it returns a
boolean and may change the map and the data it was given. -/
abbrev TryPlaceFunc (δ : Type) : Type := Map → Vec2i → δ → Bool × Map × δ

/-- The loop of `MapPlaceRandomTile` with `n` iterations left; iteration `i`
draws the tile `draws i` (the value of `MapGetRandomTile`).  The state is the
map, the callback data, and a record of the callback invocations made so far
(tile and returned value). -/
def placeRandomTileLoop {δ : Type} (tryPlaceFunc : TryPlaceFunc δ) (draws : Nat → Vec2i)
    (locked unlocked : Bool) :
    Nat → Nat → Map → δ → List (Vec2i × Bool) → Res (Map × δ × List (Vec2i × Bool)) Bool
  | 0, _, m, d, calls => Res.ok false (m, d, calls)
  | n + 1, i, m, d, calls =>
    let tilePos := draws i
    match MapTileIsInLockedRoom m tilePos with
    | none => Res.undef
    | some isInLocked =>
      if (!locked || isInLocked) && (!unlocked || !isInLocked) then
        match tryPlaceFunc m tilePos d with
        | (true, m1, d1) => Res.ok true (m1, d1, calls ++ [(tilePos, true)])
        | (false, m1, d1) =>
          placeRandomTileLoop tryPlaceFunc draws locked unlocked n (i + 1) m1 d1
            (calls ++ [(tilePos, false)])
      else placeRandomTileLoop tryPlaceFunc draws locked unlocked n (i + 1) m d calls

/-- `MapPlaceRandomTile`. -/
def MapPlaceRandomTile {δ : Type} (tryPlaceFunc : TryPlaceFunc δ) (draws : Nat → Vec2i)
    (m : Map) (paFlags : PlacementAccessFlags) (data : δ) :
    Res (Map × δ × List (Vec2i × Bool)) Bool :=
  let r := GetPlacementRetries m paFlags
  placeRandomTileLoop tryPlaceFunc draws r.2.1 r.2.2 r.1.toNat 0 m data []

/-- The tile at `v` carries an access bit (false when the read of `iMap` is
undefined, which a well-formed grid excludes). -/
def hasAccessBit (m : Map) (v : Vec2i) : Bool :=
  decide (((IMapGet m v).getD 0) &&& MAP_ACCESSBITS ≠ 0)

/-- The reference behaviour of a retry loop over a list of candidate tiles:
the callback is invoked on the candidates that pass `accept`, in order, until
an invocation returns true.  The result is whether some invocation returned
true, the final map and data, and the invocations made. -/
def firstPlacement {δ : Type} (tryPlaceFunc : TryPlaceFunc δ) (accept : Map → Vec2i → Bool) :
    List Vec2i → Map → δ → Bool × Map × δ × List (Vec2i × Bool)
  | [], m, d => (false, m, d, [])
  | v :: rest, m, d =>
    if accept m v then
      match tryPlaceFunc m v d with
      | (true, m1, d1) => (true, m1, d1, [(v, true)])
      | (false, m1, d1) =>
        let r := firstPlacement tryPlaceFunc accept rest m1 d1
        (r.1, r.2.1, r.2.2.1, (v, false) :: r.2.2.2)
    else firstPlacement tryPlaceFunc accept rest m d

/-- The reference of `MapPlaceRandomTile` as the specification words it: the
retry budget `R`, the first `R` drawn tiles, and the candidate filter. -/
def placeRandomTileSpec {δ : Type} (tryPlaceFunc : TryPlaceFunc δ) (draws : Nat → Vec2i)
    (m : Map) (paFlags : PlacementAccessFlags) (data : δ) :
    Bool × Map × δ × List (Vec2i × Bool) :=
  let mustLock : Bool :=
    decide (paFlags = PlacementAccessFlags.PLACEMENT_ACCESS_LOCKED ∧ m.keyAccessCount > 1)
  let mustNotLock : Bool :=
    decide (paFlags = PlacementAccessFlags.PLACEMENT_ACCESS_NOT_LOCKED)
  let R : Nat := if mustLock ∨ mustNotLock then 1000 else 100
  firstPlacement tryPlaceFunc
    (fun m1 v => (!mustLock || hasAccessBit m1 v) && (!mustNotLock || !hasAccessBit m1 v))
    ((List.range R).map draws) m data

/-- The callback keeps the grid well formed. -/
def KeepsWF {δ : Type} (tryPlaceFunc : TryPlaceFunc δ) : Prop :=
  ∀ m v d, m.WF → (tryPlaceFunc m v d).2.1.WF

/-- The `GAME_EVENT_ADD_PICKUP` event that `MapPlaceKey` enqueues.  The pickup
class is `KeyPickupClass(KeyStyle, keyIndex)`, recorded here by its key index;
the UID comes from a counter outside `map.c` and is left out; `Pos` is the
tile centre (`Vec2ToNet` only changes the representation). -/
structure AddPickupEvent where
  keyIndex : Int
  IsRandomSpawned : Bool
  SpawnerUID : Int
  TileItemFlags : Int
  Pos : Vec2
  deriving DecidableEq, Repr

/-- The state of key placement: how many random tiles have been drawn, and
the queue of enqueued events.  The map is only read. -/
structure PlaceState where
  next : Nat
  events : List AddPickupEvent
  deriving DecidableEq, Repr

/-- `MapPlaceKey`: one event is appended to the queue. -/
def MapPlaceKey (P : PlaceEnv) (events : List AddPickupEvent) (tilePos : Vec2i)
    (keyIndex : Int) : List AddPickupEvent :=
  events ++ [{ keyIndex := keyIndex, IsRandomSpawned := false, SpawnerUID := -1,
               TileItemFlags := 0, Pos := P.Vec2CenterOfTile tilePos }]

/-- `MapPlaceCard`: the `for (;;)` loop, cut after `fuel` iterations (`none`:
the loop has not ended within `fuel` draws).  Draw number `i` of
`MapGetRandomTile` is `draws i`.  `map_access` is one of the non-negative
constants passed by `AddKeys`. -/
def MapPlaceCard (P : PlaceEnv) (draws : Nat → Vec2i) (m : Map) (keyIndex : Int)
    (map_access : Nat) : Nat → PlaceState → Option (Res PlaceState Unit)
  | 0, _ => none
  | fuel + 1, s =>
    let v := draws s.next
    let t := MapGetTile m v
    match IMapGet m v with
    | none => some Res.undef
    | some iMap =>
      let tBelow := MapGetTile m { x := v.x, y := v.y + 1 }
      if P.TileIsClear t && decide (iMap &&& 0xF00 = map_access) &&
          decide (iMap &&& MAP_MASKACCESS = MAP_ROOM) && P.TileIsClear tBelow then
        some (Res.ok () { next := s.next + 1, events := MapPlaceKey P s.events v keyIndex })
      else MapPlaceCard P draws m keyIndex map_access fuel { s with next := s.next + 1 }

/-- Sequencing of two steps of key placement: the second runs if the first
returned. -/
def thenPlace (r : Option (Res PlaceState Unit))
    (f : PlaceState → Option (Res PlaceState Unit)) : Option (Res PlaceState Unit) :=
  match r with
  | some (Res.ok _ s) => f s
  | other => other

/-- `AddKeys`; every call of `MapPlaceCard` may take up to `fuel` draws. -/
def AddKeys (P : PlaceEnv) (draws : Nat → Vec2i) (m : Map) (fuel : Nat) (s : PlaceState) :
    Option (Res PlaceState Unit) :=
  thenPlace
    (if m.keyAccessCount ≥ 5 then MapPlaceCard P draws m 3 MAP_ACCESS_BLUE fuel s
     else some (Res.ok () s)) fun s1 =>
  thenPlace
    (if m.keyAccessCount ≥ 4 then MapPlaceCard P draws m 2 MAP_ACCESS_GREEN fuel s1
     else some (Res.ok () s1)) fun s2 =>
  thenPlace
    (if m.keyAccessCount ≥ 3 then MapPlaceCard P draws m 1 MAP_ACCESS_YELLOW fuel s2
     else some (Res.ok () s2)) fun s3 =>
  if m.keyAccessCount ≥ 2 then MapPlaceCard P draws m 0 0 fuel s3
  else some (Res.ok () s3)

/-- A tile on which `MapPlaceCard` places the card for `map_access`: the tile
is clear, the access sub-code `code & 0xF00` of its cell is the requested one,
the base type of the cell is Room, and the tile directly below is clear. -/
def cardTileOK (P : PlaceEnv) (m : Map) (map_access : Nat) (v : Vec2i) : Bool :=
  P.TileIsClear (MapGetTile m v) &&
  decide (((IMapGet m v).getD 0) &&& 0xF00 = map_access) &&
  decide (((IMapGet m v).getD 0) &&& MAP_MASKACCESS = MAP_ROOM) &&
  P.TileIsClear (MapGetTile m { x := v.x, y := v.y + 1 })

/-- The event for key `keyIndex` on tile `v`. -/
def keyEvent (P : PlaceEnv) (keyIndex : Int) (v : Vec2i) : AddPickupEvent :=
  { keyIndex := keyIndex, IsRandomSpawned := false, SpawnerUID := -1,
    TileItemFlags := 0, Pos := P.Vec2CenterOfTile v }

/-- The card searches `AddKeys` makes for a value of `keyAccessCount`, in
order: key index and requested access code. -/
def keyPlan (keyAccessCount : Int) : List (Int × Nat) :=
  (if keyAccessCount ≥ 5 then [((3 : Int), MAP_ACCESS_BLUE)] else []) ++
  (if keyAccessCount ≥ 4 then [((2 : Int), MAP_ACCESS_GREEN)] else []) ++
  (if keyAccessCount ≥ 3 then [((1 : Int), MAP_ACCESS_YELLOW)] else []) ++
  (if keyAccessCount ≥ 2 then [((0 : Int), 0)] else [])

/-- A run of card searches from draw `i`: for each search of the plan, the
first draw at or after the current one whose tile is fit receives the key; the
run ends after draw `j` with the events `evs`. -/
inductive CardRun (P : PlaceEnv) (draws : Nat → Vec2i) (m : Map) :
    List (Int × Nat) → Nat → Nat → List AddPickupEvent → Prop where
  | nil (i : Nat) : CardRun P draws m [] i i []
  | cons (keyIndex : Int) (access : Nat) (plan : List (Int × Nat)) (i n j : Nat)
      (evs : List AddPickupEvent) (hle : i ≤ n)
      (hfit : cardTileOK P m access (draws n) = true)
      (hfirst : ∀ k, i ≤ k → k < n → cardTileOK P m access (draws k) = false)
      (hrest : CardRun P draws m plan (n + 1) j evs) :
      CardRun P draws m ((keyIndex, access) :: plan) i j (keyEvent P keyIndex (draws n) :: evs)

/-- A list of card searches run one after the other, each with up to `fuel`
draws. -/
def placeCards (P : PlaceEnv) (draws : Nat → Vec2i) (m : Map) :
    List (Int × Nat) → Nat → PlaceState → Option (Res PlaceState Unit)
  | [], _, s => some (Res.ok () s)
  | (keyIndex, access) :: plan, fuel, s =>
    thenPlace (MapPlaceCard P draws m keyIndex access fuel s) (placeCards P draws m plan fuel)

/-! ## Objective placement -/

/-- An `Objective`: the fields `AddObjectives` reads or writes (`objType` is
the field `Type` of the source). -/
structure Objective where
  objType : Int
  Count : Int
  placed : Int
  Required : Int
  deriving DecidableEq, Repr

/-- A placement attempt for the objective with a given index
(`MapTryPlaceCollectible` or `MapTryPlaceBlowup`): it reports success and may
change the world `ω` (map, event queue, random state). -/
abbrev TryObjective (ω : Type) : Type := Nat → ω → Bool × ω

/-- The loop `for (int i = o->placed; i < o->Count; i++)` of `AddObjectives`
with `n` iterations left: every iteration makes one attempt and increments
`placed` when it succeeds.  The result is the world, `placed`, and the record
of the results of the attempts made, in order. -/
def placeLoop {ω : Type} (attempt : ω → Bool × ω) :
    Nat → ω → Int → List Bool → ω × Int × List Bool
  | 0, w, placed, results => (w, placed, results)
  | n + 1, w, placed, results =>
    match attempt w with
    | (true, w1) => placeLoop attempt n w1 (placed + 1) (results ++ [true])
    | (false, w1) => placeLoop attempt n w1 placed (results ++ [false])

/-- The body of the `CA_FOREACH` of `AddObjectives` for the objective at
index `idx`: the new objective, the world, and the results of the attempts
made for it. -/
def addObjective {ω : Type} (P : PlaceEnv) (collect blowup : TryObjective ω) (idx : Nat)
    (o : Objective) (w : ω) : Objective × ω × List Bool :=
  if o.objType ≠ P.OBJECTIVE_COLLECT ∧ o.objType ≠ P.OBJECTIVE_DESTROY then (o, w, [])
  else
    let r : ω × Int × List Bool :=
      if o.objType = P.OBJECTIVE_COLLECT then
        placeLoop (collect idx) (o.Count - o.placed).toNat w o.placed []
      else if o.objType = P.OBJECTIVE_DESTROY then
        placeLoop (blowup idx) (o.Count - o.placed).toNat w o.placed []
      else (w, o.placed, [])
    let count := r.2.1
    ({ o with placed := r.2.1, Count := count,
              Required := if count < o.Required then count else o.Required },
     r.1, r.2.2)

/-- `AddObjectives` over the objectives from index `idx` on: the new
objectives, the world, and for each objective the results of the attempts made
for it. -/
def AddObjectives {ω : Type} (P : PlaceEnv) (collect blowup : TryObjective ω) :
    List Objective → Nat → ω → List Objective × ω × List (List Bool)
  | [], _, w => ([], w, [])
  | o :: rest, idx, w =>
    let r := addObjective P collect blowup idx o w
    let rs := AddObjectives P collect blowup rest (idx + 1) r.2.1
    (r.1 :: rs.1, rs.2.1, r.2.2 :: rs.2.2)

/-- What `n` placement attempts in a row return, starting in world `w`, and
the world they leave: each attempt runs in the world left by the one before. -/
def attemptRun {ω : Type} (attempt : ω → Bool × ω) : Nat → ω → List Bool × ω
  | 0, w => ([], w)
  | n + 1, w =>
    ((attempt w).1 :: (attemptRun attempt n (attempt w).2).1,
     (attemptRun attempt n (attempt w).2).2)

/-- The placement routine `AddObjectives` calls for an objective of type
`objType` at index `idx`: `MapTryPlaceCollectible` for a collect objective,
otherwise `MapTryPlaceBlowup`. -/
def attemptFor {ω : Type} (P : PlaceEnv) (collect blowup : TryObjective ω) (objType : Int)
    (idx : Nat) : ω → Bool × ω :=
  if objType = P.OBJECTIVE_COLLECT then collect idx else blowup idx

/-! ## Expanding-ring search -/

/-- The innermost loop of `MapSearchTileAround`, over `tile.y`, with `n`
iterations left, in column `x` of the ring of radius `radius`.  `func` is the
`TileSelectFunc` applied to the map.  The state is the record of the
evaluations of `func` so far (ring radius and tile); the result is the tile
found, if any. -/
def searchColumn (func : Vec2i → Bool) (m : Map) (start : Vec2i) (radius x : Int) :
    Nat → Int → List (Int × Vec2i) → Option Vec2i × List (Int × Vec2i)
  | 0, _, evals => (none, evals)
  | n + 1, y, evals =>
    if y < 0 then searchColumn func m start radius x n (y + 1) evals
    else if y ≥ m.Size.y then (none, evals)
    else if x ≠ start.x - radius ∧ x ≠ start.x + radius ∧
        y ≠ start.y - radius ∧ y ≠ start.y + radius then
      searchColumn func m start radius x n (y + 1) evals
    else if func { x := x, y := y } then
      (some { x := x, y := y }, evals ++ [(radius, { x := x, y := y })])
    else
      searchColumn func m start radius x n (y + 1)
        (evals ++ [(radius, { x := x, y := y })])

/-- The loop over `tile.x` for the ring of radius `radius`, with `n`
iterations left. -/
def searchRing (func : Vec2i → Bool) (m : Map) (start : Vec2i) (radius : Int) :
    Nat → Int → List (Int × Vec2i) → Option Vec2i × List (Int × Vec2i)
  | 0, _, evals => (none, evals)
  | n + 1, x, evals =>
    if x < 0 then searchRing func m start radius n (x + 1) evals
    else if x ≥ m.Size.x then (none, evals)
    else
      match searchColumn func m start radius x (2 * radius + 1).toNat
          (start.y - radius) evals with
      | (some tile, evals1) => (some tile, evals1)
      | (none, evals1) => searchRing func m start radius n (x + 1) evals1

/-- The loop over `radius`, with `n` iterations left; when it runs out the
`CASSERT` fails. -/
def searchRadii (func : Vec2i → Bool) (m : Map) (start : Vec2i) :
    Nat → Int → List (Int × Vec2i) → Res (List (Int × Vec2i)) Vec2i
  | 0, _, evals => Res.assertFail "failed to find tile around tile" evals
  | n + 1, radius, evals =>
    match searchRing func m start radius (2 * radius + 1).toNat (start.x - radius) evals with
    | (some tile, evals1) => Res.ok tile evals1
    | (none, evals1) => searchRadii func m start n (radius + 1) evals1

/-- `MapSearchTileAround`: `radius` runs from `1` while it is below
`MAX(Size.x, Size.y)`.  The evaluation of `func` on `start` is recorded with
radius `0`. -/
def MapSearchTileAround (func : Vec2i → Bool) (m : Map) (start : Vec2i) :
    Res (List (Int × Vec2i)) Vec2i :=
  if func start then Res.ok start [(0, start)]
  else searchRadii func m start (max m.Size.x m.Size.y - 1).toNat 1 [(0, start)]

/-- Chebyshev (square-ring) distance between two tiles. -/
def chebDist (a b : Vec2i) : Int :=
  max (max (b.x - a.x) (a.x - b.x)) (max (b.y - a.y) (a.y - b.y))

/-- A recorded evaluation of the predicate is on a tile inside the grid that
lies on the perimeter of the ring whose radius was current. -/
def EvalOK (m : Map) (start : Vec2i) (e : Int × Vec2i) : Prop :=
  MapIsTileIn m e.2 = true ∧ chebDist start e.2 = e.1

/-! ## Object placement -/

/-- `IMapSet`: the store goes through `CArrayGet` at index
`pos.y * Size.x + pos.x` without any bounds test; a store outside the `iMap`
array is undefined. -/
def IMapSet (m : Map) (pos : Vec2i) (v : Nat) : Res Map Unit :=
  if 0 ≤ pos.y * m.Size.x + pos.x ∧ pos.y * m.Size.x + pos.x < (m.iMap.length : Int) then
    Res.ok () { m with iMap := m.iMap.set (pos.y * m.Size.x + pos.x).toNat v }
  else Res.undef

/-- Map object descriptor `MapObject`: the fields that `MapTryPlaceOneObject`
reads.  `objType` is the field `Type`; `pickupType` is `u.PickupClass->Type`,
which the code reads only for a pickup spawner; `Flags` is a set of placement
flag bits. -/
structure MapObject where
  Name : String
  objType : Int
  pickupType : Int
  Flags : Nat
  Health : Int
  deriving DecidableEq, Repr

/-- Declarations used by `MapTryPlaceOneObject` that live outside `src/`
(configuration, map-object code): they are parameters of the embedding. -/
structure ObjEnv where
  /-- The value of `ConfigGetBool(&gConfig, "Game.Ammo")`. -/
  ammoEnabled : Bool
  /-- `MAP_OBJECT_TYPE_PICKUP_SPAWNER` of the map object type enum. -/
  MAP_OBJECT_TYPE_PICKUP_SPAWNER : Int
  /-- `PICKUP_AMMO` of the pickup type enum. -/
  PICKUP_AMMO : Int
  /-- `PLACEMENT_FREE_IN_FRONT`: the bit number of the free-in-front placement
  flag. -/
  PLACEMENT_FREE_IN_FRONT : Nat
  /-- `TileCanWalk`, applied to a tile pointer (`none` is `NULL`). -/
  TileCanWalk : Option Tile → Bool
  /-- `MapObjectIsTileOKStrict(mo, tile, isEmpty, tileAbove, tileBelow,
  numWallsAdjacent, numWallsAround)`. -/
  MapObjectIsTileOKStrict : MapObject → Nat → Bool → Nat → Nat → Int → Int → Bool
  /-- `MapObjectIsTileOK(mo, tile, isEmpty, tileAbove)`. -/
  MapObjectIsTileOK : MapObject → Nat → Bool → Nat → Bool
  /-- `MapObjectGetPlacementPos`: the position of the object inside its tile. -/
  MapObjectGetPlacementPos : MapObject → Vec2i → Vec2
  /-- `MapObjectGetFlags`: the tile item flags of the object, a set of bits. -/
  MapObjectGetFlags : MapObject → Nat

/-- `MapGetNumWallsAdjacentTile`: for a tile off the border of the grid, how
many of the tiles to the left, right, above and below cannot be walked on. -/
def MapGetNumWallsAdjacentTile (O : ObjEnv) (m : Map) (v : Vec2i) : Int :=
  if v.x > 0 ∧ v.y > 0 ∧ v.x < m.Size.x - 1 ∧ v.y < m.Size.y - 1 then
    (if !O.TileCanWalk (MapGetTile m { x := v.x - 1, y := v.y }) then 1 else 0) +
    (if !O.TileCanWalk (MapGetTile m { x := v.x + 1, y := v.y }) then 1 else 0) +
    (if !O.TileCanWalk (MapGetTile m { x := v.x, y := v.y - 1 }) then 1 else 0) +
    (if !O.TileCanWalk (MapGetTile m { x := v.x, y := v.y + 1 }) then 1 else 0)
  else 0

/-- `MapGetNumWallsAroundTile`: the same count over the 8 surrounding tiles. -/
def MapGetNumWallsAroundTile (O : ObjEnv) (m : Map) (v : Vec2i) : Int :=
  MapGetNumWallsAdjacentTile O m v +
  (if v.x > 0 ∧ v.y > 0 ∧ v.x < m.Size.x - 1 ∧ v.y < m.Size.y - 1 then
    (if !O.TileCanWalk (MapGetTile m { x := v.x - 1, y := v.y - 1 }) then 1 else 0) +
    (if !O.TileCanWalk (MapGetTile m { x := v.x + 1, y := v.y + 1 }) then 1 else 0) +
    (if !O.TileCanWalk (MapGetTile m { x := v.x + 1, y := v.y - 1 }) then 1 else 0) +
    (if !O.TileCanWalk (MapGetTile m { x := v.x - 1, y := v.y + 1 }) then 1 else 0)
  else 0)

/-- The `NMapObjectAdd` message handed to `ObjAdd`.  `Pos` is the placement
position (`Vec2ToNet` only changes the representation). -/
structure NMapObjectAdd where
  UID : Int
  MapObjectClass : String
  Pos : Vec2
  TileItemFlags : Nat
  Health : Int
  deriving DecidableEq, Repr

/-- Modelled from the spec: the object store behind `ObjsGetNextUID` and
`ObjAdd`, which are not under `src/`, as far as `MapTryPlaceOneObject` touches
it.  Each call of `ObjsGetNextUID` hands out a fresh id (the counter
`nextUID`), and `ObjAdd` is recorded as an emitted add-object event. -/
structure ObjState where
  nextUID : Int
  added : List NMapObjectAdd
  deriving DecidableEq, Repr

/-- `MapTryPlaceOneObject`.  The state is the map and the object store.  The
strict check and its arguments are evaluated only in strict mode; when it
passes, or in loose mode, the loose check decides.  `extraFlags` is a set of
tile item flag bits. -/
def MapTryPlaceOneObject (P : PlaceEnv) (O : ObjEnv) (m : Map) (v : Vec2i) (mo : MapObject)
    (extraFlags : Nat) (isStrictMode : Bool) (s : ObjState) : Res (Map × ObjState) Bool :=
  if !O.ammoEnabled && decide (mo.objType = O.MAP_OBJECT_TYPE_PICKUP_SPAWNER) &&
      decide (mo.pickupType = O.PICKUP_AMMO) then Res.ok false (m, s)
  else
    let t := MapGetTile m v
    match IMapGet m v with
    | none => Res.undef
    | some iMap =>
      let isEmpty := P.TileIsClear t
      let strictFails : Option Bool :=
        if isStrictMode then
          (IMapGet m { x := v.x, y := v.y - 1 }).bind fun above =>
          (IMapGet m { x := v.x, y := v.y + 1 }).bind fun below =>
          some (!O.MapObjectIsTileOKStrict mo iMap isEmpty above below
            (MapGetNumWallsAdjacentTile O m v) (MapGetNumWallsAroundTile O m v))
        else some false
      match strictFails with
      | none => Res.undef
      | some true => Res.ok false (m, s)
      | some false =>
        match IMapGet m { x := v.x, y := v.y - 1 } with
        | none => Res.undef
        | some above =>
          if !O.MapObjectIsTileOK mo iMap isEmpty above then Res.ok false (m, s)
          else
            let hinted : Res Map Unit :=
              if mo.Flags &&& (1 <<< O.PLACEMENT_FREE_IN_FRONT) ≠ 0 then
                match IMapGet m { x := v.x, y := v.y + 1 } with
                | none => Res.undef
                | some below => IMapSet m { x := v.x, y := v.y + 1 } (below ||| MAP_LEAVEFREE)
              else Res.ok () m
            match hinted with
            | Res.ok _ m1 =>
              Res.ok true
                (m1, { nextUID := s.nextUID + 1,
                       added := s.added ++
                         [{ UID := s.nextUID, MapObjectClass := mo.Name,
                            Pos := O.MapObjectGetPlacementPos mo v,
                            TileItemFlags := O.MapObjectGetFlags mo ||| extraFlags,
                            Health := mo.Health }] })
            | Res.assertFail msg m1 => Res.assertFail msg (m1, s)
            | Res.undef => Res.undef

/-- The access code of cell `v` (`MAP_NOTHING` when the read of `iMap` is
undefined, which a well-formed grid excludes). -/
def codeAt (m : Map) (v : Vec2i) : Nat :=
  (IMapGet m v).getD MAP_NOTHING

/-- The ammo-spawner gate of `MapTryPlaceOneObject`: ammo is disabled and the
object spawns ammo pickups. -/
def ammoSpawnerOff (O : ObjEnv) (mo : MapObject) : Bool :=
  !O.ammoEnabled && decide (mo.objType = O.MAP_OBJECT_TYPE_PICKUP_SPAWNER) &&
    decide (mo.pickupType = O.PICKUP_AMMO)

/-- The strict tile check with the arguments `MapTryPlaceOneObject` passes for
tile `v`. -/
def strictCheckAt (P : PlaceEnv) (O : ObjEnv) (m : Map) (v : Vec2i) (mo : MapObject) : Bool :=
  O.MapObjectIsTileOKStrict mo (codeAt m v) (P.TileIsClear (MapGetTile m v))
    (codeAt m { x := v.x, y := v.y - 1 }) (codeAt m { x := v.x, y := v.y + 1 })
    (MapGetNumWallsAdjacentTile O m v) (MapGetNumWallsAroundTile O m v)

/-- The loose tile check with the arguments `MapTryPlaceOneObject` passes for
tile `v`. -/
def looseCheckAt (P : PlaceEnv) (O : ObjEnv) (m : Map) (v : Vec2i) (mo : MapObject) : Bool :=
  O.MapObjectIsTileOK mo (codeAt m v) (P.TileIsClear (MapGetTile m v))
    (codeAt m { x := v.x, y := v.y - 1 })

/-- The object carries the free-in-front placement flag. -/
def hasFreeInFront (O : ObjEnv) (mo : MapObject) : Bool :=
  decide (mo.Flags &&& (1 <<< O.PLACEMENT_FREE_IN_FRONT) ≠ 0)

/-- The add-object event of `MapTryPlaceOneObject` for object `mo` on tile `v`
in store state `s`. -/
def addObjectEvent (O : ObjEnv) (v : Vec2i) (mo : MapObject) (extraFlags : Nat)
    (s : ObjState) : NMapObjectAdd :=
  { UID := s.nextUID, MapObjectClass := mo.Name, Pos := O.MapObjectGetPlacementPos mo v,
    TileItemFlags := O.MapObjectGetFlags mo ||| extraFlags, Health := mo.Health }

/-- The access codes after the leave-free bit is OR-ed into the code of the
cell directly below `v`. -/
def leaveFreeBelow (m : Map) (v : Vec2i) : List Nat :=
  m.iMap.set ((v.y + 1) * m.Size.x + v.x).toNat
    (codeAt m { x := v.x, y := v.y + 1 } ||| MAP_LEAVEFREE)

/-- A grid of 1 by 2 cells: the bottom cell holds code `c`, the cell above it
code `a`, and both tiles are `t`. -/
def bottomRowGrid (t : Tile) (a c : Nat) : Map :=
  { Tiles := [t, t], iMap := [a, c], Size := { x := 1, y := 2 }, tilesSeen := 0,
    NumExplorableTiles := 0, keyAccessCount := 0 }

/-- The outcome of `MapTryPlaceOneObject` on a well-formed grid, case by
case. -/
def placeOneObjectOutcome (P : PlaceEnv) (O : ObjEnv) (m : Map) (v : Vec2i) (mo : MapObject)
    (extraFlags : Nat) (isStrictMode : Bool) (s : ObjState) : Res (Map × ObjState) Bool :=
  if ammoSpawnerOff O mo = true ∨ (isStrictMode = true ∧ strictCheckAt P O m v mo = false) ∨
      looseCheckAt P O m v mo = false then Res.ok false (m, s)
  else if hasFreeInFront O mo = false then
    Res.ok true (m, { nextUID := s.nextUID + 1,
                      added := s.added ++ [addObjectEvent O v mo extraFlags s] })
  else if 0 ≤ (v.y + 1) * m.Size.x + v.x ∧
      (v.y + 1) * m.Size.x + v.x < (m.iMap.length : Int) then
    Res.ok true
      ({ m with iMap := leaveFreeBelow m v },
       { nextUID := s.nextUID + 1,
         added := s.added ++ [addObjectEvent O v mo extraFlags s] })
  else Res.undef

/-! ## Concrete instances used to evaluate the embedding -/

/-- An instance of the header parameters: tiles of 16 by 12 units with the
tile of a position found by floor division, five entity kinds `0..4`, and
no-walk as flag bit `1`. -/
def exampleEnv : Env :=
  { Vec2ToTile := fun p => { x := p.x / 16, y := p.y / 12 },
    KIND_PICKUP := 4,
    MAPTILE_NO_WALK := 1 }

/-- A grid of 2 by 2 tiles: tile 0 holds thing `(3, 1)`, tile 1 is not
walkable, tile 3 holds things `(5, 0)` and `(7, 0)`. -/
def exampleMap : Map :=
  { Tiles :=
      [ { flags := 0, isVisited := false, things := [{ Id := 3, Kind := 1 }] },
        { flags := 1, isVisited := false, things := [] },
        { flags := 0, isVisited := false, things := [] },
        { flags := 0, isVisited := false,
          things := [{ Id := 5, Kind := 0 }, { Id := 7, Kind := 0 }] } ],
    iMap := [0, 1, 0x403, 2],
    Size := { x := 2, y := 2 },
    tilesSeen := 0,
    NumExplorableTiles := 3,
    keyAccessCount := 2 }

/-- An instance of the placement parameters: a door-group constructor that
leaves the map alone, a tile is clear when it exists and holds no thing, tile
centres for tiles of 16 by 12 units, and objective types collect `1` and
destroy `2`. -/
def examplePlaceEnv : PlaceEnv :=
  { MapAddDoorGroup := fun m _ _ => m,
    TileIsClear := fun t =>
      match t with
      | some tile => tile.things.isEmpty
      | none => false,
    Vec2CenterOfTile := fun v => { x := v.x * 16 + 8, y := v.y * 12 + 6 },
    OBJECTIVE_COLLECT := 1,
    OBJECTIVE_DESTROY := 2 }

/-- A grid of 5 by 3 cells, all floor except a door run `(1,1), (2,1), (3,1)`
and a room cell with the Red access bit at `(3, 2)`, below the right end of
the run. -/
def exampleDoorMap : Map :=
  { Tiles := List.replicate 15 { flags := 0, isVisited := false, things := [] },
    iMap := [0, 0, 0, 0, 0,
             0, 2, 2, 2, 0,
             0, 0, 0, 0x803, 0],
    Size := { x := 5, y := 3 },
    tilesSeen := 0,
    NumExplorableTiles := 15,
    keyAccessCount := 2 }

/-- A callback that succeeds on tile `(0, 1)` only and counts its invocations
in its data; it leaves the map alone. -/
def exampleTryPlace : TryPlaceFunc Nat :=
  fun m v d => (decide (v = { x := 0, y := 1 }), m, d + 1)

/-- A callback that always succeeds and counts its invocations. -/
def exampleTryPlaceAlways : TryPlaceFunc Nat :=
  fun m _ d => (true, m, d + 1)

/-- A draw sequence: tile `(0, 0)` first, then tile `(0, 1)` for ever. -/
def exampleDraws : Nat → Vec2i :=
  fun i => if i = 0 then { x := 0, y := 0 } else { x := 0, y := 1 }

/-- A grid of 2 by 2 floor cells without any access bit and with
`keyAccessCount = 1`. -/
def exampleOpenMap : Map :=
  { Tiles := List.replicate 4 { flags := 0, isVisited := false, things := [] },
    iMap := [0, 0, 0, 0],
    Size := { x := 2, y := 2 },
    tilesSeen := 0,
    NumExplorableTiles := 4,
    keyAccessCount := 1 }

/-- A grid of 4 by 2 cells with `keyAccessCount = 6`: the top row holds room
cells with the Blue, Green, Yellow and no access bit, the bottom row is
floor; all tiles are empty. -/
def exampleKeyMap : Map :=
  { Tiles := List.replicate 8 { flags := 0, isVisited := false, things := [] },
    iMap := [0x403, 0x203, 0x103, 0x003,
             0, 0, 0, 0],
    Size := { x := 4, y := 2 },
    tilesSeen := 0,
    NumExplorableTiles := 8,
    keyAccessCount := 6 }

/-- A draw sequence that walks along the top row of a grid of width 4, again
and again. -/
def exampleKeyDraws : Nat → Vec2i :=
  fun i => { x := ((i % 4 : Nat) : Int), y := 0 }

/-- The cells `(3, 4), (4, 4), (5, 4)`: a horizontal strip of three cells. -/
def exampleStrip : List Vec2i :=
  [{ x := 3, y := 4 }, { x := 4, y := 4 }, { x := 5, y := 4 }]

/-- The scenario grid: 10 by 10 floor cells, except the three cells of
`exampleStrip`, which hold `code`; `keyAccessCount = 2`; all tiles empty. -/
def exampleStripMap (code : Nat) : Map :=
  { Tiles := List.replicate 100 { flags := 0, isVisited := false, things := [] },
    iMap := (List.range 100).map
      (fun i => if i = 43 ∨ i = 44 ∨ i = 45 then code else MAP_FLOOR),
    Size := { x := 10, y := 10 },
    tilesSeen := 0,
    NumExplorableTiles := 100,
    keyAccessCount := 2 }

/-- A draw sequence over the 10 by 10 grid: `(0, 0)`, `(4, 4)`, and then
`(9, 9)` for ever. -/
def exampleStripDraws : Nat → Vec2i :=
  fun i => if i = 0 then { x := 0, y := 0 } else if i = 1 then { x := 4, y := 4 }
    else { x := 9, y := 9 }

/-- A grid of 2 by 2 cells with two door cells, `(1, 0)` and `(0, 1)`, on
floor; both start a door group. -/
def exampleTwoDoorMap : Map :=
  { Tiles := List.replicate 4 { flags := 0, isVisited := false, things := [] },
    iMap := [0, 2,
             2, 0],
    Size := { x := 2, y := 2 },
    tilesSeen := 0,
    NumExplorableTiles := 4,
    keyAccessCount := 1 }

/-- An instance of the object placement parameters: ammo enabled, the
free-in-front flag as bit 6, a tile can be walked on when it exists and lacks
flag bit `1`.  The two tile checks follow the description of the
specification: the loose check accepts an empty tile whose base type is Floor,
Square or Room; the strict check also wants the tile without leave-free hint
and, for an object with the free-in-front flag, a Floor cell below. -/
def exampleObjEnv : ObjEnv :=
  { ammoEnabled := true,
    MAP_OBJECT_TYPE_PICKUP_SPAWNER := 3,
    PICKUP_AMMO := 3,
    PLACEMENT_FREE_IN_FRONT := 6,
    TileCanWalk := fun t =>
      match t with
      | some tile => decide (tile.flags &&& 1 = 0)
      | none => false,
    MapObjectIsTileOKStrict := fun mo tile isEmpty _ below _ _ =>
      isEmpty &&
      (decide (tile &&& MAP_MASKACCESS = MAP_FLOOR) || decide (tile &&& MAP_MASKACCESS = MAP_SQUARE) ||
        decide (tile &&& MAP_MASKACCESS = MAP_ROOM)) &&
      decide (tile &&& MAP_LEAVEFREE = 0) &&
      (decide (mo.Flags &&& (1 <<< 6) = 0) || decide (below &&& MAP_MASKACCESS = MAP_FLOOR)),
    MapObjectIsTileOK := fun _ tile isEmpty _ =>
      isEmpty &&
      (decide (tile &&& MAP_MASKACCESS = MAP_FLOOR) || decide (tile &&& MAP_MASKACCESS = MAP_SQUARE) ||
        decide (tile &&& MAP_MASKACCESS = MAP_ROOM)),
    MapObjectGetPlacementPos := fun _ v => { x := v.x * 16 + 8, y := v.y * 12 + 6 },
    MapObjectGetFlags := fun _ => 0 }

/-- A map object with the free-in-front placement flag (bit 6) and no other
flag. -/
def exampleShelf : MapObject :=
  { Name := "shelf", objType := 0, pickupType := 0, Flags := 64, Health := 40 }

/-- A map object without placement flags. -/
def examplePlant : MapObject :=
  { Name := "plant", objType := 0, pickupType := 0, Flags := 0, Health := 20 }

/-- A grid of 6000 by 5000 floor cells, freshly loaded: 30000000 tiles, all
of them explorable, none visited. -/
def exampleLargeMap : Map :=
  { Tiles := List.replicate 30000000 { flags := 0, isVisited := false, things := [] },
    iMap := List.replicate 30000000 0,
    Size := { x := 6000, y := 5000 },
    tilesSeen := 0,
    NumExplorableTiles := 30000000,
    keyAccessCount := 0 }

/-- Three objectives: a collect objective wanting 3 instances, an objective of
another type (`0`), and a destroy objective with 1 of 2 instances placed. -/
def exampleObjectives : List Objective :=
  [{ objType := 1, Count := 3, placed := 0, Required := 3 },
   { objType := 0, Count := 5, placed := 1, Required := 2 },
   { objType := 2, Count := 2, placed := 1, Required := 2 }]

/-- A collectible placement that counts the attempts in the world and succeeds
on every other attempt, starting with a success. -/
def exampleTryCollect : TryObjective Nat :=
  fun _ w => (decide (w % 2 = 0), w + 1)

/-- A destructible placement that counts the attempts in the world and always
fails. -/
def exampleTryBlowup : TryObjective Nat :=
  fun _ w => (false, w + 1)

/-! ## Lemmas -/

/-- In a well-formed grid the index of an in-bounds position is inside both
arrays. -/
theorem index_in_range (m : Map) (pos : Vec2i) (hwf : m.WF)
    (hx0 : 0 ≤ pos.x) (hx1 : pos.x < m.Size.x)
    (hy0 : 0 ≤ pos.y) (hy1 : pos.y < m.Size.y) :
    0 ≤ pos.y * m.Size.x + pos.x ∧
    pos.y * m.Size.x + pos.x < m.Size.x * m.Size.y := by
  obtain ⟨_, _, _, _⟩ := hwf
  constructor
  · have := mul_nonneg hy0 (le_trans hx0 (le_of_lt hx1))
    omega
  · have h1 : (pos.y + 1) * m.Size.x ≤ m.Size.y * m.Size.x :=
      mul_le_mul_of_nonneg_right (by omega) (by omega)
    nlinarith

/-- `MapIsTileIn` is the bounds test of `MapGetTile`. -/
theorem MapIsTileIn_iff (m : Map) (v : Vec2i) :
    MapIsTileIn m v = true ↔
      (0 ≤ v.x ∧ v.x < m.Size.x ∧ 0 ≤ v.y ∧ v.y < m.Size.y) := by
  simp only [MapIsTileIn, Bool.not_eq_true', Bool.or_eq_false_iff,
    decide_eq_false_iff_not]
  omega

/-- The pointer `MapGetTile` returns is non-null exactly inside the grid. -/
theorem MapGetTilePtr_eq_some (m : Map) (v : Vec2i) (p : Int) :
    MapGetTilePtr m v = some p ↔
      (MapIsTileIn m v = true ∧ p = v.y * m.Size.x + v.x) := by
  rw [MapIsTileIn_iff]
  unfold MapGetTilePtr
  split
  · constructor
    · intro h; cases h
    · rintro ⟨h, _⟩; omega
  · constructor
    · intro h
      simp only [Option.some.injEq] at h
      refine ⟨by omega, h.symm⟩
    · rintro ⟨_, h⟩
      rw [h]

/-- A non-null tile pointer is a non-negative index. -/
theorem MapGetTilePtr_nonneg (m : Map) (v : Vec2i) (p : Int)
    (h : MapGetTilePtr m v = some p) : 0 ≤ p := by
  obtain ⟨hin, hp⟩ := (MapGetTilePtr_eq_some m v p).1 h
  obtain ⟨hx0, hx1, hy0, _⟩ := (MapIsTileIn_iff m v).1 hin
  have := mul_nonneg hy0 (le_trans hx0 (le_of_lt hx1))
  omega

/-- Reading a `CArray` at a non-negative index. -/
theorem CArrayGet_nonneg {α : Type} (a : List α) (p : Int) (h : 0 ≤ p) :
    CArrayGet a p = a[p.toNat]? := by
  simp [CArrayGet, h]

/-- A successful `CArrayGet` read is inside the array. -/
theorem CArrayGet_eq_some {α : Type} (a : List α) (p : Int) (x : α)
    (h : CArrayGet a p = some x) : 0 ≤ p ∧ a[p.toNat]? = some x := by
  unfold CArrayGet at h
  split at h
  · exact ⟨by assumption, h⟩
  · cases h

/-- In a well-formed grid every in-grid tile pointer designates a tile. -/
theorem tile_exists (m : Map) (v : Vec2i) (hwf : m.WF)
    (hin : MapIsTileIn m v = true) :
    ∃ p tile, MapGetTilePtr m v = some p ∧ 0 ≤ p ∧ m.Tiles[p.toNat]? = some tile := by
  obtain ⟨hx0, hx1, hy0, hy1⟩ := (MapIsTileIn_iff m v).1 hin
  have hr := index_in_range m v hwf hx0 hx1 hy0 hy1
  obtain ⟨_, _, hT, _⟩ := hwf
  have ht : (v.y * m.Size.x + v.x).toNat < m.Tiles.length := by omega
  exact ⟨_, m.Tiles[(v.y * m.Size.x + v.x).toNat],
    (MapGetTilePtr_eq_some m v _).2 ⟨hin, rfl⟩, hr.1, List.getElem?_eq_getElem ht⟩

/-- A store through a tile pointer changes one element of `Tiles`. -/
theorem setTile_getElem? (m : Map) (p : Int) (tile : Tile) (j : Nat) :
    (m.setTile p tile).Tiles[j]? =
      if p.toNat = j then (if p.toNat < m.Tiles.length then some tile else none)
      else m.Tiles[j]? := by
  simp [Map.setTile, List.getElem?_set]

/-- A store through a tile pointer leaves the other tiles as they are. -/
theorem setTile_other (m : Map) (p : Int) (tile : Tile) (j : Nat)
    (h : j ≠ p.toNat) : (m.setTile p tile).Tiles[j]? = m.Tiles[j]? := by
  rw [setTile_getElem?, if_neg (fun e => h e.symm)]

/-- The scan finds the first matching entry: the list splits around it. -/
theorem findThing_some (id kind : Int) :
    ∀ (l : List ThingId) (i k : Nat), findThing id kind l i = some k →
      ∃ l1 l2, l = l1 ++ { Id := id, Kind := kind } :: l2 ∧
        ({ Id := id, Kind := kind } : ThingId) ∉ l1 ∧ k = i + l1.length := by
  intro l
  induction l with
  | nil => intro i k h; simp [findThing] at h
  | cons a rest ih =>
    intro i k h
    unfold findThing at h
    split at h
    · rename_i hm
      refine ⟨[], rest, ?_, by simp, ?_⟩
      · cases a
        simp only at hm
        simp [hm.1, hm.2]
      · simp at h; simp [h]
    · rename_i hm
      obtain ⟨l1, l2, e, hn, hk⟩ := ih (i + 1) k h
      refine ⟨a :: l1, l2, by simp [e], ?_, by simp [hk]; omega⟩
      intro hmem
      rcases List.mem_cons.1 hmem with h1 | h1
      · apply hm
        rw [← h1]
        exact ⟨rfl, rfl⟩
      · exact hn h1

/-- The scan fails exactly when no entry matches. -/
theorem findThing_none (id kind : Int) :
    ∀ (l : List ThingId) (i : Nat),
      findThing id kind l i = none ↔ ({ Id := id, Kind := kind } : ThingId) ∉ l := by
  intro l
  induction l with
  | nil => intro i; simp [findThing]
  | cons a rest ih =>
    intro i
    unfold findThing
    split
    · rename_i hm
      cases a
      simp only at hm
      simp [hm.1, hm.2]
    · rename_i hm
      rw [ih (i + 1)]
      have hne : ({ Id := id, Kind := kind } : ThingId) ≠ a := by
        intro e
        apply hm
        rw [← e]
        exact ⟨rfl, rfl⟩
      simp [hne]

/-- `CArrayDelete` at the position of the split removes the middle entry. -/
theorem eraseIdx_split {α : Type} (l1 l2 : List α) (a : α) :
    (l1 ++ a :: l2).eraseIdx l1.length = l1 ++ l2 := by
  induction l1 with
  | nil => simp
  | cons b l ih => simp [ih]

/-- `AddItemToTile` on a valid item and an existing tile returns. -/
theorem AddItemToTile_valid (E : Env) (m : Map) (t : TTileItem) (p : Int) (tl : Tile)
    (hp : 0 ≤ p) (hg : m.Tiles[p.toNat]? = some tl)
    (hid : 0 ≤ t.id) (hk0 : 0 ≤ t.kind) (hk1 : t.kind ≤ E.KIND_PICKUP) :
    AddItemToTile E m t (some p) =
      Res.ok () (m.setTile p { tl with things := tl.things ++ [t.thing] }) := by
  have hc : CArrayGet m.Tiles p = some tl := by rw [CArrayGet_nonneg _ _ hp, hg]
  unfold AddItemToTile
  simp only [ge_iff_le, not_le, not_and]
  rw [if_neg (by omega), if_neg (by intro h; have := h hk0; omega)]
  simp only [hc, TTileItem.thing]

/-- `MapRemoveTileItem` on an item whose position is inside the grid: the
first matching entry is deleted, or the assertion fails. -/
theorem MapRemoveTileItem_in (E : Env) (m : Map) (t : TTileItem) (p : Int) (tl : Tile)
    (hptr : MapGetTileOfItem E m t = some p) (hg : m.Tiles[p.toNat]? = some tl) :
    (t.thing ∈ tl.things →
      ∃ l1 l2, tl.things = l1 ++ t.thing :: l2 ∧ t.thing ∉ l1 ∧
        MapRemoveTileItem E m t =
          Res.ok () (m.setTile p { tl with things := l1 ++ l2 })) ∧
    (t.thing ∉ tl.things →
      MapRemoveTileItem E m t =
        Res.assertFail "Did not find element to delete" m) := by
  have hp : 0 ≤ p := MapGetTilePtr_nonneg m _ p hptr
  have hin : MapIsPosIn E m t.Pos = true :=
    ((MapGetTilePtr_eq_some m _ p).1 hptr).1
  have hc : CArrayGet m.Tiles p = some tl := by rw [CArrayGet_nonneg _ _ hp, hg]
  constructor
  · intro hmem
    cases hf : findThing t.id t.kind tl.things 0 with
    | none =>
      exact absurd hmem ((findThing_none t.id t.kind tl.things 0).1 hf)
    | some k =>
      obtain ⟨l1, l2, e, hn, hk⟩ := findThing_some t.id t.kind tl.things 0 k hf
      refine ⟨l1, l2, e, hn, ?_⟩
      unfold MapRemoveTileItem
      simp only [hin, Bool.not_true, Bool.false_eq_true, if_false, hptr, hc, hf]
      have hk2 : k = l1.length := by omega
      have he : tl.things.eraseIdx k = l1 ++ l2 := by
        rw [hk2, e]; exact eraseIdx_split l1 l2 _
      rw [he]
  · intro hmem
    have hf := (findThing_none t.id t.kind tl.things 0).2 hmem
    unfold MapRemoveTileItem
    simp only [hin, Bool.not_true, Bool.false_eq_true, if_false, hptr, hc, hf]

/-- `MapRemoveTileItem` on an item whose position is outside the grid returns
at once. -/
theorem MapRemoveTileItem_out (E : Env) (m : Map) (t : TTileItem)
    (hout : MapIsPosIn E m t.Pos = false) :
    MapRemoveTileItem E m t = Res.ok () m := by
  simp [MapRemoveTileItem, hout]

/-- A store through a tile pointer does not move any tile pointer. -/
theorem MapGetTilePtr_setTile (m : Map) (p : Int) (tile : Tile) (v : Vec2i) :
    MapGetTilePtr (m.setTile p tile) v = MapGetTilePtr m v := rfl

/-- The second of two stores through the same pointer wins. -/
theorem setTile_setTile (m : Map) (p : Int) (a b : Tile) :
    (m.setTile p a).setTile p b = m.setTile p b := by
  simp [Map.setTile, List.set_set]

/-- An index that reads a tile is inside `Tiles`. -/
theorem lt_length_of_getElem? {α : Type} (l : List α) (i : Nat) (a : α)
    (h : l[i]? = some a) : i < l.length := by
  rcases Nat.lt_or_ge i l.length with h1 | h1
  · exact h1
  · rw [List.getElem?_eq_none h1] at h; cases h

/-- Tile pointers depend on the grid only through its size. -/
theorem MapGetTilePtr_congr (m m1 : Map) (h : m1.Size = m.Size) (v : Vec2i) :
    MapGetTilePtr m1 v = MapGetTilePtr m v := by
  simp [MapGetTilePtr, h]

/-- Mapping a field over `Tiles` is blind to a store that keeps the field. -/
theorem map_set_same {α β : Type} (f : α → β) :
    ∀ (l : List α) (i : Nat) (a b : α), l[i]? = some a → f b = f a →
      (l.set i b).map f = l.map f := by
  intro l
  induction l with
  | nil => intro i a b h; simp at h
  | cons c rest ih =>
    intro i a b h hf
    cases i with
    | zero =>
      simp only [List.getElem?_cons_zero, Option.some.injEq] at h
      simp [hf, h]
    | succ n =>
      simp only [List.getElem?_cons_succ] at h
      simp [ih n a b h hf]

/-- Counting after a store, without truncated subtraction. -/
theorem countP_set_add {α : Type} (q : α → Bool) :
    ∀ (l : List α) (i : Nat) (a b : α), l[i]? = some a →
      (l.set i b).countP q + (if q a = true then 1 else 0) =
        l.countP q + (if q b = true then 1 else 0) := by
  intro l
  induction l with
  | nil => intro i a b h; simp at h
  | cons c rest ih =>
    intro i a b h
    cases i with
    | zero =>
      simp only [List.getElem?_cons_zero, Option.some.injEq] at h
      subst h
      simp only [List.set_cons_zero, List.countP_cons]
      omega
    | succ n =>
      simp only [List.getElem?_cons_succ] at h
      have := ih n a b h
      simp only [List.set_cons_succ, List.countP_cons]
      omega

/-- What a returning `MapMarkAsVisited` did. -/
theorem MapMarkAsVisited_ok (E : Env) (m m1 : Map) (pos : Vec2i)
    (h : MapMarkAsVisited E m pos = Res.ok () m1) :
    ∃ p tl, MapGetTilePtr m pos = some p ∧ 0 ≤ p ∧ m.Tiles[p.toNat]? = some tl ∧
      m1 = Map.setTile
        (if !tl.isVisited && decide (tl.flags &&& E.MAPTILE_NO_WALK = 0) then
          { m with tilesSeen := m.tilesSeen + 1 } else m)
        p { tl with isVisited := true } := by
  unfold MapMarkAsVisited at h
  cases hptr : MapGetTilePtr m pos with
  | none => rw [hptr] at h; cases h
  | some p =>
    rw [hptr] at h
    simp only at h
    cases hc : CArrayGet m.Tiles p with
    | none => rw [hc] at h; cases h
    | some tl =>
      rw [hc] at h
      simp only [Res.ok.injEq, true_and] at h
      obtain ⟨hp, hg⟩ := CArrayGet_eq_some _ _ _ hc
      exact ⟨p, tl, rfl, hp, hg, h.symm⟩

/-- `MapMarkAsVisited` returns on every tile that exists. -/
theorem MapMarkAsVisited_exists (E : Env) (m : Map) (pos : Vec2i) (p : Int) (tl : Tile)
    (hptr : MapGetTilePtr m pos = some p) (hp : 0 ≤ p)
    (hg : m.Tiles[p.toNat]? = some tl) :
    MapMarkAsVisited E m pos = Res.ok ()
      (Map.setTile
        (if !tl.isVisited && decide (tl.flags &&& E.MAPTILE_NO_WALK = 0) then
          { m with tilesSeen := m.tilesSeen + 1 } else m)
        p { tl with isVisited := true }) := by
  have hc : CArrayGet m.Tiles p = some tl := by rw [CArrayGet_nonneg _ _ hp, hg]
  unfold MapMarkAsVisited
  simp only [hptr, hc]

/-- Exploring is reflexive. -/
theorem ExploredFrom_refl (E : Env) (m : Map) : ExploredFrom E m m :=
  ⟨rfl, rfl, rfl, rfl, rfl, rfl, fun _ tl h hv => ⟨tl, h, hv⟩, rfl, le_refl _⟩

/-- Exploring is transitive. -/
theorem ExploredFrom_trans (E : Env) (a b c : Map)
    (h1 : ExploredFrom E a b) (h2 : ExploredFrom E b c) : ExploredFrom E a c := by
  obtain ⟨a1, a2, a3, a4, a5, a6, a7, a8, a9⟩ := h1
  obtain ⟨b1, b2, b3, b4, b5, b6, b7, b8, b9⟩ := h2
  refine ⟨b1.trans a1, b2.trans a2, b3.trans a3, b4.trans a4, b5.trans a5,
    b6.trans a6, fun j tl h hv => ?_, b8.trans a8, le_trans a9 b9⟩
  obtain ⟨tl1, h1, hv1⟩ := a7 j tl h hv
  exact b7 j tl1 h1 hv1

/-- One returning `MapMarkAsVisited` explores, and the marked tile is visited
afterwards. -/
theorem MapMarkAsVisited_explores (E : Env) (m m1 : Map) (pos : Vec2i)
    (h : MapMarkAsVisited E m pos = Res.ok () m1) :
    ExploredFrom E m m1 ∧
    ∃ p tl, MapGetTilePtr m pos = some p ∧ 0 ≤ p ∧
      m1.Tiles[p.toNat]? = some tl ∧ tl.isVisited = true := by
  obtain ⟨p, tl, hptr, hp, hg, hm⟩ := MapMarkAsVisited_ok E m m1 pos h
  have hlen := lt_length_of_getElem? _ _ _ hg
  have hT : m1.Tiles = m.Tiles.set p.toNat { tl with isVisited := true } := by
    rw [hm]; unfold Map.setTile; split <;> rfl
  have hcount := countP_set_add
    (fun t => t.isVisited && decide (t.flags &&& E.MAPTILE_NO_WALK = 0))
    m.Tiles p.toNat tl { tl with isVisited := true } hg
  have hseen : m1.tilesSeen =
      m.tilesSeen + (if (!tl.isVisited && decide (tl.flags &&& E.MAPTILE_NO_WALK = 0)) = true
        then 1 else 0) := by
    rw [hm]; unfold Map.setTile; split <;> simp
  have hfields : m1.Size = m.Size ∧ m1.iMap = m.iMap ∧
      m1.NumExplorableTiles = m.NumExplorableTiles ∧
      m1.keyAccessCount = m.keyAccessCount := by
    rw [hm]; unfold Map.setTile; split <;> exact ⟨rfl, rfl, rfl, rfl⟩
  have hnew : m1.Tiles[p.toNat]? = some { tl with isVisited := true } := by
    rw [hT, List.getElem?_set, if_pos rfl, if_pos hlen]
  refine ⟨?_, p, { tl with isVisited := true }, hptr, hp, hnew, rfl⟩
  unfold ExploredFrom
  refine ⟨hfields.1, hfields.2.1, hfields.2.2.1, hfields.2.2.2, ?_, ?_, ?_, ?_, ?_⟩
  · rw [hT]; exact map_set_same _ _ _ tl _ hg rfl
  · rw [hT]; exact map_set_same _ _ _ tl _ hg rfl
  · intro j tl0 hj hv
    rw [hT, List.getElem?_set]
    by_cases hpj : p.toNat = j
    · rw [if_pos hpj, if_pos hlen]
      exact ⟨_, rfl, rfl⟩
    · rw [if_neg hpj]
      exact ⟨tl0, hj, hv⟩
  · unfold numSeen
    rw [hT, hseen]
    simp only at hcount
    cases hv : tl.isVisited <;> cases hw : decide (tl.flags &&& E.MAPTILE_NO_WALK = 0) <;>
      simp only [hv, hw, Bool.and_self, Bool.and_false, Bool.and_true, Bool.false_eq_true,
        if_false, if_true, Bool.not_true, Bool.not_false, Bool.true_and, Bool.false_and,
        add_zero] at hcount ⊢ <;> omega
  · rw [hseen]; split <;> omega

/-- Invariant rule for counting loops: if every iteration returns and takes
the invariant from `k` to `k + 1` iterations, the loop returns with the
invariant at `n`. -/
theorem forLoop_inv {σ : Type} (body : Int → σ → Res σ Unit) :
    ∀ (n : Nat) (lo : Int) (s : σ) (Inv : Nat → σ → Prop), Inv 0 s →
      (∀ k, k < n → ∀ s0, Inv k s0 →
        ∃ s1, body (lo + (k : Int)) s0 = Res.ok () s1 ∧ Inv (k + 1) s1) →
      ∃ s1, forLoop body n lo s = Res.ok () s1 ∧ Inv n s1 := by
  intro n
  induction n with
  | zero =>
    intro lo s Inv h0 _
    exact ⟨s, rfl, h0⟩
  | succ n ih =>
    intro lo s Inv h0 hstep
    obtain ⟨s1, hb, h1⟩ := hstep 0 (Nat.succ_pos n) s h0
    simp only [Nat.cast_zero, add_zero] at hb
    obtain ⟨s2, hl, h2⟩ := ih (lo + 1) s1 (fun k => Inv (k + 1)) h1 (by
      intro k hk s0 hi
      obtain ⟨s3, hb3, h3⟩ := hstep (k + 1) (Nat.succ_lt_succ hk) s0 hi
      refine ⟨s3, ?_, h3⟩
      rw [← hb3]
      congr 1
      push_cast
      ring)
    refine ⟨s2, ?_, h2⟩
    unfold forLoop
    rw [hb]
    exact hl

/-- Exploring keeps the grid well formed. -/
theorem ExploredFrom_WF (E : Env) (m s : Map) (h : ExploredFrom E m s) (hwf : m.WF) :
    s.WF := by
  obtain ⟨h1, h2, _, _, h5, _⟩ := h
  obtain ⟨w1, w2, w3, w4⟩ := hwf
  have hlen : s.Tiles.length = m.Tiles.length := by
    have := congrArg List.length h5
    simpa using this
  exact ⟨by rw [h1]; exact w1, by rw [h1]; exact w2, by rw [hlen, h1]; exact w3,
    by rw [h2, h1]; exact w4⟩

/-- One row of `MapMarkAllAsVisited`: when the first `y` rows are visited, the
inner loop returns and the first `y + 1` rows are visited. -/
theorem markRow_explores (E : Env) (m s : Map) (yN : Nat) (hwf : m.WF)
    (hy : yN < m.Size.y.toNat) (hs : ExploredFrom E m s)
    (hv : VisitedUpTo s (yN * m.Size.x.toNat)) :
    ∃ s1,
      forLoop (fun x m2 => MapMarkAsVisited E m2 { x := x, y := (0 : Int) + (yN : Int) })
        s.Size.x.toNat 0 s = Res.ok () s1 ∧
      ExploredFrom E m s1 ∧ VisitedUpTo s1 ((yN + 1) * m.Size.x.toNat) := by
  have hsize : s.Size = m.Size := hs.1
  have key := forLoop_inv
    (fun x m2 => MapMarkAsVisited E m2 { x := x, y := (0 : Int) + (yN : Int) })
    s.Size.x.toNat 0 s
    (fun k s0 => ExploredFrom E m s0 ∧ VisitedUpTo s0 (yN * m.Size.x.toNat + k))
    ⟨hs, by simpa using hv⟩
    (by
      intro k hk s0 ⟨he, hvis⟩
      rw [hsize] at hk
      have hwf0 : s0.WF := ExploredFrom_WF E m s0 he hwf
      have hsz : s0.Size = m.Size := he.1
      have hin : MapIsTileIn s0 { x := (0 : Int) + (k : Int), y := (0 : Int) + (yN : Int) } = true := by
        rw [MapIsTileIn_iff, hsz]
        simp only
        omega
      obtain ⟨p, tl, hptr, hp, hg⟩ := tile_exists s0 _ hwf0 hin
      have hmark := MapMarkAsVisited_exists E s0 _ p tl hptr hp hg
      obtain ⟨hexp, p1, tl1, hptr1, _, hg1, hv1⟩ := MapMarkAsVisited_explores E s0 _ _ hmark
      have hpp : p1 = p := by
        rw [hptr] at hptr1
        exact (Option.some.inj hptr1).symm
      subst hpp
      have hpval : p1 = ((0 : Int) + (yN : Int)) * s0.Size.x + ((0 : Int) + (k : Int)) :=
        ((MapGetTilePtr_eq_some s0 _ p1).1 hptr).2
      have hpnat : p1.toNat = yN * m.Size.x.toNat + k := by
        rw [hpval, hsz]
        have hx0 : 0 ≤ m.Size.x := hwf.1
        have e1 : ((m.Size.x.toNat : Nat) : Int) = m.Size.x := Int.toNat_of_nonneg hx0
        have e2 : ((0 : Int) + (yN : Int)) * m.Size.x + ((0 : Int) + (k : Int)) =
            ((yN * m.Size.x.toNat + k : Nat) : Int) := by
          push_cast
          rw [e1]
          ring
        rw [e2]
        exact Int.toNat_natCast _
      refine ⟨_, hmark, ExploredFrom_trans E m s0 _ he hexp, ?_⟩
      intro j hj
      by_cases hjk : j = yN * m.Size.x.toNat + k
      · rw [hjk, ← hpnat]
        exact ⟨tl1, hg1, hv1⟩
      · obtain ⟨tl0, hg0, hv0⟩ := hvis j (by omega)
        exact hexp.2.2.2.2.2.2.1 j tl0 hg0 hv0)
  obtain ⟨s1, hl, he, hvis⟩ := key
  refine ⟨s1, hl, he, ?_⟩
  rw [hsize] at hvis
  have e : (yN + 1) * m.Size.x.toNat = yN * m.Size.x.toNat + m.Size.x.toNat := by ring
  rw [e]
  exact hvis

/-- `MapMarkAllAsVisited` returns on every well-formed grid, explores, and
leaves every tile visited. -/
theorem MapMarkAllAsVisited_explores (E : Env) (m : Map) (hwf : m.WF) :
    ∃ m1, MapMarkAllAsVisited E m = Res.ok () m1 ∧ ExploredFrom E m m1 ∧
      ∀ tile ∈ m1.Tiles, tile.isVisited = true := by
  have key := forLoop_inv
    (fun y m1 =>
      forLoop (fun x m2 => MapMarkAsVisited E m2 { x := x, y := y })
        m1.Size.x.toNat 0 m1)
    m.Size.y.toNat 0 m
    (fun k s0 => ExploredFrom E m s0 ∧ VisitedUpTo s0 (k * m.Size.x.toNat))
    ⟨ExploredFrom_refl E m, by intro j hj; simp at hj⟩
    (by
      intro k hk s0 ⟨he, hvis⟩
      exact markRow_explores E m s0 k hwf hk he hvis)
  obtain ⟨m1, hl, he, hvis⟩ := key
  refine ⟨m1, hl, he, ?_⟩
  intro tile hmem
  obtain ⟨j, hj, hget⟩ := List.getElem_of_mem hmem
  have hwf1 := ExploredFrom_WF E m m1 he hwf
  have hlen : m1.Tiles.length = m.Size.y.toNat * m.Size.x.toNat := by
    obtain ⟨w1, w2, w3, _⟩ := hwf1
    rw [he.1] at w1 w2 w3
    have e1 : ((m.Size.x.toNat : Nat) : Int) = m.Size.x := Int.toNat_of_nonneg w1
    have e2 : ((m.Size.y.toNat : Nat) : Int) = m.Size.y := Int.toNat_of_nonneg w2
    have : (m1.Tiles.length : Int) = ((m.Size.y.toNat * m.Size.x.toNat : Nat) : Int) := by
      push_cast
      rw [e1, e2, w3]
      ring
    exact_mod_cast this
  obtain ⟨tl, hg, hv⟩ := hvis j (by omega)
  rw [List.getElem?_eq_getElem hj, hget] at hg
  rw [Option.some.inj hg]
  exact hv

/-- Every returning sequence of tracker calls on a well-formed grid
explores. -/
theorem runExplore_explores (E : Env) :
    ∀ (ops : List ExploreOp) (m m1 : Map), m.WF →
      runExplore E m ops = Res.ok () m1 → ExploredFrom E m m1 := by
  intro ops
  induction ops with
  | nil =>
    intro m m1 _ h
    simp only [runExplore, Res.ok.injEq, true_and] at h
    rw [← h]
    exact ExploredFrom_refl E m
  | cons op ops ih =>
    intro m m1 hwf h
    cases op with
    | mark pos =>
      unfold runExplore at h
      cases hm : MapMarkAsVisited E m pos with
      | undef => rw [hm] at h; cases h
      | assertFail msg s0 => rw [hm] at h; cases h
      | ok r m2 =>
        rw [hm] at h
        simp only at h
        have he := (MapMarkAsVisited_explores E m m2 pos hm).1
        exact ExploredFrom_trans E m m2 m1 he
          (ih m2 m1 (ExploredFrom_WF E m m2 he hwf) h)
    | markAll =>
      unfold runExplore at h
      obtain ⟨m2, hm, he, _⟩ := MapMarkAllAsVisited_explores E m hwf
      rw [hm] at h
      simp only at h
      exact ExploredFrom_trans E m m2 m1 he
        (ih m2 m1 (ExploredFrom_WF E m m2 he hwf) h)

/-- The number of walkable tiles depends on the tile flags only. -/
theorem numWalkable_congr (E : Env) (m s : Map)
    (h : s.Tiles.map Tile.flags = m.Tiles.map Tile.flags) :
    numWalkable E s = numWalkable E m := by
  have e : ∀ (l : List Tile),
      l.countP (fun t => decide (t.flags &&& E.MAPTILE_NO_WALK = 0)) =
        (l.map Tile.flags).countP (fun f => decide (f &&& E.MAPTILE_NO_WALK = 0)) := by
    intro l
    rw [List.countP_map]
    rfl
  unfold numWalkable
  rw [e, e, h]

/-- In a state explored from a freshly loaded one, the visited counter is the
number of visited walkable tiles and `NumExplorableTiles` is the number of
walkable tiles. -/
theorem explored_counters (E : Env) (m s : Map) (hfresh : FreshlyLoaded E m)
    (he : ExploredFrom E m s) :
    s.tilesSeen = (numSeen E s : Int) ∧
    s.NumExplorableTiles = (numWalkable E s : Int) ∧
    numSeen E s ≤ numWalkable E s := by
  obtain ⟨_, hunv, hzero, hN⟩ := hfresh
  obtain ⟨_, _, h3, _, h5, _, _, h8, _⟩ := he
  have hseen0 : numSeen E m = 0 := by
    unfold numSeen
    rw [List.countP_eq_zero]
    intro a ha
    simp [hunv a ha]
  have hle : numSeen E s ≤ numWalkable E s := by
    unfold numSeen numWalkable
    apply List.countP_mono_left
    intro a _ h
    simp only [Bool.and_eq_true] at h
    exact h.2
  refine ⟨?_, ?_, hle⟩
  · rw [hseen0, hzero] at h8
    simp only [Nat.cast_zero, sub_zero] at h8
    omega
  · rw [h3, hN, numWalkable_congr E m s h5]

/-- Truncating and flooring division agree on the explored percentage when the
counters are counts. -/
theorem percentage_floor (a b : Int) (ha : 0 ≤ a) (hb : 0 < b) :
    Int.tdiv (100 * a) b = ⌊(100 * (a : ℚ)) / (b : ℚ)⌋ := by
  rw [Int.tdiv_eq_ediv (by omega) (by omega)]
  have e : (b : ℚ) = ((b.toNat : Nat) : ℚ) := by
    have : ((b.toNat : Nat) : Int) = b := Int.toNat_of_nonneg (by omega)
    exact_mod_cast this.symm
  have e2 : (100 * (a : ℚ)) = ((100 * a : Int) : ℚ) := by push_cast; ring
  rw [e, e2, Rat.floor_intCast_div_natCast]
  rw [Int.toNat_of_nonneg (by omega)]

/-- A value in the range of a 32-bit `int` is kept as it is. -/
theorem wrapInt32_of_range (x : Int) (h1 : -2147483648 ≤ x) (h2 : x < 2147483648) :
    wrapInt32 x = x := by
  unfold wrapInt32
  omega

/-- The explored percentage when `100 * tilesSeen` fits a 32-bit `int` and
the divisor is positive. -/
theorem MapGetExploredPercentage_of_small (m : Map) (h0 : 0 ≤ m.tilesSeen)
    (h1 : m.tilesSeen ≤ 21474836) (hN : 0 < m.NumExplorableTiles) :
    MapGetExploredPercentage m = some (Int.tdiv (100 * m.tilesSeen) m.NumExplorableTiles) := by
  unfold MapGetExploredPercentage
  rw [wrapInt32_of_range _ (by omega) (by omega), if_neg (by omega)]

/-- When every tile without the no-walk flag is visited, the visited walkable
tiles are the walkable tiles. -/
theorem numSeen_eq_numWalkable (E : Env) (s : Map)
    (hall : ∀ tile ∈ s.Tiles, tile.flags &&& E.MAPTILE_NO_WALK = 0 → tile.isVisited = true) :
    numSeen E s = numWalkable E s := by
  unfold numSeen numWalkable
  apply List.countP_congr
  intro a ha
  simp only [Bool.and_eq_true, decide_eq_true_eq]
  constructor
  · exact fun h => h.2
  · exact fun h => ⟨hall a ha h, h⟩

/-- The one-call sequence `MapMarkAllAsVisited`. -/
theorem runExplore_markAll (E : Env) (m m1 : Map)
    (h : MapMarkAllAsVisited E m = Res.ok () m1) :
    runExplore E m [ExploreOp.markAll] = Res.ok () m1 := by
  unfold runExplore
  rw [h]
  rfl

/-- The large example grid is freshly loaded. -/
theorem exampleLargeMap_fresh : FreshlyLoaded exampleEnv exampleLargeMap := by
  refine ⟨⟨by decide, by decide, ?_, ?_⟩, fun tile ht => ?_, rfl, ?_⟩
  · simp only [exampleLargeMap, List.length_replicate]
    norm_num
  · simp only [exampleLargeMap, List.length_replicate]
    norm_num
  · simp only [exampleLargeMap] at ht
    rw [List.eq_of_mem_replicate ht]
  · simp only [numWalkable, exampleLargeMap, List.countP_replicate]
    rfl

/-- After `MapMarkAllAsVisited` on the large example grid all 30000000 tiles
are seen, and the explored percentage is `-43`: the product
`100 * 30000000 = 3000000000` does not fit a 32-bit `int`, it wraps to
`-1294967296`, and the truncating quotient by `30000000` is `-43`. -/
theorem exampleLargeMap_marked :
    ∃ m1, MapMarkAllAsVisited exampleEnv exampleLargeMap = Res.ok () m1 ∧
      (∀ tile ∈ m1.Tiles, tile.isVisited = true) ∧
      m1.tilesSeen = 30000000 ∧ m1.NumExplorableTiles = 30000000 ∧
      MapGetExploredPercentage m1 = some (-43) := by
  have hfresh := exampleLargeMap_fresh
  obtain ⟨m1, hm, he, hall⟩ := MapMarkAllAsVisited_explores exampleEnv exampleLargeMap hfresh.1
  obtain ⟨hseen, hNs, _⟩ := explored_counters exampleEnv exampleLargeMap m1 hfresh he
  have hN : m1.NumExplorableTiles = 30000000 := he.2.2.1
  have hcount := numSeen_eq_numWalkable exampleEnv m1 (fun tile ht _ => hall tile ht)
  have hT : m1.tilesSeen = 30000000 := by rw [hseen, hcount, ← hNs, hN]
  refine ⟨m1, hm, hall, hT, hN, ?_⟩
  unfold MapGetExploredPercentage
  rw [hT, hN]
  decide

/-- Masking with a colour bit only looks at the access bits. -/
theorem and_colour_of_accessbits (code c : Nat) (hc : MAP_ACCESSBITS &&& c = c) :
    (code &&& MAP_ACCESSBITS) &&& c = code &&& c := by
  rw [Nat.and_assoc, hc]

/-- `AccessCodeToFlags` depends on the access bits of the code only. -/
theorem AccessCodeToFlags_congr (a b : Nat)
    (h : a &&& MAP_ACCESSBITS = b &&& MAP_ACCESSBITS) :
    AccessCodeToFlags a = AccessCodeToFlags b := by
  have e : ∀ c, MAP_ACCESSBITS &&& c = c → a &&& c = b &&& c := by
    intro c hc
    rw [← and_colour_of_accessbits a c hc, ← and_colour_of_accessbits b c hc, h]
  unfold AccessCodeToFlags
  rw [e MAP_ACCESS_RED (by decide), e MAP_ACCESS_BLUE (by decide),
    e MAP_ACCESS_GREEN (by decide), e MAP_ACCESS_YELLOW (by decide)]

/-- Counting over one more element of a prefix. -/
theorem countP_take_succ {α : Type} (q : α → Bool) (l : List α) (n : Nat) (a : α)
    (h : l[n]? = some a) :
    (l.take (n + 1)).countP q = (l.take n).countP q + if q a = true then 1 else 0 := by
  rw [List.take_succ, h]
  simp [List.countP_append, List.countP_cons]

/-- Row-major index of tile `(k, yN)` as a natural number. -/
theorem rowMajor_toNat (W : Int) (hW : 0 ≤ W) (yN k : Nat) :
    (((0 : Int) + (yN : Int)) * W + ((0 : Int) + (k : Int))).toNat = yN * W.toNat + k := by
  have e1 : ((W.toNat : Nat) : Int) = W := Int.toNat_of_nonneg hW
  have e2 : ((0 : Int) + (yN : Int)) * W + ((0 : Int) + (k : Int)) =
      ((yN * W.toNat + k : Nat) : Int) := by
    push_cast
    rw [e1]
    ring
  rw [e2]
  exact Int.toNat_natCast _

/-- The last loop of `MapLoad` returns on every well-formed grid and stores
the number of tiles without the no-walk flag in `NumExplorableTiles`. -/
theorem MapLoad_countExplorable_eq (E : Env) (m : Map) (hwf : m.WF) :
    MapLoad_countExplorable E m =
      Res.ok () { m with NumExplorableTiles := (numWalkable E m : Int) } := by
  have inner : ∀ (yN : Nat), yN < m.Size.y.toNat → ∀ s0 : Map,
      s0 = { m with NumExplorableTiles :=
        (((m.Tiles.take (yN * m.Size.x.toNat)).countP
          (fun t => decide (t.flags &&& E.MAPTILE_NO_WALK = 0)) : Nat) : Int) } →
      ∃ s1,
        forLoop
          (fun x m2 =>
            match MapGetTile m2 { x := x, y := (0 : Int) + (yN : Int) } with
            | none => Res.undef
            | some t =>
              if t.flags &&& E.MAPTILE_NO_WALK = 0 then
                Res.ok () { m2 with NumExplorableTiles := m2.NumExplorableTiles + 1 }
              else Res.ok () m2)
          s0.Size.x.toNat 0 s0 = Res.ok () s1 ∧
        s1 = { m with NumExplorableTiles :=
          (((m.Tiles.take ((yN + 1) * m.Size.x.toNat)).countP
            (fun t => decide (t.flags &&& E.MAPTILE_NO_WALK = 0)) : Nat) : Int) } := by
    intro yN hy s0 hs0
    have hsz : s0.Size = m.Size := by rw [hs0]
    have key := forLoop_inv
      (fun x m2 =>
        match MapGetTile m2 { x := x, y := (0 : Int) + (yN : Int) } with
        | none => Res.undef
        | some t =>
          if t.flags &&& E.MAPTILE_NO_WALK = 0 then
            Res.ok () { m2 with NumExplorableTiles := m2.NumExplorableTiles + 1 }
          else Res.ok () m2)
      s0.Size.x.toNat 0 s0
      (fun k s => s = { m with NumExplorableTiles :=
        (((m.Tiles.take (yN * m.Size.x.toNat + k)).countP
          (fun t => decide (t.flags &&& E.MAPTILE_NO_WALK = 0)) : Nat) : Int) })
      (by simpa using hs0)
      (by
        intro k hk s hs
        rw [hsz] at hk
        have hin : MapIsTileIn m { x := (0 : Int) + (k : Int), y := (0 : Int) + (yN : Int) } = true := by
          rw [MapIsTileIn_iff]
          simp only
          omega
        obtain ⟨p, tl, hptr, hp, hg⟩ := tile_exists m _ hwf hin
        have hpval := ((MapGetTilePtr_eq_some m _ p).1 hptr).2
        have hpnat : p.toNat = yN * m.Size.x.toNat + k := by
          rw [hpval]
          exact rowMajor_toNat m.Size.x hwf.1 yN k
        have hget : MapGetTile s { x := (0 : Int) + (k : Int), y := (0 : Int) + (yN : Int) } =
            some tl := by
          rw [hs]
          show MapGetTile m _ = some tl
          unfold MapGetTile
          rw [hptr]
          simp only [Option.some_bind]
          rw [CArrayGet_nonneg _ _ hp, hg]
        rw [hpnat] at hg
        have hc := countP_take_succ (fun t => decide (t.flags &&& E.MAPTILE_NO_WALK = 0))
          m.Tiles _ tl hg
        simp only [hget]
        by_cases hw : tl.flags &&& E.MAPTILE_NO_WALK = 0
        · rw [if_pos hw]
          refine ⟨_, rfl, ?_⟩
          rw [hs, ← add_assoc, hc]
          simp [hw]
        · rw [if_neg hw]
          refine ⟨_, rfl, ?_⟩
          rw [hs, ← add_assoc, hc]
          simp [hw])
    obtain ⟨s1, hl, h1⟩ := key
    refine ⟨s1, hl, ?_⟩
    rw [h1, hsz]
    have e : (yN + 1) * m.Size.x.toNat = yN * m.Size.x.toNat + m.Size.x.toNat := by ring
    rw [e]
  have outer := forLoop_inv
    (fun y m1 =>
      forLoop
        (fun x m2 =>
          match MapGetTile m2 { x := x, y := y } with
          | none => Res.undef
          | some t =>
            if t.flags &&& E.MAPTILE_NO_WALK = 0 then
              Res.ok () { m2 with NumExplorableTiles := m2.NumExplorableTiles + 1 }
            else Res.ok () m2)
        m1.Size.x.toNat 0 m1)
    m.Size.y.toNat 0 { m with NumExplorableTiles := 0 }
    (fun k s => s = { m with NumExplorableTiles :=
      (((m.Tiles.take (k * m.Size.x.toNat)).countP
        (fun t => decide (t.flags &&& E.MAPTILE_NO_WALK = 0)) : Nat) : Int) })
    (by simp)
    (by
      intro k hk s hs
      exact inner k hk s hs)
  obtain ⟨s1, hl, h1⟩ := outer
  unfold MapLoad_countExplorable
  rw [hl, h1]
  have hlen : m.Tiles.length = m.Size.y.toNat * m.Size.x.toNat := by
    obtain ⟨w1, w2, w3, _⟩ := hwf
    have e1 : ((m.Size.x.toNat : Nat) : Int) = m.Size.x := Int.toNat_of_nonneg w1
    have e2 : ((m.Size.y.toNat : Nat) : Int) = m.Size.y := Int.toNat_of_nonneg w2
    have : (m.Tiles.length : Int) = ((m.Size.y.toNat * m.Size.x.toNat : Nat) : Int) := by
      push_cast
      rw [e1, e2, w3]
      ring
    exact_mod_cast this
  rw [← hlen, List.take_length]
  rfl

/-- In a well-formed grid every read of an access code is defined. -/
theorem IMapGet_defined (m : Map) (v : Vec2i) (hwf : m.WF) :
    ∃ c, IMapGet m v = some c := by
  by_cases h : v.x < 0 ∨ v.x ≥ m.Size.x ∨ v.y < 0 ∨ v.y ≥ m.Size.y
  · exact ⟨MAP_NOTHING, by simp [IMapGet, h]⟩
  · have hr := index_in_range m v hwf (by omega) (by omega) (by omega) (by omega)
    obtain ⟨_, _, _, hI⟩ := hwf
    have hi : (v.y * m.Size.x + v.x).toNat < m.iMap.length := by omega
    refine ⟨m.iMap[(v.y * m.Size.x + v.x).toNat], ?_⟩
    simp only [IMapGet, h, if_false, CArrayGet, hr.1, if_true]
    exact List.getElem?_eq_getElem hi

/-- The decoded level of a cell whose code is known. -/
theorem levelAt_of_IMapGet (m : Map) (v : Vec2i) (c : Nat) (h : IMapGet m v = some c) :
    levelAt m v = AccessCodeToFlags c := by
  simp [levelAt, h]

/-- `AccessCodeToFlags` returns one of the four flags or zero. -/
theorem AccessCodeToFlags_values (c : Nat) :
    AccessCodeToFlags c = 0 ∨ AccessCodeToFlags c = FLAGS_KEYCARD_YELLOW ∨
    AccessCodeToFlags c = FLAGS_KEYCARD_GREEN ∨ AccessCodeToFlags c = FLAGS_KEYCARD_BLUE ∨
    AccessCodeToFlags c = FLAGS_KEYCARD_RED := by
  unfold AccessCodeToFlags
  split
  · simp
  · split
    · simp
    · split
      · simp
      · split <;> simp

/-- On decoded flags the priority rank orders like the numeric value. -/
theorem keycardRank_le_iff (a b : Nat) :
    keycardRank (AccessCodeToFlags a) ≤ keycardRank (AccessCodeToFlags b) ↔
      AccessCodeToFlags a ≤ AccessCodeToFlags b := by
  rcases AccessCodeToFlags_values a with h | h | h | h | h <;>
  rcases AccessCodeToFlags_values b with h2 | h2 | h2 | h2 | h2 <;>
  rw [h, h2] <;> decide

/-- A decoded flag is zero exactly when the code has no access bit. -/
theorem AccessCodeToFlags_eq_zero (c : Nat) :
    AccessCodeToFlags c = 0 ↔ c &&& MAP_ACCESSBITS = 0 := by
  have hzero : AccessCodeToFlags c = 0 ↔
      (c &&& MAP_ACCESS_RED = 0 ∧ c &&& MAP_ACCESS_BLUE = 0 ∧
       c &&& MAP_ACCESS_GREEN = 0 ∧ c &&& MAP_ACCESS_YELLOW = 0) := by
    unfold AccessCodeToFlags
    by_cases h1 : c &&& MAP_ACCESS_RED = 0 <;>
    by_cases h2 : c &&& MAP_ACCESS_BLUE = 0 <;>
    by_cases h3 : c &&& MAP_ACCESS_GREEN = 0 <;>
    by_cases h4 : c &&& MAP_ACCESS_YELLOW = 0 <;>
    simp [h1, h2, h3, h4, FLAGS_KEYCARD_RED, FLAGS_KEYCARD_BLUE, FLAGS_KEYCARD_GREEN,
      FLAGS_KEYCARD_YELLOW]
  rw [hzero]
  constructor
  · rintro ⟨h1, h2, h3, h4⟩
    have e : MAP_ACCESSBITS =
        MAP_ACCESS_RED ||| (MAP_ACCESS_BLUE ||| (MAP_ACCESS_GREEN ||| MAP_ACCESS_YELLOW)) := by
      decide
    rw [e, Nat.and_or_distrib_left, Nat.and_or_distrib_left, Nat.and_or_distrib_left,
      h1, h2, h3, h4]
    rfl
  · intro h
    have e : ∀ k, MAP_ACCESSBITS &&& k = k → c &&& k = 0 := by
      intro k hk
      rw [← and_colour_of_accessbits c k hk, h, Nat.zero_and]
    exact ⟨e _ (by decide), e _ (by decide), e _ (by decide), e _ (by decide)⟩

/-- The first non-zero entry is zero exactly when every entry is zero. -/
theorem firstNonzero_eq_zero (l : List Nat) :
    firstNonzero l = 0 ↔ ∀ a ∈ l, a = 0 := by
  induction l with
  | nil => simp [firstNonzero]
  | cons a l ih =>
    unfold firstNonzero
    by_cases h : a = 0
    · simp [h, ih]
    · simp [h]

/-- A non-zero first non-zero entry is an entry of the list. -/
theorem firstNonzero_mem (l : List Nat) (h : firstNonzero l ≠ 0) :
    firstNonzero l ∈ l := by
  induction l with
  | nil => simp [firstNonzero] at h
  | cons a l ih =>
    unfold firstNonzero at h ⊢
    by_cases ha : a = 0
    · simp only [ha, ne_eq, not_true_eq_false, if_false] at h ⊢
      exact List.mem_cons_of_mem _ (ih h)
    · simp [ha]

/-- Every entry is at most the running maximum. -/
theorem le_foldl_max (l : List Nat) (init : Nat) :
    init ≤ l.foldl max init ∧ ∀ a ∈ l, a ≤ l.foldl max init := by
  induction l generalizing init with
  | nil => simp
  | cons b l ih =>
    simp only [List.foldl_cons, List.mem_cons, forall_eq_or_imp]
    obtain ⟨h1, h2⟩ := ih (max init b)
    exact ⟨le_trans (le_max_left _ _) h1, le_trans (le_max_right _ _) h1, h2⟩

/-- The running maximum is the initial value or an entry. -/
theorem foldl_max_mem (l : List Nat) (init : Nat) :
    l.foldl max init = init ∨ l.foldl max init ∈ l := by
  induction l generalizing init with
  | nil => simp
  | cons b l ih =>
    simp only [List.foldl_cons, List.mem_cons]
    rcases ih (max init b) with h | h
    · rcases max_choice init b with h2 | h2
      · left; rw [h, h2]
      · right; left; rw [h, h2]
    · right; right; exact h

/-- The five decoded levels around a cell of a well-formed grid. -/
theorem probe_levels (m : Map) (pos : Vec2i) (hwf : m.WF) :
    ∃ c0 c1 c2 c3 c4,
      IMapGet m { x := pos.x, y := pos.y } = some c0 ∧
      IMapGet m { x := pos.x - 1, y := pos.y } = some c1 ∧
      IMapGet m { x := pos.x + 1, y := pos.y } = some c2 ∧
      IMapGet m { x := pos.x, y := pos.y - 1 } = some c3 ∧
      IMapGet m { x := pos.x, y := pos.y + 1 } = some c4 ∧
      (probeCells pos).map (levelAt m) =
        [AccessCodeToFlags c0, AccessCodeToFlags c1, AccessCodeToFlags c2,
         AccessCodeToFlags c3, AccessCodeToFlags c4] := by
  obtain ⟨c0, h0⟩ := IMapGet_defined m { x := pos.x, y := pos.y } hwf
  obtain ⟨c1, h1⟩ := IMapGet_defined m { x := pos.x - 1, y := pos.y } hwf
  obtain ⟨c2, h2⟩ := IMapGet_defined m { x := pos.x + 1, y := pos.y } hwf
  obtain ⟨c3, h3⟩ := IMapGet_defined m { x := pos.x, y := pos.y - 1 } hwf
  obtain ⟨c4, h4⟩ := IMapGet_defined m { x := pos.x, y := pos.y + 1 } hwf
  refine ⟨c0, c1, c2, c3, c4, h0, h1, h2, h3, h4, ?_⟩
  have h0' : IMapGet m pos = some c0 := h0
  simp only [probeCells, List.map, levelAt_of_IMapGet m _ _ h0',
    levelAt_of_IMapGet m _ _ h1, levelAt_of_IMapGet m _ _ h2,
    levelAt_of_IMapGet m _ _ h3, levelAt_of_IMapGet m _ _ h4]

/-- In a well-formed grid `MapGetAccessFlags` is the numeric maximum of the
five decoded levels. -/
theorem MapGetAccessFlags_eq (m : Map) (pos : Vec2i) (hwf : m.WF) :
    MapGetAccessFlags m pos.x pos.y =
      some (((probeCells pos).map (levelAt m)).foldl max 0) := by
  obtain ⟨c0, c1, c2, c3, c4, h0, h1, h2, h3, h4, hl⟩ := probe_levels m pos hwf
  rw [hl]
  simp only [MapGetAccessFlags, h0, h1, h2, h3, h4, Option.some_bind, List.foldl]

/-- In a well-formed grid `MapGetDoorKeycardFlag` is the first non-zero of the
five decoded levels. -/
theorem MapGetDoorKeycardFlag_eq (m : Map) (pos : Vec2i) (hwf : m.WF) :
    MapGetDoorKeycardFlag m pos =
      some (firstNonzero ((probeCells pos).map (levelAt m))) := by
  obtain ⟨c0, c1, c2, c3, c4, h0, h1, h2, h3, h4, hl⟩ := probe_levels m pos hwf
  rw [hl]
  simp only [MapGetDoorKeycardFlag, MapGetAccessLevel, h0, h1, h2, h3, h4,
    Option.map_some', Option.some_bind, firstNonzero]
  by_cases a0 : AccessCodeToFlags c0 = 0 <;> by_cases a1 : AccessCodeToFlags c1 = 0 <;>
  by_cases a2 : AccessCodeToFlags c2 = 0 <;> by_cases a3 : AccessCodeToFlags c3 = 0 <;>
  by_cases a4 : AccessCodeToFlags c4 = 0 <;> simp [a0, a1, a2, a3, a4]

/-- Reads of access codes depend on the grid only through its size and
`iMap`. -/
theorem IMapGet_congr (m s : Map) (hs : s.Size = m.Size) (hi : s.iMap = m.iMap)
    (v : Vec2i) : IMapGet s v = IMapGet m v := by
  simp [IMapGet, hs, hi]

/-- `MapGetAccessFlags` depends on the grid only through its size and
`iMap`. -/
theorem MapGetAccessFlags_congr (m s : Map) (hs : s.Size = m.Size) (hi : s.iMap = m.iMap)
    (x y : Int) : MapGetAccessFlags s x y = MapGetAccessFlags m x y := by
  unfold MapGetAccessFlags
  simp only [IMapGet_congr m s hs hi]

/-- The base type of a cell whose code is known. -/
theorem baseAt_of_IMapGet (m : Map) (v : Vec2i) (c : Nat) (h : IMapGet m v = some c) :
    baseAt m v = c &&& MAP_MASKACCESS := by
  simp [baseAt, h]

/-- One cell of `MapSetupDoors` on a state with the codes of the well-formed
grid `m`: a request is issued exactly at an anchor, with the flags of
`MapGetAccessFlags`. -/
theorem setupDoorsCell_eq (P : PlaceEnv) (m : Map) (hwf : m.WF) (x y : Int)
    (s : Map × List DoorGroupRequest) (hs : s.1.Size = m.Size) (hi : s.1.iMap = m.iMap) :
    setupDoorsCell P x y s =
      Res.ok ()
        (if isDoorAnchor m { x := x, y := y } = true then
          (P.MapAddDoorGroup s.1 { x := x, y := y } (flagsAt m { x := x, y := y }),
           s.2 ++ [{ v := { x := x, y := y }, flags := flagsAt m { x := x, y := y } }])
         else s) := by
  obtain ⟨c, hc⟩ := IMapGet_defined m { x := x, y := y } hwf
  obtain ⟨cl, hcl⟩ := IMapGet_defined m { x := x - 1, y := y } hwf
  obtain ⟨cu, hcu⟩ := IMapGet_defined m { x := x, y := y - 1 } hwf
  have hf : MapGetAccessFlags s.1 x y = some (flagsAt m { x := x, y := y }) := by
    rw [MapGetAccessFlags_congr m s.1 hs hi]
    exact MapGetAccessFlags_eq m { x := x, y := y } hwf
  have hc1 : IMapGet s.1 { x := x, y := y } = some c := by
    rw [IMapGet_congr m s.1 hs hi]; exact hc
  have hcl1 : IMapGet s.1 { x := x - 1, y := y } = some cl := by
    rw [IMapGet_congr m s.1 hs hi]; exact hcl
  have hcu1 : IMapGet s.1 { x := x, y := y - 1 } = some cu := by
    rw [IMapGet_congr m s.1 hs hi]; exact hcu
  have hb : baseAt m { x := x, y := y } = c &&& MAP_MASKACCESS := baseAt_of_IMapGet m _ _ hc
  have hbl : baseAt m { x := x - 1, y := y } = cl &&& MAP_MASKACCESS :=
    baseAt_of_IMapGet m _ _ hcl
  have hbu : baseAt m { x := x, y := y - 1 } = cu &&& MAP_MASKACCESS :=
    baseAt_of_IMapGet m _ _ hcu
  unfold setupDoorsCell isDoorAnchor
  rw [hc1]
  simp only [hb, hbl, hbu]
  by_cases h1 : c &&& MAP_MASKACCESS = MAP_DOOR
  · rw [if_neg (not_not.2 h1), hcl1]
    simp only
    by_cases h2 : cl &&& MAP_MASKACCESS = MAP_DOOR
    · rw [if_pos h2]
      simp [h1, h2]
    · rw [if_neg h2, hcu1]
      simp only
      by_cases h3 : cu &&& MAP_MASKACCESS = MAP_DOOR
      · rw [if_pos h3]
        simp [h1, h2, h3]
      · rw [if_neg h3, hf]
        simp [h1, h2, h3]
  · rw [if_pos h1]
    simp [h1]

/-- A column grows by one cell. -/
theorem colCells_succ (k j : Nat) :
    colCells k (j + 1) = colCells k j ++ [{ x := (k : Int), y := (j : Int) }] := by
  simp [colCells, List.range_succ]

/-- The scan order grows by one column. -/
theorem scanCells_succ (k H : Nat) :
    scanCells (k + 1) H = scanCells k H ++ colCells k H := by
  simp [scanCells, List.range_succ]

/-- `MapSetupDoors` on a well-formed grid, with a door-group constructor that
keeps size and access codes: the requests are the anchors in scan order (column
after column), each with the flags of `MapGetAccessFlags` at the anchor. -/
theorem MapSetupDoors_eq (P : PlaceEnv) (m : Map) (hwf : m.WF) (hP : KeepsCodes P) :
    ∃ m1, MapSetupDoors P m =
        Res.ok ()
          (m1, ((scanCells m.Size.x.toNat m.Size.y.toNat).filter (isDoorAnchor m)).map
            (fun v => { v := v, flags := flagsAt m v })) ∧
      m1.Size = m.Size ∧ m1.iMap = m.iMap := by
  have inner : ∀ (k : Nat) (s : Map × List DoorGroupRequest),
      s.1.Size = m.Size → s.1.iMap = m.iMap →
      ∃ s1, forLoop (fun y s2 => setupDoorsCell P ((0 : Int) + (k : Int)) y s2)
          s.1.Size.y.toNat 0 s = Res.ok () s1 ∧
        s1.1.Size = m.Size ∧ s1.1.iMap = m.iMap ∧
        s1.2 = s.2 ++ ((colCells k m.Size.y.toNat).filter (isDoorAnchor m)).map
          (fun v => { v := v, flags := flagsAt m v }) := by
    intro k s hs hi
    have key := forLoop_inv (fun y s2 => setupDoorsCell P ((0 : Int) + (k : Int)) y s2)
      s.1.Size.y.toNat 0 s
      (fun j s1 => s1.1.Size = m.Size ∧ s1.1.iMap = m.iMap ∧
        s1.2 = s.2 ++ ((colCells k j).filter (isDoorAnchor m)).map
          (fun v => { v := v, flags := flagsAt m v }))
      ⟨hs, hi, by simp [colCells]⟩
      (by
        intro j _ s0 ⟨h1, h2, h3⟩
        have hcell := setupDoorsCell_eq P m hwf ((0 : Int) + (k : Int)) ((0 : Int) + (j : Int))
          s0 h1 h2
        simp only [zero_add] at hcell ⊢
        refine ⟨_, hcell, ?_⟩
        rw [colCells_succ, List.filter_append, List.map_append]
        by_cases ha : isDoorAnchor m { x := (k : Int), y := (j : Int) } = true
        · rw [if_pos ha]
          refine ⟨(hP _ _ _).1.trans h1, (hP _ _ _).2.trans h2, ?_⟩
          simp [h3, ha]
        · rw [if_neg ha]
          refine ⟨h1, h2, ?_⟩
          simp [h3, ha])
    rw [hs] at key ⊢
    exact key
  have outer := forLoop_inv
    (fun x s1 => forLoop (fun y s2 => setupDoorsCell P x y s2) s1.1.Size.y.toNat 0 s1)
    m.Size.x.toNat 0 (m, [])
    (fun k s1 => s1.1.Size = m.Size ∧ s1.1.iMap = m.iMap ∧
      s1.2 = ((scanCells k m.Size.y.toNat).filter (isDoorAnchor m)).map
        (fun v => { v := v, flags := flagsAt m v }))
    ⟨rfl, rfl, by simp [scanCells]⟩
    (by
      intro k _ s0 ⟨h1, h2, h3⟩
      obtain ⟨s1, hl, g1, g2, g3⟩ := inner k s0 h1 h2
      refine ⟨s1, hl, g1, g2, ?_⟩
      rw [g3, h3, scanCells_succ, List.filter_append, List.map_append])
  obtain ⟨s1, hl, g1, g2, g3⟩ := outer
  refine ⟨s1.1, ?_, g1, g2⟩
  unfold MapSetupDoors
  rw [hl, ← g3]

/-- Membership in a column. -/
theorem mem_colCells (k H : Nat) (v : Vec2i) :
    v ∈ colCells k H ↔ v.x = (k : Int) ∧ 0 ≤ v.y ∧ v.y < (H : Int) := by
  unfold colCells
  rw [List.mem_map]
  constructor
  · rintro ⟨j, hj, rfl⟩
    have := List.mem_range.1 hj
    simp only [true_and]
    omega
  · rintro ⟨h1, h2, h3⟩
    refine ⟨v.y.toNat, List.mem_range.2 (by omega), ?_⟩
    cases v
    simp only at h1 h2 h3 ⊢
    rw [Int.toNat_of_nonneg h2, h1]

/-- Membership in the scan order: the cells of the grid. -/
theorem mem_scanCells (W H : Nat) (v : Vec2i) :
    v ∈ scanCells W H ↔ 0 ≤ v.x ∧ v.x < (W : Int) ∧ 0 ≤ v.y ∧ v.y < (H : Int) := by
  unfold scanCells
  rw [List.mem_flatten]
  constructor
  · rintro ⟨l, hl, hv⟩
    obtain ⟨k, hk, rfl⟩ := List.mem_map.1 hl
    have := List.mem_range.1 hk
    obtain ⟨h1, h2, h3⟩ := (mem_colCells k H v).1 hv
    omega
  · rintro ⟨h1, h2, h3, h4⟩
    refine ⟨colCells v.x.toNat H, List.mem_map.2 ⟨v.x.toNat, List.mem_range.2 (by omega), rfl⟩, ?_⟩
    rw [mem_colCells]
    exact ⟨(Int.toNat_of_nonneg h1).symm, h3, h4⟩

/-- A column lists each of its cells once. -/
theorem nodup_colCells (k H : Nat) : (colCells k H).Nodup := by
  unfold colCells
  apply List.Nodup.map _ (List.nodup_range H)
  intro a b h
  simp only [Vec2i.mk.injEq, Nat.cast_inj, true_and] at h
  exact h

/-- The scan order lists each cell once. -/
theorem nodup_scanCells (W H : Nat) : (scanCells W H).Nodup := by
  induction W with
  | zero => simp [scanCells]
  | succ k ih =>
    rw [scanCells_succ]
    refine List.Nodup.append ih (nodup_colCells k H) ?_
    intro v h1 h2
    have a := (mem_scanCells k H v).1 h1
    have b := (mem_colCells k H v).1 h2
    omega

/-- Filtering a duplicate-free list by a test that singles out one of its
entries keeps exactly that entry. -/
theorem filter_eq_singleton {α : Type} (p : α → Bool) :
    ∀ (l : List α) (a : α), l.Nodup → a ∈ l → (∀ b ∈ l, p b = true ↔ b = a) →
      l.filter p = [a] := by
  intro l
  induction l with
  | nil => intro a _ h; simp at h
  | cons c l ih =>
    intro a hnd ha hp
    obtain ⟨hc, hnd2⟩ := List.nodup_cons.1 hnd
    by_cases hca : c = a
    · subst hca
      have hpc : p c = true := (hp c (List.mem_cons_self _ _)).2 rfl
      have hrest : l.filter p = [] := by
        rw [List.filter_eq_nil_iff]
        intro b hb hpb
        have := (hp b (List.mem_cons_of_mem _ hb)).1 hpb
        exact hc (this ▸ hb)
      rw [List.filter_cons_of_pos hpc, hrest]
    · have hpc : ¬ p c = true := fun h => hca ((hp c (List.mem_cons_self _ _)).1 h)
      have ha2 : a ∈ l := by
        rcases List.mem_cons.1 ha with h | h
        · exact absurd h.symm hca
        · exact h
      rw [List.filter_cons_of_neg hpc]
      exact ih a hnd2 ha2 (fun b hb => hp b (List.mem_cons_of_mem _ hb))

/-- A cell with a base type other than `MAP_NOTHING` lies inside the grid. -/
theorem in_grid_of_baseAt (m : Map) (v : Vec2i) (h : baseAt m v ≠ MAP_NOTHING &&& MAP_MASKACCESS) :
    0 ≤ v.x ∧ v.x < m.Size.x ∧ 0 ≤ v.y ∧ v.y < m.Size.y := by
  by_contra hout
  apply h
  have hout2 : v.x < 0 ∨ v.x ≥ m.Size.x ∨ v.y < 0 ∨ v.y ≥ m.Size.y := by omega
  simp [baseAt, IMapGet, hout2]

/-- In a well-formed grid the locked-room test is defined and reads the
access bits. -/
theorem MapTileIsInLockedRoom_eq (m : Map) (v : Vec2i) (hwf : m.WF) :
    MapTileIsInLockedRoom m v = some (hasAccessBit m v) := by
  obtain ⟨c, hc⟩ := IMapGet_defined m v hwf
  simp [MapTileIsInLockedRoom, hasAccessBit, hc]

/-- The retry loop agrees with the reference on the draws it consumes. -/
theorem placeRandomTileLoop_eq {δ : Type} (cb : TryPlaceFunc δ) (draws : Nat → Vec2i)
    (locked unlocked : Bool) (hcb : KeepsWF cb) :
    ∀ (n i : Nat) (m : Map) (d : δ) (calls : List (Vec2i × Bool)), m.WF →
      placeRandomTileLoop cb draws locked unlocked n i m d calls =
        Res.ok
          (firstPlacement cb
            (fun m1 v => (!locked || hasAccessBit m1 v) && (!unlocked || !hasAccessBit m1 v))
            ((List.range' i n).map draws) m d).1
          ((firstPlacement cb
            (fun m1 v => (!locked || hasAccessBit m1 v) && (!unlocked || !hasAccessBit m1 v))
            ((List.range' i n).map draws) m d).2.1,
           (firstPlacement cb
            (fun m1 v => (!locked || hasAccessBit m1 v) && (!unlocked || !hasAccessBit m1 v))
            ((List.range' i n).map draws) m d).2.2.1,
           calls ++ (firstPlacement cb
            (fun m1 v => (!locked || hasAccessBit m1 v) && (!unlocked || !hasAccessBit m1 v))
            ((List.range' i n).map draws) m d).2.2.2) := by
  intro n
  induction n with
  | zero =>
    intro i m d calls _
    simp [placeRandomTileLoop, firstPlacement]
  | succ n ih =>
    intro i m d calls hwf
    have hr : List.range' i (n + 1) = i :: List.range' (i + 1) n := by
      simp [List.range'_succ]
    rw [hr, List.map_cons]
    unfold placeRandomTileLoop firstPlacement
    simp only [MapTileIsInLockedRoom_eq m (draws i) hwf]
    by_cases hacc : ((!locked || hasAccessBit m (draws i)) &&
        (!unlocked || !hasAccessBit m (draws i))) = true
    · rw [if_pos hacc, if_pos hacc]
      have hwf1 := hcb m (draws i) d hwf
      rcases hres : cb m (draws i) d with ⟨r, m1, d1⟩
      rw [hres] at hwf1
      cases r with
      | true => simp
      | false =>
        simp only
        rw [ih (i + 1) m1 d1 _ hwf1]
        simp
    · rw [if_neg hacc, if_neg hacc]
      exact ih (i + 1) m d calls hwf

/-- The invocations of the reference loop: they are made on candidates in
order, there are at most as many as candidates, the result is true exactly
when some invocation returned true, and then that invocation is the last one
while all the others returned false. -/
theorem firstPlacement_trace {δ : Type} (cb : TryPlaceFunc δ) (accept : Map → Vec2i → Bool) :
    ∀ (l : List Vec2i) (m : Map) (d : δ),
      ((firstPlacement cb accept l m d).2.2.2.map Prod.fst).Sublist l ∧
      (firstPlacement cb accept l m d).2.2.2.length ≤ l.length ∧
      ((firstPlacement cb accept l m d).1 = true ↔
        ∃ c ∈ (firstPlacement cb accept l m d).2.2.2, c.2 = true) ∧
      ((firstPlacement cb accept l m d).1 = false →
        ∀ c ∈ (firstPlacement cb accept l m d).2.2.2, c.2 = false) ∧
      ((firstPlacement cb accept l m d).1 = true →
        ∃ pre v, (firstPlacement cb accept l m d).2.2.2 = pre ++ [(v, true)] ∧
          ∀ c ∈ pre, c.2 = false) := by
  intro l
  induction l with
  | nil =>
    intro m d
    simp [firstPlacement]
  | cons v rest ih =>
    intro m d
    unfold firstPlacement
    by_cases hacc : accept m v = true
    · rw [if_pos hacc]
      rcases hres : cb m v d with ⟨r, m1, d1⟩
      cases r with
      | true =>
        simp only [List.map_cons, List.map_nil, List.length_cons, List.length_nil,
          List.mem_singleton, true_iff, exists_eq_left, forall_eq, forall_true_left]
        refine ⟨?_, by omega, trivial, by simp, ⟨[], v, by simp, by simp⟩⟩
        exact List.Sublist.cons₂ v (List.nil_sublist rest)
      | false =>
        obtain ⟨h1, h2, h3, h4, h5⟩ := ih m1 d1
        simp only [List.map_cons, List.length_cons, List.mem_cons, exists_eq_or_imp,
          Bool.false_eq_true, false_or, forall_eq_or_imp, true_and]
        refine ⟨List.Sublist.cons₂ v h1, by omega, h3, h4, ?_⟩
        intro ht
        obtain ⟨pre, w, e, hp⟩ := h5 ht
        refine ⟨(v, false) :: pre, w, by rw [e]; rfl, ?_⟩
        intro c hc
        rcases List.mem_cons.1 hc with h | h
        · rw [h]
        · exact hp c h
    · rw [if_neg hacc]
      obtain ⟨h1, h2, h3, h4, h5⟩ := ih m d
      exact ⟨List.Sublist.cons v h1, by simp only [List.length_cons]; omega, h3, h4, h5⟩

/-- With a filter that accepts everything and invocations that all return
false, the reference loop invokes the callback on every candidate. -/
theorem firstPlacement_all_fail {δ : Type} (cb : TryPlaceFunc δ)
    (hfail : ∀ m v d, (cb m v d).1 = false) :
    ∀ (l : List Vec2i) (m : Map) (d : δ),
      (firstPlacement cb (fun _ _ => true) l m d).1 = false ∧
      (firstPlacement cb (fun _ _ => true) l m d).2.2.2 = l.map (fun v => (v, false)) := by
  intro l
  induction l with
  | nil => intro m d; simp [firstPlacement]
  | cons v rest ih =>
    intro m d
    unfold firstPlacement
    simp only [if_true]
    rcases hres : cb m v d with ⟨r, m1, d1⟩
    have hr : r = false := by
      have := hfail m v d
      rw [hres] at this
      exact this
    subst hr
    obtain ⟨h1, h2⟩ := ih m1 d1
    simp [h1, h2]

/-- One iteration of `MapPlaceCard` on a well-formed grid. -/
theorem MapPlaceCard_succ (P : PlaceEnv) (draws : Nat → Vec2i) (m : Map) (keyIndex : Int)
    (access : Nat) (hwf : m.WF) (fuel : Nat) (s : PlaceState) :
    MapPlaceCard P draws m keyIndex access (fuel + 1) s =
      if cardTileOK P m access (draws s.next) = true then
        some (Res.ok () { next := s.next + 1,
                          events := s.events ++ [keyEvent P keyIndex (draws s.next)] })
      else MapPlaceCard P draws m keyIndex access fuel { s with next := s.next + 1 } := by
  obtain ⟨c, hc⟩ := IMapGet_defined m (draws s.next) hwf
  rw [MapPlaceCard]
  simp only [hc, cardTileOK, Option.getD_some, MapPlaceKey, keyEvent]

/-- `MapPlaceCard` places the key on the first fit tile drawn, when the fuel
reaches it. -/
theorem MapPlaceCard_finds (P : PlaceEnv) (draws : Nat → Vec2i) (m : Map) (keyIndex : Int)
    (access : Nat) (hwf : m.WF) :
    ∀ (fuel : Nat) (s : PlaceState) (n : Nat), s.next ≤ n → n - s.next < fuel →
      cardTileOK P m access (draws n) = true →
      (∀ k, s.next ≤ k → k < n → cardTileOK P m access (draws k) = false) →
      MapPlaceCard P draws m keyIndex access fuel s =
        some (Res.ok () { next := n + 1,
                          events := s.events ++ [keyEvent P keyIndex (draws n)] }) := by
  intro fuel
  induction fuel with
  | zero => intro s n _ h; omega
  | succ fuel ih =>
    intro s n hle hfuel hfit hfirst
    rw [MapPlaceCard_succ P draws m keyIndex access hwf]
    by_cases hn : s.next = n
    · rw [hn, if_pos hfit]
    · have hno := hfirst s.next (le_refl _) (by omega)
      rw [if_neg (by rw [hno]; simp)]
      exact ih { s with next := s.next + 1 } n (by simp only; omega) (by simp only; omega) hfit
        (fun k hk1 hk2 => hfirst k (by simp only at hk1; omega) hk2)

/-- Whatever `MapPlaceCard` ends with on a well-formed grid is a return, with
the key on the first fit tile drawn. -/
theorem MapPlaceCard_some (P : PlaceEnv) (draws : Nat → Vec2i) (m : Map) (keyIndex : Int)
    (access : Nat) (hwf : m.WF) :
    ∀ (fuel : Nat) (s : PlaceState) (r : Res PlaceState Unit),
      MapPlaceCard P draws m keyIndex access fuel s = some r →
      ∃ n, s.next ≤ n ∧ cardTileOK P m access (draws n) = true ∧
        (∀ k, s.next ≤ k → k < n → cardTileOK P m access (draws k) = false) ∧
        r = Res.ok () { next := n + 1,
                        events := s.events ++ [keyEvent P keyIndex (draws n)] } := by
  intro fuel
  induction fuel with
  | zero => intro s r h; simp [MapPlaceCard] at h
  | succ fuel ih =>
    intro s r h
    rw [MapPlaceCard_succ P draws m keyIndex access hwf] at h
    by_cases hfit : cardTileOK P m access (draws s.next) = true
    · rw [if_pos hfit] at h
      refine ⟨s.next, le_refl _, hfit, fun k h1 h2 => by omega, ?_⟩
      exact (Option.some.inj h).symm
    · rw [if_neg hfit] at h
      obtain ⟨n, h1, h2, h3, h4⟩ := ih _ r h
      simp only at h1 h3 h4
      refine ⟨n, by omega, h2, ?_, h4⟩
      intro k hk1 hk2
      by_cases hk : k = s.next
      · rw [hk]; simpa using hfit
      · exact h3 k (by omega) hk2

/-- Without a fit tile among the draws `MapPlaceCard` never ends. -/
theorem MapPlaceCard_none (P : PlaceEnv) (draws : Nat → Vec2i) (m : Map) (keyIndex : Int)
    (access : Nat) (hwf : m.WF) (fuel : Nat) (s : PlaceState)
    (hno : ∀ k, s.next ≤ k → cardTileOK P m access (draws k) = false) :
    MapPlaceCard P draws m keyIndex access fuel s = none := by
  cases h : MapPlaceCard P draws m keyIndex access fuel s with
  | none => rfl
  | some r =>
    obtain ⟨n, h1, h2, _⟩ := MapPlaceCard_some P draws m keyIndex access hwf fuel s r h
    rw [hno n h1] at h2
    cases h2

/-- A step that returns hands its state on. -/
theorem thenPlace_ok (s : PlaceState) (f : PlaceState → Option (Res PlaceState Unit)) :
    thenPlace (some (Res.ok () s)) f = f s := rfl

/-- Running nothing after a step changes nothing. -/
theorem thenPlace_pure (r : Option (Res PlaceState Unit)) :
    thenPlace r (fun s => some (Res.ok () s)) = r := by
  cases r with
  | none => rfl
  | some x => cases x <;> rfl

/-- `AddKeys` runs the searches of `keyPlan`, in order. -/
theorem AddKeys_eq_placeCards (P : PlaceEnv) (draws : Nat → Vec2i) (m : Map) (fuel : Nat)
    (s : PlaceState) :
    AddKeys P draws m fuel s = placeCards P draws m (keyPlan m.keyAccessCount) fuel s := by
  unfold AddKeys keyPlan
  by_cases h5 : m.keyAccessCount ≥ 5
  · have h4 : m.keyAccessCount ≥ 4 := by omega
    have h3 : m.keyAccessCount ≥ 3 := by omega
    have h2 : m.keyAccessCount ≥ 2 := by omega
    simp only [h5, h4, h3, h2, if_true, List.cons_append, List.nil_append, placeCards,
      thenPlace_pure]
  · by_cases h4 : m.keyAccessCount ≥ 4
    · have h3 : m.keyAccessCount ≥ 3 := by omega
      have h2 : m.keyAccessCount ≥ 2 := by omega
      simp only [h5, h4, h3, h2, if_true, if_false, List.cons_append, List.nil_append,
        placeCards, thenPlace_pure, thenPlace_ok]
    · by_cases h3 : m.keyAccessCount ≥ 3
      · have h2 : m.keyAccessCount ≥ 2 := by omega
        simp only [h5, h4, h3, h2, if_true, if_false, List.cons_append, List.nil_append,
          placeCards, thenPlace_pure, thenPlace_ok]
      · by_cases h2 : m.keyAccessCount ≥ 2
        · simp only [h5, h4, h3, h2, if_true, if_false, List.cons_append, List.nil_append,
            placeCards, thenPlace_pure, thenPlace_ok]
        · simp only [h5, h4, h3, h2, if_false, List.nil_append, placeCards, thenPlace_ok]

/-- A run of card searches only moves forward in the draws. -/
theorem CardRun_le (P : PlaceEnv) (draws : Nat → Vec2i) (m : Map)
    (plan : List (Int × Nat)) (i j : Nat) (evs : List AddPickupEvent)
    (h : CardRun P draws m plan i j evs) : i ≤ j := by
  induction h with
  | nil i => exact le_refl _
  | cons keyIndex access plan i n j evs hle _ _ _ ih => omega

/-- A run of card searches emits one event per search, for the key indices of
the plan in order. -/
theorem CardRun_events (P : PlaceEnv) (draws : Nat → Vec2i) (m : Map)
    (plan : List (Int × Nat)) (i j : Nat) (evs : List AddPickupEvent)
    (h : CardRun P draws m plan i j evs) :
    evs.map AddPickupEvent.keyIndex = plan.map Prod.fst ∧ evs.length = plan.length := by
  induction h with
  | nil i => simp
  | cons keyIndex access plan i n j evs _ _ _ _ ih =>
    simp [keyEvent, ih.1, ih.2]

/-- Whatever a list of card searches ends with on a well-formed grid is a
return, after a run of the plan. -/
theorem placeCards_some (P : PlaceEnv) (draws : Nat → Vec2i) (m : Map) (hwf : m.WF) :
    ∀ (plan : List (Int × Nat)) (fuel : Nat) (s : PlaceState) (r : Res PlaceState Unit),
      placeCards P draws m plan fuel s = some r →
      ∃ j evs, CardRun P draws m plan s.next j evs ∧
        r = Res.ok () { next := j, events := s.events ++ evs } := by
  intro plan
  induction plan with
  | nil =>
    intro fuel s r h
    simp only [placeCards, Option.some.injEq] at h
    exact ⟨s.next, [], CardRun.nil _, by rw [← h]; simp⟩
  | cons p plan ih =>
    intro fuel s r h
    obtain ⟨keyIndex, access⟩ := p
    rw [placeCards] at h
    cases hc : MapPlaceCard P draws m keyIndex access fuel s with
    | none => rw [hc] at h; simp [thenPlace] at h
    | some x =>
      obtain ⟨n, h1, h2, h3, h4⟩ := MapPlaceCard_some P draws m keyIndex access hwf fuel s x hc
      rw [hc, h4, thenPlace_ok] at h
      obtain ⟨j, evs, hrun, hr⟩ := ih fuel _ r h
      refine ⟨j, keyEvent P keyIndex (draws n) :: evs,
        CardRun.cons keyIndex access plan s.next n j evs h1 h2 h3 hrun, ?_⟩
      rw [hr]
      simp

/-- A run of the plan is what the card searches do, given fuel beyond the last
draw of the run. -/
theorem placeCards_of_run (P : PlaceEnv) (draws : Nat → Vec2i) (m : Map) (hwf : m.WF)
    (plan : List (Int × Nat)) (i j : Nat) (evs : List AddPickupEvent)
    (h : CardRun P draws m plan i j evs) :
    ∀ (fuel : Nat) (s : PlaceState), s.next = i → j < fuel →
      placeCards P draws m plan fuel s =
        some (Res.ok () { next := j, events := s.events ++ evs }) := by
  induction h with
  | nil i =>
    intro fuel s hs _
    simp [placeCards, ← hs]
  | cons keyIndex access plan i n j evs hle hfit hfirst hrest ih =>
    intro fuel s hs hfuel
    have hnj := CardRun_le P draws m plan (n + 1) j evs hrest
    rw [placeCards, MapPlaceCard_finds P draws m keyIndex access hwf fuel s n (by omega)
      (by omega) hfit (fun k hk1 hk2 => hfirst k (by omega) hk2), thenPlace_ok,
      ih fuel _ rfl hfuel]
    simp

/-- When every search of the plan meets a fit tile from any draw on, the plan
has a run from every draw. -/
theorem CardRun_exists (P : PlaceEnv) (draws : Nat → Vec2i) (m : Map) :
    ∀ (plan : List (Int × Nat)),
      (∀ p ∈ plan, ∀ i, ∃ n, i ≤ n ∧ cardTileOK P m p.2 (draws n) = true) →
      ∀ i, ∃ j evs, CardRun P draws m plan i j evs := by
  intro plan
  induction plan with
  | nil => intro _ i; exact ⟨i, [], CardRun.nil i⟩
  | cons p plan ih =>
    intro hall i
    obtain ⟨keyIndex, access⟩ := p
    have hex : ∃ d, cardTileOK P m access (draws (i + d)) = true := by
      obtain ⟨n, hn, hfit⟩ := hall (keyIndex, access) (List.mem_cons_self _ _) i
      exact ⟨n - i, by rw [Nat.add_sub_cancel' hn]; exact hfit⟩
    classical
    have hfit := Nat.find_spec hex
    have hmin := fun d => Nat.find_min hex (m := d)
    obtain ⟨j, evs, hrun⟩ :=
      ih (fun q hq => hall q (List.mem_cons_of_mem _ hq)) (i + Nat.find hex + 1)
    refine ⟨j, _, CardRun.cons keyIndex access plan i (i + Nat.find hex) j evs
      (Nat.le_add_right _ _) hfit ?_ hrun⟩
    intro k hk1 hk2
    have := hmin (k - i) (by omega)
    rw [Nat.add_sub_cancel' hk1] at this
    simpa using this

/-- On a grid whose cells are floor except for cells holding Room with the
Blue bit, the search of `AddKeys` for `keyAccessCount = 2` (key 0, access code
0) has no fit tile: `AddKeys` does not end, whatever the draws and the fuel. -/
theorem AddKeys_none_of_blue_strip (P : PlaceEnv) (draws : Nat → Vec2i) (m : Map)
    (strip : List Vec2i) (hwf : m.WF) (hk : m.keyAccessCount = 2)
    (hcells : ∀ v ∈ scanCells m.Size.x.toNat m.Size.y.toNat,
      IMapGet m v = some (if v ∈ strip then MAP_ROOM ||| MAP_ACCESS_BLUE else MAP_FLOOR))
    (fuel : Nat) (s : PlaceState) :
    AddKeys P draws m fuel s = none := by
  have hno : ∀ v, cardTileOK P m 0 v = false := by
    intro v
    have hcode : (IMapGet m v).getD 0 = MAP_ROOM ||| MAP_ACCESS_BLUE ∨
        (IMapGet m v).getD 0 = MAP_FLOOR ∨ (IMapGet m v).getD 0 = MAP_NOTHING := by
      by_cases hin : v.x < 0 ∨ v.x ≥ m.Size.x ∨ v.y < 0 ∨ v.y ≥ m.Size.y
      · right; right
        simp [IMapGet, hin]
      · have hmem : v ∈ scanCells m.Size.x.toNat m.Size.y.toNat := by
          rw [mem_scanCells, Int.toNat_of_nonneg hwf.1, Int.toNat_of_nonneg hwf.2.1]
          omega
        rw [hcells v hmem]
        by_cases hs : v ∈ strip
        · left; simp [hs]
        · right; left; simp [hs]
    unfold cardTileOK
    rcases hcode with h | h | h <;> rw [h] <;>
      simp only [Bool.and_eq_false_iff, decide_eq_false_iff_not]
    · left; left; right; decide
    · left; right; decide
    · left; right; decide
  rw [AddKeys_eq_placeCards, hk]
  have hplan : keyPlan 2 = [((0 : Int), 0)] := by decide
  rw [hplan, placeCards, MapPlaceCard_none P draws m 0 0 hwf fuel s (fun k _ => hno _)]
  rfl

/-- The placement loop makes exactly the `n` attempts of `attemptRun`, one
after the other, records their results, and raises `placed` by the number of
attempts that succeeded. -/
theorem placeLoop_eq {ω : Type} (attempt : ω → Bool × ω) :
    ∀ (n : Nat) (w : ω) (placed : Int) (results : List Bool),
      placeLoop attempt n w placed results =
        ((attemptRun attempt n w).2,
         placed + (((attemptRun attempt n w).1.count true : Nat) : Int),
         results ++ (attemptRun attempt n w).1) := by
  intro n
  induction n with
  | zero => intro w placed results; simp [placeLoop, attemptRun]
  | succ n ih =>
    intro w placed results
    unfold placeLoop attemptRun
    rcases hres : attempt w with ⟨r, w1⟩
    cases r with
    | true =>
      simp only
      rw [ih w1 (placed + 1) (results ++ [true])]
      simp only [List.count_cons_self, List.append_assoc, List.singleton_append]
      push_cast
      rw [add_assoc, add_comm (1 : Int)]
    | false =>
      simp only
      rw [ih w1 placed (results ++ [false])]
      simp [List.count_cons]

/-- The number of results of `n` attempts is `n`. -/
theorem attemptRun_length {ω : Type} (attempt : ω → Bool × ω) :
    ∀ (n : Nat) (w : ω), (attemptRun attempt n w).1.length = n := by
  intro n
  induction n with
  | zero => intro w; rfl
  | succ n ih =>
    intro w
    unfold attemptRun
    simp [ih]

/-- One objective of `AddObjectives`: an objective that is neither collect nor
destroy is passed on; for a collect or destroy objective the attempts are the
`Count - placed` attempts of its placement routine, `placed` grows by the
number of successes, `Count` becomes `placed`, and `Required` is clamped. -/
theorem addObjective_spec {ω : Type} (P : PlaceEnv) (collect blowup : TryObjective ω)
    (idx : Nat) (o : Objective) (w : ω) :
    ((o.objType ≠ P.OBJECTIVE_COLLECT ∧ o.objType ≠ P.OBJECTIVE_DESTROY) →
      addObjective P collect blowup idx o w = (o, w, [])) ∧
    ((o.objType = P.OBJECTIVE_COLLECT ∨ o.objType = P.OBJECTIVE_DESTROY) →
      addObjective P collect blowup idx o w =
        ({ o with
            placed := o.placed + (((attemptRun (attemptFor P collect blowup o.objType idx)
              (o.Count - o.placed).toNat w).1.count true : Nat) : Int),
            Count := o.placed + (((attemptRun (attemptFor P collect blowup o.objType idx)
              (o.Count - o.placed).toNat w).1.count true : Nat) : Int),
            Required := min o.Required (o.placed +
              (((attemptRun (attemptFor P collect blowup o.objType idx)
                (o.Count - o.placed).toNat w).1.count true : Nat) : Int)) },
         (attemptRun (attemptFor P collect blowup o.objType idx)
           (o.Count - o.placed).toNat w).2,
         (attemptRun (attemptFor P collect blowup o.objType idx)
           (o.Count - o.placed).toNat w).1)) := by
  constructor
  · intro h
    unfold addObjective
    rw [if_pos h]
  · intro h
    have hn : ¬ (o.objType ≠ P.OBJECTIVE_COLLECT ∧ o.objType ≠ P.OBJECTIVE_DESTROY) := by
      rintro ⟨h1, h2⟩
      rcases h with h | h
      · exact h1 h
      · exact h2 h
    have hmin : ∀ c : Int, (if c < o.Required then c else o.Required) = min o.Required c := by
      intro c
      by_cases hlt : c < o.Required
      · rw [if_pos hlt, min_eq_right (le_of_lt hlt)]
      · rw [if_neg hlt, min_eq_left (not_lt.1 hlt)]
    unfold addObjective attemptFor
    rw [if_neg hn]
    by_cases hc : o.objType = P.OBJECTIVE_COLLECT
    · simp only [if_pos hc, placeLoop_eq, List.nil_append, hmin]
    · have hd : o.objType = P.OBJECTIVE_DESTROY := by
        rcases h with h | h
        · exact absurd h hc
        · exact h
      simp only [if_neg hc, if_pos hd, placeLoop_eq, List.nil_append, hmin]

/-- `AddObjectives` treats the objective at position `k` with the body of the
loop, at its index, in the world left by the objectives before it. -/
theorem AddObjectives_getElem? {ω : Type} (P : PlaceEnv) (collect blowup : TryObjective ω) :
    ∀ (objs : List Objective) (idx : Nat) (w : ω),
      (AddObjectives P collect blowup objs idx w).1.length = objs.length ∧
      (AddObjectives P collect blowup objs idx w).2.2.length = objs.length ∧
      ∀ (k : Nat) (o : Objective), objs[k]? = some o →
        (AddObjectives P collect blowup objs idx w).1[k]? =
          some (addObjective P collect blowup (idx + k) o
            (AddObjectives P collect blowup (objs.take k) idx w).2.1).1 ∧
        (AddObjectives P collect blowup objs idx w).2.2[k]? =
          some (addObjective P collect blowup (idx + k) o
            (AddObjectives P collect blowup (objs.take k) idx w).2.1).2.2 := by
  intro objs
  induction objs with
  | nil => intro idx w; simp [AddObjectives]
  | cons a rest ih =>
    intro idx w
    obtain ⟨h1, h2, h3⟩ := ih (idx + 1) (addObjective P collect blowup idx a w).2.1
    refine ⟨by simp [AddObjectives, h1], by simp [AddObjectives, h2], ?_⟩
    intro k o hk
    cases k with
    | zero =>
      simp only [List.getElem?_cons_zero, Option.some.injEq] at hk
      subst hk
      simp [AddObjectives]
    | succ k =>
      simp only [List.getElem?_cons_succ] at hk
      obtain ⟨g1, g2⟩ := h3 k o hk
      have e : idx + 1 + k = idx + (k + 1) := by omega
      have et : (AddObjectives P collect blowup ((a :: rest).take (k + 1)) idx w).2.1 =
          (AddObjectives P collect blowup (rest.take k) (idx + 1)
            (addObjective P collect blowup idx a w).2.1).2.1 := by
        rw [List.take_succ_cons]
        rfl
      rw [et]
      have c1 : (AddObjectives P collect blowup (a :: rest) idx w).1[k + 1]? =
          (AddObjectives P collect blowup rest (idx + 1)
            (addObjective P collect blowup idx a w).2.1).1[k]? := by
        simp [AddObjectives]
      have c2 : (AddObjectives P collect blowup (a :: rest) idx w).2.2[k + 1]? =
          (AddObjectives P collect blowup rest (idx + 1)
            (addObjective P collect blowup idx a w).2.1).2.2[k]? := by
        simp [AddObjectives]
      rw [c1, c2, g1, g2, e]
      exact ⟨rfl, rfl⟩

/-- The world after the first `k + 1` objectives is the world the body of the
loop leaves for objective `k`, run in the world after the first `k`. -/
theorem AddObjectives_take_succ {ω : Type} (P : PlaceEnv) (collect blowup : TryObjective ω) :
    ∀ (objs : List Objective) (k : Nat) (o : Objective) (idx : Nat) (w : ω),
      objs[k]? = some o →
      (AddObjectives P collect blowup (objs.take (k + 1)) idx w).2.1 =
        (addObjective P collect blowup (idx + k) o
          (AddObjectives P collect blowup (objs.take k) idx w).2.1).2.1 := by
  intro objs
  induction objs with
  | nil => intro k o idx w hk; simp at hk
  | cons a rest ih =>
    intro k o idx w hk
    cases k with
    | zero =>
      simp only [List.getElem?_cons_zero, Option.some.injEq] at hk
      subst hk
      simp [AddObjectives]
    | succ k =>
      simp only [List.getElem?_cons_succ] at hk
      have e : idx + 1 + k = idx + (k + 1) := by omega
      have h := ih k o (idx + 1) (addObjective P collect blowup idx a w).2.1 hk
      rw [e] at h
      rw [List.take_succ_cons, List.take_succ_cons]
      exact h

/-- The inner loop of the search over one column of a ring. -/
theorem searchColumn_spec (func : Vec2i → Bool) (m : Map) (start : Vec2i) (radius x : Int)
    (hx1 : start.x - radius ≤ x) (hx2 : x ≤ start.x + radius)
    (hx0 : 0 ≤ x) (hxW : x < m.Size.x) :
    ∀ (n : Nat) (y : Int) (evals : List (Int × Vec2i)),
      y + n = start.y + radius + 1 → start.y - radius ≤ y →
      (∀ e ∈ evals, EvalOK m start e) →
      (∀ e ∈ (searchColumn func m start radius x n y evals).2, EvalOK m start e) ∧
      (∀ t, (searchColumn func m start radius x n y evals).1 = some t →
        MapIsTileIn m t = true ∧ chebDist start t = radius ∧ func t = true) ∧
      ((searchColumn func m start radius x n y evals).1 = none →
        ∀ y1, y ≤ y1 → y1 ≤ start.y + radius → 0 ≤ y1 → y1 < m.Size.y →
          chebDist start { x := x, y := y1 } = radius → func { x := x, y := y1 } = false) := by
  intro n
  induction n with
  | zero =>
    intro y evals hy _ hev
    simp only [searchColumn]
    refine ⟨hev, fun t h => (by cases h), fun _ y1 h1 h2 _ _ _ => ?_⟩
    simp only [Nat.cast_zero, add_zero] at hy
    omega
  | succ n ih =>
    intro y evals hy hlow hev
    have hy' : y + 1 + (n : Int) = start.y + radius + 1 := by push_cast at hy; omega
    unfold searchColumn
    by_cases h1 : y < 0
    · rw [if_pos h1]
      obtain ⟨a, b, c⟩ := ih (y + 1) evals hy' (by omega) hev
      refine ⟨a, b, fun hn y1 g1 g2 g3 g4 g5 => ?_⟩
      exact c hn y1 (by omega) g2 g3 g4 g5
    · rw [if_neg h1]
      by_cases h2 : y ≥ m.Size.y
      · rw [if_pos h2]
        refine ⟨hev, fun t h => (by cases h), fun _ y1 g1 _ _ g4 _ => ?_⟩
        omega
      · rw [if_neg h2]
        by_cases h3 : x ≠ start.x - radius ∧ x ≠ start.x + radius ∧
            y ≠ start.y - radius ∧ y ≠ start.y + radius
        · rw [if_pos h3]
          obtain ⟨a, b, c⟩ := ih (y + 1) evals hy' (by omega) hev
          refine ⟨a, b, fun hn y1 g1 g2 g3 g4 g5 => ?_⟩
          by_cases hyy : y1 = y
          · subst hyy
            simp only [chebDist] at g5
            omega
          · exact c hn y1 (by omega) g2 g3 g4 g5
        · rw [if_neg h3]
          have hin : MapIsTileIn m { x := x, y := y } = true := by
            rw [MapIsTileIn_iff]
            simp only
            omega
          have hcheb : chebDist start { x := x, y := y } = radius := by
            simp only [chebDist]
            push_cast at hy
            omega
          have hev1 : ∀ e ∈ evals ++ [(radius, ({ x := x, y := y } : Vec2i))],
              EvalOK m start e := by
            intro e he
            rcases List.mem_append.1 he with h | h
            · exact hev e h
            · simp only [List.mem_singleton] at h
              rw [h]
              exact ⟨hin, hcheb⟩
          by_cases h4 : func { x := x, y := y } = true
          · rw [if_pos h4]
            refine ⟨hev1, fun t ht => ?_, fun hn => by cases hn⟩
            simp only [Option.some.injEq] at ht
            rw [← ht]
            exact ⟨hin, hcheb, h4⟩
          · rw [if_neg h4]
            obtain ⟨a, b, c⟩ := ih (y + 1) _ hy' (by omega) hev1
            refine ⟨a, b, fun hn y1 g1 g2 g3 g4 g5 => ?_⟩
            by_cases hyy : y1 = y
            · subst hyy
              simpa using h4
            · exact c hn y1 (by omega) g2 g3 g4 g5

/-- The loop of the search over the columns of one ring. -/
theorem searchRing_spec (func : Vec2i → Bool) (m : Map) (start : Vec2i) (radius : Int)
    (hr : 0 ≤ radius) :
    ∀ (n : Nat) (x : Int) (evals : List (Int × Vec2i)),
      x + n = start.x + radius + 1 → start.x - radius ≤ x →
      (∀ e ∈ evals, EvalOK m start e) →
      (∀ e ∈ (searchRing func m start radius n x evals).2, EvalOK m start e) ∧
      (∀ t, (searchRing func m start radius n x evals).1 = some t →
        MapIsTileIn m t = true ∧ chebDist start t = radius ∧ func t = true) ∧
      ((searchRing func m start radius n x evals).1 = none →
        ∀ t : Vec2i, x ≤ t.x → MapIsTileIn m t = true →
          chebDist start t = radius → func t = false) := by
  intro n
  induction n with
  | zero =>
    intro x evals hx _ hev
    simp only [searchRing]
    refine ⟨hev, fun t h => (by cases h), fun _ t h1 _ h3 => ?_⟩
    simp only [Nat.cast_zero, add_zero] at hx
    simp only [chebDist] at h3
    omega
  | succ n ih =>
    intro x evals hx hlow hev
    have hx' : x + 1 + (n : Int) = start.x + radius + 1 := by push_cast at hx; omega
    unfold searchRing
    by_cases h1 : x < 0
    · rw [if_pos h1]
      obtain ⟨a, b, c⟩ := ih (x + 1) evals hx' (by omega) hev
      refine ⟨a, b, fun hn t g1 g2 g3 => ?_⟩
      rw [MapIsTileIn_iff] at g2
      exact c hn t (by omega) ((MapIsTileIn_iff m t).2 g2) g3
    · rw [if_neg h1]
      by_cases h2 : x ≥ m.Size.x
      · rw [if_pos h2]
        refine ⟨hev, fun t h => (by cases h), fun _ t g1 g2 _ => ?_⟩
        rw [MapIsTileIn_iff] at g2
        omega
      · rw [if_neg h2]
        have hcol := searchColumn_spec func m start radius x hlow
          (by push_cast at hx; omega) (by omega) (by omega)
          (2 * radius + 1).toNat (start.y - radius) evals
          (by rw [Int.toNat_of_nonneg (by omega)]; omega) (le_refl _) hev
        obtain ⟨c1, c2, c3⟩ := hcol
        rcases hres : searchColumn func m start radius x (2 * radius + 1).toNat
            (start.y - radius) evals with ⟨found, evals1⟩
        rw [hres] at c1 c2 c3
        cases found with
        | some tile =>
          refine ⟨c1, fun t ht => ?_, fun hn => (by cases hn)⟩
          exact c2 t ht
        | none =>
          simp only
          obtain ⟨a, b, c⟩ := ih (x + 1) evals1 hx' (by omega) c1
          refine ⟨a, b, fun hn t g1 g2 g3 => ?_⟩
          by_cases hxx : t.x = x
          · have g2' := (MapIsTileIn_iff m t).1 g2
            have g3' := g3
            simp only [chebDist] at g3'
            have := c3 rfl t.y (by omega) (by omega) (by omega) (by omega)
              (by rw [← hxx]; exact g3)
            rw [← hxx] at this
            exact this
          · exact c hn t (by omega) g2 g3

/-- The loop of the search over the radii: if every tile nearer than the
current radius fails the predicate and some tile within the remaining radii
satisfies it, the loop returns a nearest satisfying tile. -/
theorem searchRadii_spec (func : Vec2i → Bool) (m : Map) (start : Vec2i) :
    ∀ (n : Nat) (radius : Int) (evals : List (Int × Vec2i)),
      0 ≤ radius →
      (∀ e ∈ evals, EvalOK m start e) →
      (∀ t : Vec2i, MapIsTileIn m t = true → chebDist start t < radius → func t = false) →
      (∃ t : Vec2i, MapIsTileIn m t = true ∧ func t = true ∧ chebDist start t < radius + n) →
      ∃ (v : Vec2i) (evals1 : List (Int × Vec2i)),
        searchRadii func m start n radius evals = Res.ok v evals1 ∧
        MapIsTileIn m v = true ∧ func v = true ∧
        (∀ t : Vec2i, MapIsTileIn m t = true → func t = true →
          chebDist start v ≤ chebDist start t) ∧
        (∀ e ∈ evals1, EvalOK m start e) := by
  intro n
  induction n with
  | zero =>
    intro radius evals _ _ hnear ⟨t, ht1, ht2, ht3⟩
    simp only [Nat.cast_zero, add_zero] at ht3
    rw [hnear t ht1 ht3] at ht2
    cases ht2
  | succ n ih =>
    intro radius evals hr hev hnear hex
    unfold searchRadii
    obtain ⟨c1, c2, c3⟩ := searchRing_spec func m start radius hr (2 * radius + 1).toNat
      (start.x - radius) evals (by rw [Int.toNat_of_nonneg (by omega)]; omega) (le_refl _) hev
    rcases hres : searchRing func m start radius (2 * radius + 1).toNat
        (start.x - radius) evals with ⟨found, evals1⟩
    rw [hres] at c1 c2 c3
    cases found with
    | some tile =>
      obtain ⟨d1, d2, d3⟩ := c2 tile rfl
      refine ⟨tile, evals1, rfl, d1, d3, fun t g1 g2 => ?_, c1⟩
      by_contra hlt
      have := hnear t g1 (by omega)
      rw [this] at g2
      cases g2
    | none =>
      simp only
      have hnear1 : ∀ t : Vec2i, MapIsTileIn m t = true →
          chebDist start t < radius + 1 → func t = false := by
        intro t g1 g2
        by_cases hlt : chebDist start t < radius
        · exact hnear t g1 hlt
        · have heq : chebDist start t = radius := by omega
          refine c3 rfl t ?_ g1 heq
          simp only [chebDist] at heq
          omega
      obtain ⟨t, ht1, ht2, ht3⟩ := hex
      exact ih (radius + 1) evals1 (by omega) c1 hnear1
        ⟨t, ht1, ht2, by push_cast at ht3; omega⟩

/-- Two tiles of the grid are less than `MAX(Size.x, Size.y)` apart. -/
theorem chebDist_lt_of_in (m : Map) (a b : Vec2i) (ha : MapIsTileIn m a = true)
    (hb : MapIsTileIn m b = true) : chebDist a b < max m.Size.x m.Size.y := by
  rw [MapIsTileIn_iff] at ha hb
  simp only [chebDist]
  omega

/-- Only a tile itself is at distance zero from it. -/
theorem chebDist_lt_one (a b : Vec2i) (h : chebDist a b < 1) : b = a := by
  simp only [chebDist] at h
  cases a
  cases b
  simp only [Vec2i.mk.injEq]
  simp only at h
  omega

/-- The bounds test only looks at the size of the grid. -/
theorem MapIsTileIn_congr (m s : Map) (h : s.Size = m.Size) (v : Vec2i) :
    MapIsTileIn s v = MapIsTileIn m v := by
  unfold MapIsTileIn
  rw [h]

/-- A sequence of tracker calls whose marked tiles are inside a well-formed
grid returns. -/
theorem runExplore_returns (E : Env) :
    ∀ (ops : List ExploreOp) (m : Map), m.WF →
      (∀ pos, ExploreOp.mark pos ∈ ops → MapIsTileIn m pos = true) →
      ∃ m1, runExplore E m ops = Res.ok () m1 := by
  intro ops
  induction ops with
  | nil => intro m _ _; exact ⟨m, rfl⟩
  | cons op ops ih =>
    intro m hwf hin
    have hstep : ∀ m2, ExploredFrom E m m2 → ∃ m1, runExplore E m2 ops = Res.ok () m1 := by
      intro m2 he
      refine ih m2 (ExploredFrom_WF E m m2 he hwf) (fun pos hp => ?_)
      rw [MapIsTileIn_congr m m2 he.1]
      exact hin pos (List.mem_cons_of_mem _ hp)
    cases op with
    | mark pos =>
      obtain ⟨p, tl, hptr, hp, hg⟩ := tile_exists m pos hwf (hin pos (List.mem_cons_self _ _))
      have hm := MapMarkAsVisited_exists E m pos p tl hptr hp hg
      obtain ⟨m1, h1⟩ := hstep _ (MapMarkAsVisited_explores E m _ pos hm).1
      refine ⟨m1, ?_⟩
      unfold runExplore
      rw [hm]
      exact h1
    | markAll =>
      obtain ⟨m2, hm, he, _⟩ := MapMarkAllAsVisited_explores E m hwf
      obtain ⟨m1, h1⟩ := hstep m2 he
      refine ⟨m1, ?_⟩
      unfold runExplore
      rw [hm]
      exact h1

/-- Running two sequences of tracker calls one after the other is running
their concatenation. -/
theorem runExplore_append (E : Env) :
    ∀ (ops1 ops2 : List ExploreOp) (m s1 : Map),
      runExplore E m ops1 = Res.ok () s1 →
      runExplore E m (ops1 ++ ops2) = runExplore E s1 ops2 := by
  intro ops1
  induction ops1 with
  | nil =>
    intro ops2 m s1 h
    simp only [runExplore, Res.ok.injEq, true_and] at h
    rw [h]
    rfl
  | cons op ops ih =>
    intro ops2 m s1 h
    cases op with
    | mark pos =>
      have e : runExplore E m (ExploreOp.mark pos :: ops ++ ops2) =
          match MapMarkAsVisited E m pos with
          | Res.ok _ m1 => runExplore E m1 (ops ++ ops2)
          | r => r := rfl
      rw [e]
      unfold runExplore at h
      cases hm : MapMarkAsVisited E m pos with
      | undef => rw [hm] at h; cases h
      | assertFail msg s0 => rw [hm] at h; cases h
      | ok r m2 =>
        rw [hm] at h
        exact ih ops2 m2 s1 h
    | markAll =>
      have e : runExplore E m (ExploreOp.markAll :: ops ++ ops2) =
          match MapMarkAllAsVisited E m with
          | Res.ok _ m1 => runExplore E m1 (ops ++ ops2)
          | r => r := rfl
      rw [e]
      unfold runExplore at h
      cases hm : MapMarkAllAsVisited E m with
      | undef => rw [hm] at h; cases h
      | assertFail msg s0 => rw [hm] at h; cases h
      | ok r m2 =>
        rw [hm] at h
        exact ih ops2 m2 s1 h

/-- The truncating quotient `100 * a / b` of a part `a` of a positive whole
`b` lies between 0 and 100. -/
theorem percentage_bounds (a b : Int) (ha : 0 ≤ a) (hab : a ≤ b) (hb : 0 < b) :
    0 ≤ Int.tdiv (100 * a) b ∧ Int.tdiv (100 * a) b ≤ 100 := by
  rw [Int.tdiv_eq_ediv (by omega) (by omega)]
  constructor
  · exact Int.ediv_nonneg (by omega) (by omega)
  · exact Int.ediv_le_of_le_mul hb (by omega)

/-- A column is listed from top to bottom. -/
theorem pairwise_colCells (k H : Nat) : (colCells k H).Pairwise columnMajorBefore := by
  unfold colCells
  rw [List.pairwise_map]
  refine List.Pairwise.imp ?_ (List.pairwise_lt_range H)
  intro a b hab
  exact Or.inr ⟨rfl, by simp only; omega⟩

/-- The scan order lists the cells column after column. -/
theorem pairwise_scanCells (W H : Nat) : (scanCells W H).Pairwise columnMajorBefore := by
  induction W with
  | zero => simp [scanCells]
  | succ k ih =>
    rw [scanCells_succ, List.pairwise_append]
    refine ⟨ih, pairwise_colCells k H, fun a ha b hb => ?_⟩
    have h1 := (mem_scanCells k H a).1 ha
    have h2 := (mem_colCells k H b).1 hb
    exact Or.inl (by omega)

/-- The code of a cell whose read is known. -/
theorem codeAt_of_IMapGet (m : Map) (v : Vec2i) (c : Nat) (h : IMapGet m v = some c) :
    codeAt m v = c := by
  simp [codeAt, h]

/-- On a well-formed grid `MapTryPlaceOneObject` has the outcome listed case
by case in `placeOneObjectOutcome`. -/
theorem MapTryPlaceOneObject_eq (P : PlaceEnv) (O : ObjEnv) (m : Map) (v : Vec2i)
    (mo : MapObject) (extraFlags : Nat) (isStrictMode : Bool) (s : ObjState) (hwf : m.WF) :
    MapTryPlaceOneObject P O m v mo extraFlags isStrictMode s =
      placeOneObjectOutcome P O m v mo extraFlags isStrictMode s := by
  obtain ⟨c, hc⟩ := IMapGet_defined m v hwf
  obtain ⟨a, ha⟩ := IMapGet_defined m { x := v.x, y := v.y - 1 } hwf
  obtain ⟨b, hb⟩ := IMapGet_defined m { x := v.x, y := v.y + 1 } hwf
  unfold MapTryPlaceOneObject placeOneObjectOutcome strictCheckAt looseCheckAt
    ammoSpawnerOff hasFreeInFront addObjectEvent IMapSet leaveFreeBelow
  simp only [hc, ha, hb, codeAt_of_IMapGet m _ _ hc, codeAt_of_IMapGet m _ _ ha,
    codeAt_of_IMapGet m _ _ hb, Option.some_bind]
  by_cases h0 : (!O.ammoEnabled && decide (mo.objType = O.MAP_OBJECT_TYPE_PICKUP_SPAWNER) &&
      decide (mo.pickupType = O.PICKUP_AMMO)) = true
  · simp [h0]
  · cases isStrictMode <;>
    cases hs : O.MapObjectIsTileOKStrict mo c (P.TileIsClear (MapGetTile m v)) a b
      (MapGetNumWallsAdjacentTile O m v) (MapGetNumWallsAroundTile O m v) <;>
    cases hl : O.MapObjectIsTileOK mo c (P.TileIsClear (MapGetTile m v)) a <;>
    by_cases hf : mo.Flags &&& (1 <<< O.PLACEMENT_FREE_IN_FRONT) = 0 <;>
    by_cases hi : 0 ≤ (v.y + 1) * m.Size.x + v.x ∧
      (v.y + 1) * m.Size.x + v.x < (m.iMap.length : Int) <;>
    simp [h0, hs, hl, hf, hi]

/-- The index `y * W + x` with `0 <= x < W` determines the cell. -/
theorem cell_index_inj (W : Int) (a b : Vec2i) (ha0 : 0 ≤ a.x) (ha1 : a.x < W)
    (hb0 : 0 ≤ b.x) (hb1 : b.x < W) (h : a.y * W + a.x = b.y * W + b.x) : a = b := by
  have hy : a.y = b.y := by
    by_contra hne
    rcases lt_or_gt_of_ne hne with hlt | hgt
    · have : (a.y + 1) * W ≤ b.y * W := mul_le_mul_of_nonneg_right (by omega) (by omega)
      have e : (a.y + 1) * W = a.y * W + W := by ring
      omega
    · have : (b.y + 1) * W ≤ a.y * W := mul_le_mul_of_nonneg_right (by omega) (by omega)
      have e : (b.y + 1) * W = b.y * W + W := by ring
      omega
  have hx : a.x = b.x := by
    rw [hy] at h
    omega
  cases a
  cases b
  simp only at hx hy
  rw [hx, hy]

/-- On a well-formed grid the cell below an in-grid tile has its index inside
`iMap` exactly when the tile is not in the bottom row. -/
theorem below_index_in_range (m : Map) (v : Vec2i) (hwf : m.WF) (hv : MapIsTileIn m v = true) :
    (0 ≤ (v.y + 1) * m.Size.x + v.x ∧ (v.y + 1) * m.Size.x + v.x < (m.iMap.length : Int)) ↔
      v.y + 1 < m.Size.y := by
  obtain ⟨hx0, hx1, hy0, hy1⟩ := (MapIsTileIn_iff m v).1 hv
  have hlen : (m.iMap.length : Int) = m.Size.x * m.Size.y := hwf.2.2.2
  constructor
  · rintro ⟨_, h2⟩
    by_contra hge
    have : m.Size.y * m.Size.x ≤ (v.y + 1) * m.Size.x :=
      mul_le_mul_of_nonneg_right (by omega) (by omega)
    have e : m.Size.y * m.Size.x = m.Size.x * m.Size.y := by ring
    omega
  · intro h
    have := index_in_range m { x := v.x, y := v.y + 1 } hwf hx0 hx1 (by simp only; omega) h
    simp only at this
    rw [hlen]
    exact this

/-- OR-ing the leave-free bit into an access code keeps its base type and its
keycard access bits. -/
theorem or_leavefree_keeps (c : Nat) :
    (c ||| MAP_LEAVEFREE) &&& MAP_MASKACCESS = c &&& MAP_MASKACCESS ∧
    (c ||| MAP_LEAVEFREE) &&& MAP_ACCESSBITS = c &&& MAP_ACCESSBITS ∧
    (c ||| MAP_LEAVEFREE) &&& MAP_LEAVEFREE = MAP_LEAVEFREE := by
  have h1 : MAP_MASKACCESS &&& MAP_LEAVEFREE = 0 := by decide
  have h2 : MAP_ACCESSBITS &&& MAP_LEAVEFREE = 0 := by decide
  have h3 : MAP_LEAVEFREE &&& MAP_LEAVEFREE = MAP_LEAVEFREE := Nat.and_self _
  refine ⟨?_, ?_, ?_⟩
  · rw [Nat.and_comm, Nat.and_or_distrib_left, h1, Nat.or_zero, Nat.and_comm]
  · rw [Nat.and_comm, Nat.and_or_distrib_left, h2, Nat.or_zero, Nat.and_comm]
  · rw [Nat.and_comm, Nat.and_or_distrib_left, h3]
    apply Nat.eq_of_testBit_eq
    intro i
    simp only [Nat.testBit_or, Nat.testBit_and]
    cases Nat.testBit MAP_LEAVEFREE i <;> simp

/-- The access codes read after the leave-free hint was written below an
in-grid tile `v` that is not in the bottom row: the cell below `v` holds its
old code with the leave-free bit, every other cell reads as before. -/
theorem IMapGet_leaveFreeBelow (m : Map) (v : Vec2i) (hwf : m.WF)
    (hv : MapIsTileIn m v = true) (hy : v.y + 1 < m.Size.y) :
    IMapGet { m with iMap := leaveFreeBelow m v } { x := v.x, y := v.y + 1 } =
      some (codeAt m { x := v.x, y := v.y + 1 } ||| MAP_LEAVEFREE) ∧
    ∀ u : Vec2i, u ≠ { x := v.x, y := v.y + 1 } →
      IMapGet { m with iMap := leaveFreeBelow m v } u = IMapGet m u := by
  obtain ⟨hx0, hx1, hy0, hy1⟩ := (MapIsTileIn_iff m v).1 hv
  have hr := (below_index_in_range m v hwf hv).2 hy
  have hlt : ((v.y + 1) * m.Size.x + v.x).toNat < m.iMap.length := by omega
  constructor
  · have hin : ¬ (v.x < 0 ∨ v.x ≥ m.Size.x ∨ v.y + 1 < 0 ∨ v.y + 1 ≥ m.Size.y) := by omega
    simp only [IMapGet, hin, if_false, CArrayGet, hr.1, if_true, leaveFreeBelow]
    rw [List.getElem?_set_self hlt]
  · intro u hu
    by_cases hout : u.x < 0 ∨ u.x ≥ m.Size.x ∨ u.y < 0 ∨ u.y ≥ m.Size.y
    · simp only [IMapGet, hout, if_true]
    · have hur := index_in_range m u hwf (by omega) (by omega) (by omega) (by omega)
      simp only [IMapGet, hout, if_false, CArrayGet, hur.1, if_true, leaveFreeBelow]
      apply List.getElem?_set_ne
      intro heq
      apply hu
      have e : u.y * m.Size.x + u.x = (v.y + 1) * m.Size.x + v.x := by omega
      exact cell_index_inj m.Size.x u { x := v.x, y := v.y + 1 } (by omega) (by omega) hx0 hx1 e

/-- In loose mode, on a well-formed grid, placing an object with the
free-in-front flag on a tile of the bottom row that passes the loose check
stores the leave-free hint outside the `iMap` array. -/
theorem bottom_row_hint_outside (P : PlaceEnv) (O : ObjEnv) (m : Map) (v : Vec2i)
    (mo : MapObject) (extraFlags : Nat) (s : ObjState) (hwf : m.WF)
    (hv : MapIsTileIn m v = true) (hrow : v.y + 1 = m.Size.y)
    (hammo : ammoSpawnerOff O mo = false) (hloose : looseCheckAt P O m v mo = true)
    (hflag : hasFreeInFront O mo = true) :
    MapTryPlaceOneObject P O m v mo extraFlags false s = Res.undef := by
  rw [MapTryPlaceOneObject_eq P O m v mo extraFlags false s hwf]
  unfold placeOneObjectOutcome
  have hI : ¬ (0 ≤ (v.y + 1) * m.Size.x + v.x ∧
      (v.y + 1) * m.Size.x + v.x < (m.iMap.length : Int)) := by
    intro h
    have := (below_index_in_range m v hwf hv).1 h
    omega
  simp [hammo, hloose, hflag, hI]

/-- The loose check is not told the row of the tile: whenever it accepts an
object with the free-in-front flag for some tile code `c`, tile `t` and code
above `a`, the same arguments arise on the bottom row of a well-formed grid of
1 by 2 cells, where the placement in loose mode stores the hint outside the
`iMap` array. -/
theorem loose_check_blind_to_row (P : PlaceEnv) (O : ObjEnv) (mo : MapObject) (c a : Nat)
    (t : Tile) (extraFlags : Nat) (s : ObjState)
    (hpass : O.MapObjectIsTileOK mo c (P.TileIsClear (some t)) a = true)
    (hammo : ammoSpawnerOff O mo = false) (hflag : hasFreeInFront O mo = true) :
    (bottomRowGrid t a c).WF ∧ MapIsTileIn (bottomRowGrid t a c) { x := 0, y := 1 } = true ∧
    MapTryPlaceOneObject P O (bottomRowGrid t a c) { x := 0, y := 1 } mo extraFlags false s =
      Res.undef := by
  have hwf : (bottomRowGrid t a c).WF := by
    unfold Map.WF bottomRowGrid
    simp
  have hv : MapIsTileIn (bottomRowGrid t a c) { x := 0, y := 1 } = true := by
    simp [MapIsTileIn, bottomRowGrid]
  have e1 : codeAt (bottomRowGrid t a c) { x := 0, y := 1 } = c := by
    simp [codeAt, IMapGet, CArrayGet, bottomRowGrid]
  have e2 : codeAt (bottomRowGrid t a c) { x := 0, y := 1 - 1 } = a := by
    simp [codeAt, IMapGet, CArrayGet, bottomRowGrid]
  have e3 : MapGetTile (bottomRowGrid t a c) { x := 0, y := 1 } = some t := by
    simp [MapGetTile, MapGetTilePtr, CArrayGet, bottomRowGrid]
  have hloose : looseCheckAt P O (bottomRowGrid t a c) { x := 0, y := 1 } mo = true := by
    unfold looseCheckAt
    simp only [e1, e3]
    rw [e2]
    exact hpass
  exact ⟨hwf, hv, bottom_row_hint_outside P O _ _ mo extraFlags s hwf hv
    (by simp [bottomRowGrid]) hammo hloose hflag⟩

/-! ## The claims -/

/-- C1: outside the grid `IMapGet` returns `MAP_NOTHING` and `MapGetTile`
returns no tile; inside the grid both return the element stored at index
`y * width + x`, which exists in every well-formed grid. -/
theorem C1_reads_out_of_bounds_and_in_bounds (m : Map) (pos : Vec2i) :
    ((pos.x < 0 ∨ pos.y < 0 ∨ pos.x ≥ m.Size.x ∨ pos.y ≥ m.Size.y) →
      IMapGet m pos = some MAP_NOTHING ∧ MapGetTile m pos = none) ∧
    ((0 ≤ pos.x ∧ pos.x < m.Size.x ∧ 0 ≤ pos.y ∧ pos.y < m.Size.y) →
      IMapGet m pos = m.iMap[(pos.y * m.Size.x + pos.x).toNat]? ∧
      MapGetTile m pos = m.Tiles[(pos.y * m.Size.x + pos.x).toNat]? ∧
      (m.WF → ∃ c tile,
        IMapGet m pos = some c ∧ MapGetTile m pos = some tile)) := by
  constructor
  · intro h
    have h1 : pos.x < 0 ∨ pos.x ≥ m.Size.x ∨ pos.y < 0 ∨ pos.y ≥ m.Size.y := by
      omega
    simp [IMapGet, MapGetTile, MapGetTilePtr, h1]
  · rintro ⟨hx0, hx1, hy0, hy1⟩
    have h1 : ¬ (pos.x < 0 ∨ pos.x ≥ m.Size.x ∨ pos.y < 0 ∨ pos.y ≥ m.Size.y) := by
      omega
    have hnn : 0 ≤ pos.y * m.Size.x + pos.x := by
      have := mul_nonneg hy0 (le_trans hx0 (le_of_lt hx1))
      omega
    have e1 : IMapGet m pos = m.iMap[(pos.y * m.Size.x + pos.x).toNat]? := by
      simp [IMapGet, h1, CArrayGet, hnn]
    have e2 : MapGetTile m pos = m.Tiles[(pos.y * m.Size.x + pos.x).toNat]? := by
      simp [MapGetTile, MapGetTilePtr, h1, CArrayGet, hnn]
    refine ⟨e1, e2, fun hwf => ?_⟩
    have hr := index_in_range m pos hwf hx0 hx1 hy0 hy1
    obtain ⟨_, _, hT, hI⟩ := hwf
    have hi : (pos.y * m.Size.x + pos.x).toNat < m.iMap.length := by omega
    have ht : (pos.y * m.Size.x + pos.x).toNat < m.Tiles.length := by omega
    refine ⟨m.iMap[(pos.y * m.Size.x + pos.x).toNat], m.Tiles[(pos.y * m.Size.x + pos.x).toNat], ?_, ?_⟩
    · rw [e1]; exact List.getElem?_eq_getElem hi
    · rw [e2]; exact List.getElem?_eq_getElem ht

/-- C2 (amended): for an item with a valid reference (`id ≥ 0`, kind within
`0..KIND_PICKUP`) whose stored position is the sentinel `(-1, -1)` and whose
reference is in no occupant list, a move to a position inside the grid returns
true, stores the position, appends the reference to the occupant list of the
destination tile, which then holds it exactly once, and leaves every other
tile as it was. -/
theorem C2_first_placement (E : Env) (m : Map) (t : TTileItem) (pos : Vec2)
    (hwf : m.WF)
    (hid : 0 ≤ t.id) (hkind : 0 ≤ t.kind ∧ t.kind ≤ E.KIND_PICKUP)
    (hsent : t.Pos = { x := -1, y := -1 })
    (hfresh : ∀ tile ∈ m.Tiles, t.thing ∉ tile.things)
    (hin : MapIsPosIn E m pos = true) :
    ∃ p tl, MapGetTilePtr m (E.Vec2ToTile pos) = some p ∧ 0 ≤ p ∧
      m.Tiles[p.toNat]? = some tl ∧
      MapTryMoveTileItem E m t pos =
        Res.ok true
          (m.setTile p { tl with things := tl.things ++ [t.thing] },
           { t with Pos := pos }) ∧
      (tl.things ++ [t.thing]).count t.thing = 1 ∧
      thingsAt (m.setTile p { tl with things := tl.things ++ [t.thing] }) p.toNat =
        tl.things ++ [t.thing] ∧
      ∀ j, j ≠ p.toNat →
        (m.setTile p { tl with things := tl.things ++ [t.thing] }).Tiles[j]? =
          m.Tiles[j]? := by
  obtain ⟨p, tl, hptr, hp, hg⟩ := tile_exists m _ hwf hin
  have hlen : p.toNat < m.Tiles.length := by
    rcases Nat.lt_or_ge p.toNat m.Tiles.length with h | h
    · exact h
    · rw [List.getElem?_eq_none h] at hg; cases hg
  have hmem : tl ∈ m.Tiles := List.getElem?_mem hg
  have hnot : t.thing ∉ tl.things := hfresh tl hmem
  refine ⟨p, tl, hptr, hp, hg, ?_, ?_, ?_, fun j hj => setTile_other m p _ j hj⟩
  · have hadd := AddItemToTile_valid E m { t with Pos := pos } p tl hp hg hid
      hkind.1 hkind.2
    unfold MapTryMoveTileItem
    simp only [hin, hsent]
    simp only [Bool.not_true, Bool.false_eq_true, if_false, ge_iff_le]
    have hneg : ¬ ((0 : Int) ≤ -1) := by decide
    simp only [hneg, decide_False, Bool.and_false, Bool.false_eq_true, if_false]
    rw [hptr, hadd]
    rfl
  · simp [List.count_append, List.count_eq_zero_of_not_mem hnot]
  · simp [thingsAt, setTile_getElem?, hlen]

/-- Witness of C2: thing `(9, 2)` is placed for the first time on tile 2 of
the example grid. -/
theorem C2_first_placement_witness :
    exampleMap.WF ∧
    ∃ p tl, MapGetTilePtr exampleMap (exampleEnv.Vec2ToTile { x := 3, y := 14 }) = some p ∧
      0 ≤ p ∧ exampleMap.Tiles[p.toNat]? = some tl ∧
      MapTryMoveTileItem exampleEnv exampleMap
          { Pos := { x := -1, y := -1 }, id := 9, kind := 2 } { x := 3, y := 14 } =
        Res.ok true
          (exampleMap.setTile p
            { tl with things := tl.things ++ [{ Id := 9, Kind := 2 }] },
           { Pos := { x := 3, y := 14 }, id := 9, kind := 2 }) ∧
      (tl.things ++ [({ Id := 9, Kind := 2 } : ThingId)]).count { Id := 9, Kind := 2 } = 1 ∧
      thingsAt (exampleMap.setTile p
          { tl with things := tl.things ++ [{ Id := 9, Kind := 2 }] }) p.toNat =
        tl.things ++ [{ Id := 9, Kind := 2 }] ∧
      ∀ j, j ≠ p.toNat →
        (exampleMap.setTile p
          { tl with things := tl.things ++ [{ Id := 9, Kind := 2 }] }).Tiles[j]? =
          exampleMap.Tiles[j]? :=
  ⟨by decide,
   C2_first_placement exampleEnv exampleMap
     { Pos := { x := -1, y := -1 }, id := 9, kind := 2 } { x := 3, y := 14 }
     (by decide) (by decide) (by decide) rfl (by decide) (by decide)⟩

/-- Counterexample to C2 as stated ("for every item"): an item at the
sentinel position, in no occupant list, moved to a position inside the grid,
but with `id = -1`: `AddItemToTile` stops in its assertion, so the move does
not return true and nothing is appended. -/
theorem C2_counterexample_invalid_id :
    (∀ tile ∈ exampleMap.Tiles,
      ({ Id := -1, Kind := 0 } : ThingId) ∉ tile.things) ∧
    MapIsPosIn exampleEnv exampleMap { x := 3, y := 14 } = true ∧
    MapTryMoveTileItem exampleEnv exampleMap
        { Pos := { x := -1, y := -1 }, id := -1, kind := 0 } { x := 3, y := 14 } =
      Res.assertFail "invalid ThingId"
        (exampleMap, { Pos := { x := 3, y := 14 }, id := -1, kind := 0 }) ∧
    ¬ ∃ s, MapTryMoveTileItem exampleEnv exampleMap
        { Pos := { x := -1, y := -1 }, id := -1, kind := 0 } { x := 3, y := 14 } =
      Res.ok true s := by
  refine ⟨by decide, by decide, by decide, ?_⟩
  rintro ⟨s, h⟩
  have h2 : MapTryMoveTileItem exampleEnv exampleMap
      { Pos := { x := -1, y := -1 }, id := -1, kind := 0 } { x := 3, y := 14 } =
      Res.assertFail "invalid ThingId"
        (exampleMap, { Pos := { x := 3, y := 14 }, id := -1, kind := 0 }) := by
    decide
  rw [h2] at h
  cases h

/-- C3: a move to a position whose tile is outside the grid returns false and
leaves the map (every occupant list) and the item (its stored position)
unchanged. -/
theorem C3_move_outside_grid_is_rejected (E : Env) (m : Map) (t : TTileItem)
    (pos : Vec2) (hout : MapIsTileIn m (E.Vec2ToTile pos) = false) :
    MapTryMoveTileItem E m t pos = Res.ok false (m, t) := by
  simp [MapTryMoveTileItem, MapIsPosIn, hout]

/-- Witness of C3: a move to tile `(6, 0)` of the 2 by 2 example grid. -/
theorem C3_move_outside_witness :
    MapIsTileIn exampleMap (exampleEnv.Vec2ToTile { x := 100, y := 5 }) = false ∧
    MapTryMoveTileItem exampleEnv exampleMap
        { Pos := { x := 4, y := 4 }, id := 3, kind := 1 } { x := 100, y := 5 } =
      Res.ok false (exampleMap, { Pos := { x := 4, y := 4 }, id := 3, kind := 1 }) :=
  ⟨by decide, C3_move_outside_grid_is_rejected exampleEnv exampleMap _ _ (by decide)⟩

/-- C4: in a well-formed grid, for an item whose position is inside the grid,
with any prior occupant list of its tile (duplicates of the reference
included): if the reference is valid, `AddItemToTile` appends it and the
`MapRemoveTileItem` that follows returns, leaving that tile with an occupant
list that is a permutation of the prior one, the tile otherwise as it was, and
every other tile unchanged; if the reference is not valid, nothing is
inserted. -/
theorem C4_insert_then_remove_roundtrip (E : Env) (m : Map) (t : TTileItem)
    (hwf : m.WF) (hin : MapIsPosIn E m t.Pos = true) :
    ∃ p tl, MapGetTileOfItem E m t = some p ∧ m.Tiles[p.toNat]? = some tl ∧
      ((0 ≤ t.id ∧ 0 ≤ t.kind ∧ t.kind ≤ E.KIND_PICKUP) →
        AddItemToTile E m t (MapGetTileOfItem E m t) =
          Res.ok () (m.setTile p { tl with things := tl.things ++ [t.thing] }) ∧
        ∃ things1,
          MapRemoveTileItem E
              (m.setTile p { tl with things := tl.things ++ [t.thing] }) t =
            Res.ok () (m.setTile p { tl with things := things1 }) ∧
          things1.Perm tl.things ∧
          (∀ k, things1.count k = tl.things.count k) ∧
          ∀ j, j ≠ p.toNat →
            (m.setTile p { tl with things := things1 }).Tiles[j]? = m.Tiles[j]?) ∧
      (¬ (0 ≤ t.id ∧ 0 ≤ t.kind ∧ t.kind ≤ E.KIND_PICKUP) →
        ∃ msg, AddItemToTile E m t (MapGetTileOfItem E m t) = Res.assertFail msg m) := by
  obtain ⟨p, tl, hptr0, hp, hg⟩ := tile_exists m _ hwf hin
  have hptr : MapGetTileOfItem E m t = some p := hptr0
  have hlen := lt_length_of_getElem? _ _ _ hg
  refine ⟨p, tl, hptr, hg, ?_, ?_⟩
  · rintro ⟨hid, hk0, hk1⟩
    have hadd := AddItemToTile_valid E m t p tl hp hg hid hk0 hk1
    refine ⟨by rw [hptr]; exact hadd, ?_⟩
    have hptr1 : MapGetTileOfItem E
        (m.setTile p { tl with things := tl.things ++ [t.thing] }) t = some p := hptr
    have hg1 : (m.setTile p { tl with things := tl.things ++ [t.thing] }).Tiles[p.toNat]? =
        some { tl with things := tl.things ++ [t.thing] } := by
      simp [setTile_getElem?, hlen]
    obtain ⟨l1, l2, e, _, hr⟩ :=
      (MapRemoveTileItem_in E _ t p _ hptr1 hg1).1 (by simp)
    simp only at e
    have hperm : (l1 ++ l2).Perm tl.things := by
      have h1 : (t.thing :: (l1 ++ l2)).Perm (l1 ++ t.thing :: l2) :=
        (List.perm_middle).symm
      have h2 : (tl.things ++ [t.thing]).Perm (t.thing :: tl.things) :=
        List.perm_append_singleton _ _
      rw [← e] at h1
      exact (h1.trans h2).cons_inv
    refine ⟨l1 ++ l2, ?_, hperm, fun k => hperm.count_eq k,
      fun j hj => setTile_other m p _ j hj⟩
    rw [hr, setTile_setTile]
  · intro hbad
    unfold AddItemToTile
    simp only [ge_iff_le, not_le, not_and]
    by_cases h1 : t.id < 0
    · exact ⟨_, by rw [if_pos h1]⟩
    · rw [if_neg h1]
      have h2 : 0 ≤ t.kind → E.KIND_PICKUP < t.kind := by
        intro h0
        by_contra hc
        exact hbad ⟨by omega, h0, by omega⟩
      exact ⟨_, by rw [if_pos h2]⟩

/-- Witness of C4: thing `(5, 0)` is inserted a second time into tile 3 of the
example grid, which already holds `(5, 0)` and `(7, 0)`, and removed again. -/
theorem C4_roundtrip_witness :
    exampleMap.WF ∧
    AddItemToTile exampleEnv exampleMap
        { Pos := { x := 17, y := 13 }, id := 5, kind := 0 } (some 3) =
      Res.ok () (exampleMap.setTile 3
        { flags := 0, isVisited := false,
          things := [{ Id := 5, Kind := 0 }, { Id := 7, Kind := 0 }, { Id := 5, Kind := 0 }] }) ∧
    MapRemoveTileItem exampleEnv (exampleMap.setTile 3
        { flags := 0, isVisited := false,
          things := [{ Id := 5, Kind := 0 }, { Id := 7, Kind := 0 }, { Id := 5, Kind := 0 }] })
        { Pos := { x := 17, y := 13 }, id := 5, kind := 0 } =
      Res.ok () (exampleMap.setTile 3
        { flags := 0, isVisited := false,
          things := [{ Id := 7, Kind := 0 }, { Id := 5, Kind := 0 }] }) ∧
    ∃ p tl, MapGetTileOfItem exampleEnv exampleMap
        { Pos := { x := 17, y := 13 }, id := 5, kind := 0 } = some p ∧
      exampleMap.Tiles[p.toNat]? = some tl := by
  obtain ⟨p, tl, h1, h2, _⟩ := C4_insert_then_remove_roundtrip exampleEnv exampleMap
    { Pos := { x := 17, y := 13 }, id := 5, kind := 0 } (by decide) (by decide)
  exact ⟨by decide, by decide, by decide, p, tl, h1, h2⟩

/-- C6 (amended): for an item whose position is inside the grid,
`MapRemoveTileItem` deletes exactly the first entry equal to the item's
`(id, kind)` from the tile of that position, keeping the order of the other
entries and every other tile, and stops in the fatal assertion with the map
unchanged when the list holds no such entry; for an item whose position is
outside the grid it returns without any change and without an assertion. -/
theorem C6_remove_first_match_or_assert (E : Env) (m : Map) (t : TTileItem)
    (hwf : m.WF) :
    (MapIsPosIn E m t.Pos = false → MapRemoveTileItem E m t = Res.ok () m) ∧
    (MapIsPosIn E m t.Pos = true →
      ∃ p tl, MapGetTileOfItem E m t = some p ∧ 0 ≤ p ∧
        m.Tiles[p.toNat]? = some tl ∧
        (t.thing ∈ tl.things →
          ∃ l1 l2, tl.things = l1 ++ t.thing :: l2 ∧ t.thing ∉ l1 ∧
            MapRemoveTileItem E m t =
              Res.ok () (m.setTile p { tl with things := l1 ++ l2 }) ∧
            ∀ j, j ≠ p.toNat →
              (m.setTile p { tl with things := l1 ++ l2 }).Tiles[j]? = m.Tiles[j]?) ∧
        (t.thing ∉ tl.things →
          MapRemoveTileItem E m t =
            Res.assertFail "Did not find element to delete" m)) := by
  refine ⟨MapRemoveTileItem_out E m t, fun hin => ?_⟩
  obtain ⟨p, tl, hptr, hp, hg⟩ := tile_exists m _ hwf hin
  have h := MapRemoveTileItem_in E m t p tl hptr hg
  refine ⟨p, tl, hptr, hp, hg, fun hmem => ?_, h.2⟩
  obtain ⟨l1, l2, e, hn, hr⟩ := h.1 hmem
  exact ⟨l1, l2, e, hn, hr, fun j hj => setTile_other m p _ j hj⟩

/-- Witness of C6: in the example grid, an item outside the grid is left
alone, removing thing `(5, 0)` from tile 3 deletes the first of its two
entries, and removing a thing that tile 3 does not hold stops in the
assertion. -/
theorem C6_remove_witness :
    exampleMap.WF ∧
    MapRemoveTileItem exampleEnv exampleMap
        { Pos := { x := -1, y := -1 }, id := 5, kind := 0 } =
      Res.ok () exampleMap ∧
    MapRemoveTileItem exampleEnv exampleMap
        { Pos := { x := 17, y := 13 }, id := 5, kind := 0 } =
      Res.ok () (exampleMap.setTile 3
        { flags := 0, isVisited := false, things := [{ Id := 7, Kind := 0 }] }) ∧
    MapRemoveTileItem exampleEnv exampleMap
        { Pos := { x := 17, y := 13 }, id := 9, kind := 0 } =
      Res.assertFail "Did not find element to delete" exampleMap :=
  ⟨by decide,
   (C6_remove_first_match_or_assert exampleEnv exampleMap
      { Pos := { x := -1, y := -1 }, id := 5, kind := 0 } (by decide)).1 (by decide),
   by decide, by decide⟩

/-- Counterexample to C6 as stated: an item whose position is outside the
grid and whose reference is in no occupant list is "removed" without the fatal
assertion: the call returns normally with the map unchanged. -/
theorem C6_counterexample_no_assert_outside :
    (∀ tile ∈ exampleMap.Tiles,
      ({ Id := 9, Kind := 0 } : ThingId) ∉ tile.things) ∧
    MapRemoveTileItem exampleEnv exampleMap
        { Pos := { x := 100, y := 100 }, id := 9, kind := 0 } =
      Res.ok () exampleMap ∧
    ¬ ∃ msg s, MapRemoveTileItem exampleEnv exampleMap
        { Pos := { x := 100, y := 100 }, id := 9, kind := 0 } =
      Res.assertFail msg s := by
  refine ⟨by decide, by decide, ?_⟩
  rintro ⟨msg, s, h⟩
  have h2 : MapRemoveTileItem exampleEnv exampleMap
      { Pos := { x := 100, y := 100 }, id := 9, kind := 0 } = Res.ok () exampleMap := by
    decide
  rw [h2] at h
  cases h

/-- C7: on every tile position inside a well-formed grid, `MapMarkAsVisited`
returns, a second call returns the very same state, the tile ends up visited
(its flags and occupants untouched), and the visited counter grows by one
exactly when the tile was unvisited and lacks the no-walk flag, by zero
otherwise. -/
theorem C7_mark_visited_idempotent (E : Env) (m : Map) (pos : Vec2i)
    (hwf : m.WF) (hin : MapIsTileIn m pos = true) :
    ∃ m1 tl, MapGetTile m pos = some tl ∧
      MapMarkAsVisited E m pos = Res.ok () m1 ∧
      MapMarkAsVisited E m1 pos = Res.ok () m1 ∧
      MapGetTile m1 pos = some { tl with isVisited := true } ∧
      m1.tilesSeen = m.tilesSeen +
        (if tl.isVisited = false ∧ tl.flags &&& E.MAPTILE_NO_WALK = 0 then 1 else 0) ∧
      m1.tilesSeen ≤ m.tilesSeen + 1 := by
  obtain ⟨p, tl, hptr, hp, hg⟩ := tile_exists m _ hwf hin
  have hlen := lt_length_of_getElem? _ _ _ hg
  have h1 := MapMarkAsVisited_exists E m pos p tl hptr hp hg
  have hget : MapGetTile m pos = some tl := by
    unfold MapGetTile
    rw [hptr]
    simp only [Option.some_bind]
    rw [CArrayGet_nonneg _ _ hp, hg]
  have hT : ∀ m0 : Map, m0.Tiles = m.Tiles → m0.Size = m.Size →
      MapGetTilePtr (m0.setTile p { tl with isVisited := true }) pos = some p ∧
      (m0.setTile p { tl with isVisited := true }).Tiles[p.toNat]? =
        some { tl with isVisited := true } := by
    intro m0 e1 e2
    constructor
    · rw [MapGetTilePtr_setTile, MapGetTilePtr_congr m m0 e2]
      exact hptr
    · rw [setTile_getElem?, if_pos rfl, e1, if_pos hlen]
  by_cases hc : (!tl.isVisited && decide (tl.flags &&& E.MAPTILE_NO_WALK = 0)) = true
  · rw [if_pos hc] at h1
    obtain ⟨hptr1, hg1⟩ := hT { m with tilesSeen := m.tilesSeen + 1 } rfl rfl
    have h2 := MapMarkAsVisited_exists E _ pos p _ hptr1 hp hg1
    simp only [Bool.not_true, Bool.false_and, Bool.false_eq_true, if_false] at h2
    rw [setTile_setTile] at h2
    have hget1 : MapGetTile
        (Map.setTile { m with tilesSeen := m.tilesSeen + 1 } p { tl with isVisited := true })
        pos = some { tl with isVisited := true } := by
      unfold MapGetTile
      rw [hptr1]
      simp only [Option.some_bind]
      rw [CArrayGet_nonneg _ _ hp, hg1]
    have hcond : tl.isVisited = false ∧ tl.flags &&& E.MAPTILE_NO_WALK = 0 := by
      simpa using hc
    refine ⟨_, tl, hget, h1, h2, hget1, ?_, ?_⟩
    · rw [if_pos hcond]; rfl
    · exact le_of_eq rfl
  · rw [if_neg hc] at h1
    obtain ⟨hptr1, hg1⟩ := hT m rfl rfl
    have h2 := MapMarkAsVisited_exists E _ pos p _ hptr1 hp hg1
    simp only [Bool.not_true, Bool.false_and, Bool.false_eq_true, if_false] at h2
    rw [setTile_setTile] at h2
    have hget1 : MapGetTile (m.setTile p { tl with isVisited := true }) pos =
        some { tl with isVisited := true } := by
      unfold MapGetTile
      rw [hptr1]
      simp only [Option.some_bind]
      rw [CArrayGet_nonneg _ _ hp, hg1]
    have hcond : ¬ (tl.isVisited = false ∧ tl.flags &&& E.MAPTILE_NO_WALK = 0) := by
      simpa using hc
    refine ⟨_, tl, hget, h1, h2, hget1, ?_, ?_⟩
    · rw [if_neg hcond]
      show m.tilesSeen = m.tilesSeen + 0
      omega
    · show m.tilesSeen ≤ m.tilesSeen + 1
      omega

/-- Witness of C7: tile `(0, 1)` of the example grid is marked twice; the
counter goes from 0 to 1 once. -/
theorem C7_mark_visited_witness :
    exampleMap.WF ∧ MapIsTileIn exampleMap { x := 0, y := 1 } = true ∧
    ∃ m1 tl, MapGetTile exampleMap { x := 0, y := 1 } = some tl ∧
      MapMarkAsVisited exampleEnv exampleMap { x := 0, y := 1 } = Res.ok () m1 ∧
      MapMarkAsVisited exampleEnv m1 { x := 0, y := 1 } = Res.ok () m1 ∧
      MapGetTile m1 { x := 0, y := 1 } = some { tl with isVisited := true } ∧
      m1.tilesSeen = exampleMap.tilesSeen +
        (if tl.isVisited = false ∧ tl.flags &&& exampleEnv.MAPTILE_NO_WALK = 0 then 1 else 0) ∧
      m1.tilesSeen ≤ exampleMap.tilesSeen + 1 :=
  ⟨by decide, by decide,
   C7_mark_visited_idempotent exampleEnv exampleMap { x := 0, y := 1 } (by decide) (by decide)⟩

/-- C8 (amended): in a freshly loaded grid with at least one explorable tile
the explored percentage is 0.  When moreover `NumExplorableTiles <= 21474836`,
so that `100 * tilesSeen` fits a 32-bit `int`, the percentage is 100 after
`MapMarkAllAsVisited`, and after any returning sequence of tracker calls it is
the floor of `100 * tilesSeen / NumExplorableTiles`, and 100 as soon as every
tile without the no-walk flag is visited. -/
theorem C8_explored_percentage (E : Env) (m : Map) (hfresh : FreshlyLoaded E m)
    (hN : 0 < m.NumExplorableTiles) :
    MapGetExploredPercentage m = some 0 ∧
    (m.NumExplorableTiles ≤ 21474836 →
      (∃ m1, MapMarkAllAsVisited E m = Res.ok () m1 ∧
        (∀ tile ∈ m1.Tiles, tile.isVisited = true) ∧
        MapGetExploredPercentage m1 = some 100) ∧
      ∀ ops m1, runExplore E m ops = Res.ok () m1 →
        MapGetExploredPercentage m1 =
          some ⌊(100 * (m1.tilesSeen : ℚ)) / (m1.NumExplorableTiles : ℚ)⌋ ∧
        ((∀ tile ∈ m1.Tiles, tile.flags &&& E.MAPTILE_NO_WALK = 0 → tile.isVisited = true) →
          MapGetExploredPercentage m1 = some 100)) := by
  have hwf : m.WF := hfresh.1
  constructor
  · rw [MapGetExploredPercentage_of_small m (by rw [hfresh.2.2.1]) (by rw [hfresh.2.2.1]; decide)
      hN, hfresh.2.2.1]
    simp
  · intro hsmall
    have hgen : ∀ s, ExploredFrom E m s →
        MapGetExploredPercentage s =
          some ⌊(100 * (s.tilesSeen : ℚ)) / (s.NumExplorableTiles : ℚ)⌋ ∧
        ((∀ tile ∈ s.Tiles, tile.flags &&& E.MAPTILE_NO_WALK = 0 → tile.isVisited = true) →
          MapGetExploredPercentage s = some 100) := by
      intro s he
      obtain ⟨hseen, hNs, hle⟩ := explored_counters E m s hfresh he
      have hNeq : s.NumExplorableTiles = m.NumExplorableTiles := he.2.2.1
      have hpos : 0 < s.NumExplorableTiles := by rw [hNeq]; exact hN
      have hne : s.NumExplorableTiles ≠ 0 := by omega
      have hnn : 0 ≤ s.tilesSeen := by rw [hseen]; exact Int.natCast_nonneg _
      have hub : s.tilesSeen ≤ 21474836 := by
        have : s.tilesSeen ≤ s.NumExplorableTiles := by
          rw [hseen, hNs]
          exact_mod_cast hle
        omega
      rw [MapGetExploredPercentage_of_small s hnn hub hpos]
      constructor
      · rw [percentage_floor _ _ hnn hpos]
      · intro hall
        rw [hseen, numSeen_eq_numWalkable E s hall, ← hNs, Int.mul_tdiv_cancel _ hne]
    refine ⟨?_, fun ops m1 hrun => hgen m1 (runExplore_explores E ops m m1 hwf hrun)⟩
    obtain ⟨m1, hm, he, hall⟩ := MapMarkAllAsVisited_explores E m hwf
    exact ⟨m1, hm, hall, (hgen m1 he).2 (fun tile ht _ => hall tile ht)⟩

/-- Witness of C8: the example grid is freshly loaded with 3 explorable tiles
out of 4; its percentage is 0, and 100 after all tiles are marked. -/
theorem C8_explored_percentage_witness :
    FreshlyLoaded exampleEnv exampleMap ∧ 0 < exampleMap.NumExplorableTiles ∧
    MapGetExploredPercentage exampleMap = some 0 ∧
    ∃ m1, MapMarkAllAsVisited exampleEnv exampleMap = Res.ok () m1 ∧
      (∀ tile ∈ m1.Tiles, tile.isVisited = true) ∧
      MapGetExploredPercentage m1 = some 100 := by
  have hf : FreshlyLoaded exampleEnv exampleMap := by
    unfold FreshlyLoaded
    decide
  have h := C8_explored_percentage exampleEnv exampleMap hf (by decide)
  exact ⟨hf, by decide, h.1, (h.2 (by decide)).1⟩

/-- Counterexample to C8 as stated (100 after every explorable tile is
visited, for every grid): the large example grid is freshly loaded with
30000000 explorable tiles; after `MapMarkAllAsVisited` every tile is visited
and `tilesSeen = NumExplorableTiles = 30000000`, so the floor of
`100 * tilesSeen / NumExplorableTiles` is 100, but `MapGetExploredPercentage`
returns `-43`, because `100 * 30000000` does not fit a 32-bit `int`. -/
theorem C8_counterexample_large_grid :
    FreshlyLoaded exampleEnv exampleLargeMap ∧ 0 < exampleLargeMap.NumExplorableTiles ∧
    ∃ m1, MapMarkAllAsVisited exampleEnv exampleLargeMap = Res.ok () m1 ∧
      (∀ tile ∈ m1.Tiles, tile.isVisited = true) ∧
      ⌊(100 * (m1.tilesSeen : ℚ)) / (m1.NumExplorableTiles : ℚ)⌋ = 100 ∧
      MapGetExploredPercentage m1 = some (-43) := by
  obtain ⟨m1, h1, h2, h3, h4, h5⟩ := exampleLargeMap_marked
  refine ⟨exampleLargeMap_fresh, by decide, m1, h1, h2, ?_, h5⟩
  rw [h3, h4]
  norm_num

/-- C9: `GetAccessMask(-1)` is 0; for `k` in `0..3`, `GetAccessMask(k)` is
`MAP_ACCESS_YELLOW` shifted left by `k`, a single bit (a power of two) that
lies inside the access-bit mask and outside the base-type mask; `k = 0, 1, 2,
3` give Yellow, Green, Blue, Red, and the four values are pairwise distinct. -/
theorem C9_access_mask_single_bits :
    GetAccessMask (-1) = some 0 ∧
    (∀ k : Int, 0 ≤ k → k ≤ 3 →
      GetAccessMask k = some (MAP_ACCESS_YELLOW <<< k.toNat) ∧
      MAP_ACCESS_YELLOW <<< k.toNat = 2 ^ (8 + k.toNat) ∧
      (MAP_ACCESS_YELLOW <<< k.toNat) &&& MAP_ACCESSBITS = MAP_ACCESS_YELLOW <<< k.toNat ∧
      (MAP_ACCESS_YELLOW <<< k.toNat) &&& MAP_MASKACCESS = 0) ∧
    GetAccessMask 0 = some MAP_ACCESS_YELLOW ∧
    GetAccessMask 1 = some MAP_ACCESS_GREEN ∧
    GetAccessMask 2 = some MAP_ACCESS_BLUE ∧
    GetAccessMask 3 = some MAP_ACCESS_RED ∧
    (∀ j k : Int, 0 ≤ j → j ≤ 3 → 0 ≤ k → k ≤ 3 →
      GetAccessMask j = GetAccessMask k → j = k) := by
  refine ⟨by decide, ?_, by decide, by decide, by decide, by decide, ?_⟩
  · intro k h0 h3
    interval_cases k <;> decide
  · intro j k hj0 hj3 hk0 hk3
    interval_cases j <;> interval_cases k <;> decide

/-- C10: `AccessCodeToFlags` is the specified decoding: it returns the flag of
the first colour in the order Red, Blue, Green, Yellow whose access bit is
set; it returns 0 exactly when none of the four access bits is set; and codes
with the same access bits (whatever their base-type and leave-free bits)
decode alike. -/
theorem C10_access_code_to_flags (code : Nat) :
    AccessCodeToFlags code = decodeKeycardFlagSpec code ∧
    (code &&& MAP_ACCESS_RED ≠ 0 → AccessCodeToFlags code = FLAGS_KEYCARD_RED) ∧
    (code &&& MAP_ACCESS_RED = 0 → code &&& MAP_ACCESS_BLUE ≠ 0 →
      AccessCodeToFlags code = FLAGS_KEYCARD_BLUE) ∧
    (code &&& MAP_ACCESS_RED = 0 → code &&& MAP_ACCESS_BLUE = 0 →
      code &&& MAP_ACCESS_GREEN ≠ 0 → AccessCodeToFlags code = FLAGS_KEYCARD_GREEN) ∧
    (code &&& MAP_ACCESS_RED = 0 → code &&& MAP_ACCESS_BLUE = 0 →
      code &&& MAP_ACCESS_GREEN = 0 → code &&& MAP_ACCESS_YELLOW ≠ 0 →
      AccessCodeToFlags code = FLAGS_KEYCARD_YELLOW) ∧
    (AccessCodeToFlags code = 0 ↔
      (code &&& MAP_ACCESS_RED = 0 ∧ code &&& MAP_ACCESS_BLUE = 0 ∧
       code &&& MAP_ACCESS_GREEN = 0 ∧ code &&& MAP_ACCESS_YELLOW = 0)) ∧
    (AccessCodeToFlags code = 0 ↔ code &&& MAP_ACCESSBITS = 0) ∧
    (∀ other, other &&& MAP_ACCESSBITS = code &&& MAP_ACCESSBITS →
      AccessCodeToFlags other = AccessCodeToFlags code) ∧
    AccessCodeToFlags (code &&& MAP_ACCESSBITS) = AccessCodeToFlags code ∧
    AccessCodeToFlags (code ||| MAP_LEAVEFREE) = AccessCodeToFlags code ∧
    (∀ base, base ≤ MAP_MASKACCESS →
      AccessCodeToFlags ((code &&& MAP_ACCESSBITS) ||| base) = AccessCodeToFlags code) := by
  have hzero : AccessCodeToFlags code = 0 ↔
      (code &&& MAP_ACCESS_RED = 0 ∧ code &&& MAP_ACCESS_BLUE = 0 ∧
       code &&& MAP_ACCESS_GREEN = 0 ∧ code &&& MAP_ACCESS_YELLOW = 0) := by
    unfold AccessCodeToFlags
    by_cases h1 : code &&& MAP_ACCESS_RED = 0 <;>
    by_cases h2 : code &&& MAP_ACCESS_BLUE = 0 <;>
    by_cases h3 : code &&& MAP_ACCESS_GREEN = 0 <;>
    by_cases h4 : code &&& MAP_ACCESS_YELLOW = 0 <;>
    simp [h1, h2, h3, h4, FLAGS_KEYCARD_RED, FLAGS_KEYCARD_BLUE, FLAGS_KEYCARD_GREEN,
      FLAGS_KEYCARD_YELLOW]
  have hbits : code &&& MAP_ACCESSBITS = 0 ↔
      (code &&& MAP_ACCESS_RED = 0 ∧ code &&& MAP_ACCESS_BLUE = 0 ∧
       code &&& MAP_ACCESS_GREEN = 0 ∧ code &&& MAP_ACCESS_YELLOW = 0) := by
    constructor
    · intro h
      have e : ∀ c, MAP_ACCESSBITS &&& c = c → code &&& c = 0 := by
        intro c hc
        rw [← and_colour_of_accessbits code c hc, h, Nat.zero_and]
      exact ⟨e _ (by decide), e _ (by decide), e _ (by decide), e _ (by decide)⟩
    · rintro ⟨h1, h2, h3, h4⟩
      have e : MAP_ACCESSBITS =
          MAP_ACCESS_RED ||| (MAP_ACCESS_BLUE ||| (MAP_ACCESS_GREEN ||| MAP_ACCESS_YELLOW)) := by
        decide
      rw [e, Nat.and_or_distrib_left, Nat.and_or_distrib_left, Nat.and_or_distrib_left,
        h1, h2, h3, h4]
      rfl
  have hlf : (code ||| MAP_LEAVEFREE) &&& MAP_ACCESSBITS = code &&& MAP_ACCESSBITS := by
    rw [Nat.and_comm, Nat.and_or_distrib_left, Nat.and_comm]
    have : MAP_ACCESSBITS &&& MAP_LEAVEFREE = 0 := by decide
    rw [this, Nat.or_zero]
  have hbase : ∀ base, base ≤ MAP_MASKACCESS →
      ((code &&& MAP_ACCESSBITS) ||| base) &&& MAP_ACCESSBITS = code &&& MAP_ACCESSBITS := by
    intro base hb
    have hb0 : MAP_ACCESSBITS &&& base = 0 := by
      have hlt : base < 256 := by
        have : MAP_MASKACCESS = 255 := rfl
        omega
      interval_cases base <;> decide
    rw [Nat.and_comm, Nat.and_or_distrib_left, hb0, Nat.or_zero, Nat.and_comm,
      Nat.and_assoc, Nat.and_self]
  refine ⟨?_, ?_, ?_, ?_, ?_, hzero, hzero.trans hbits.symm,
    fun other h => AccessCodeToFlags_congr other code h,
    AccessCodeToFlags_congr _ _ (by rw [Nat.and_assoc, Nat.and_self]),
    AccessCodeToFlags_congr _ _ hlf,
    fun base hb => AccessCodeToFlags_congr _ _ (hbase base hb)⟩
  · unfold AccessCodeToFlags decodeKeycardFlagSpec keycardPriority
    by_cases h1 : code &&& MAP_ACCESS_RED = 0 <;>
    by_cases h2 : code &&& MAP_ACCESS_BLUE = 0 <;>
    by_cases h3 : code &&& MAP_ACCESS_GREEN = 0 <;>
    by_cases h4 : code &&& MAP_ACCESS_YELLOW = 0 <;>
    simp [List.find?, h1, h2, h3, h4]
  · intro h1
    unfold AccessCodeToFlags
    rw [if_pos h1]
  · intro h1 h2
    unfold AccessCodeToFlags
    rw [if_neg (not_not.2 h1), if_pos h2]
  · intro h1 h2 h3
    unfold AccessCodeToFlags
    rw [if_neg (not_not.2 h1), if_neg (not_not.2 h2), if_pos h3]
  · intro h1 h2 h3 h4
    unfold AccessCodeToFlags
    rw [if_neg (not_not.2 h1), if_neg (not_not.2 h2), if_neg (not_not.2 h3), if_pos h4]

/-- C11: in a well-formed grid `MapGetDoorKeycardFlag` returns the first
non-zero decoded keycard flag among the cells self, left, right, up, down in
that order (a cell outside the grid reads `MAP_NOTHING` and decodes to none),
and it returns none (`0`) exactly when none of the five cells carries an
access bit. -/
theorem C11_door_keycard_flag_first_match (m : Map) (pos : Vec2i) (hwf : m.WF) :
    MapGetDoorKeycardFlag m pos =
      some (firstNonzero ((probeCells pos).map (levelAt m))) ∧
    (MapGetDoorKeycardFlag m pos = some 0 ↔
      ∀ v ∈ probeCells pos, ∃ c, IMapGet m v = some c ∧ c &&& MAP_ACCESSBITS = 0) ∧
    (∀ v, (v.x < 0 ∨ v.y < 0 ∨ v.x ≥ m.Size.x ∨ v.y ≥ m.Size.y) → levelAt m v = 0) := by
  obtain ⟨c0, h0⟩ := IMapGet_defined m pos hwf
  obtain ⟨c1, h1⟩ := IMapGet_defined m { x := pos.x - 1, y := pos.y } hwf
  obtain ⟨c2, h2⟩ := IMapGet_defined m { x := pos.x + 1, y := pos.y } hwf
  obtain ⟨c3, h3⟩ := IMapGet_defined m { x := pos.x, y := pos.y - 1 } hwf
  obtain ⟨c4, h4⟩ := IMapGet_defined m { x := pos.x, y := pos.y + 1 } hwf
  have hres : MapGetDoorKeycardFlag m pos =
      some (firstNonzero ((probeCells pos).map (levelAt m))) := by
    have h0' : IMapGet m { x := pos.x, y := pos.y } = some c0 := h0
    simp only [MapGetDoorKeycardFlag, MapGetAccessLevel, probeCells, List.map,
      levelAt_of_IMapGet m _ _ h0, levelAt_of_IMapGet m _ _ h1, levelAt_of_IMapGet m _ _ h2,
      levelAt_of_IMapGet m _ _ h3, levelAt_of_IMapGet m _ _ h4, h0', h1, h2, h3, h4,
      Option.map_some', Option.some_bind, firstNonzero]
    by_cases a0 : AccessCodeToFlags c0 = 0 <;> by_cases a1 : AccessCodeToFlags c1 = 0 <;>
    by_cases a2 : AccessCodeToFlags c2 = 0 <;> by_cases a3 : AccessCodeToFlags c3 = 0 <;>
    by_cases a4 : AccessCodeToFlags c4 = 0 <;> simp [a0, a1, a2, a3, a4]
  refine ⟨hres, ?_, ?_⟩
  · rw [hres]
    simp only [probeCells, List.map, levelAt_of_IMapGet m _ _ h0,
      levelAt_of_IMapGet m _ _ h1, levelAt_of_IMapGet m _ _ h2,
      levelAt_of_IMapGet m _ _ h3, levelAt_of_IMapGet m _ _ h4, firstNonzero,
      List.mem_cons, List.mem_singleton, List.not_mem_nil, or_false, forall_eq_or_imp,
      forall_eq, h0, h1, h2, h3, h4, Option.some.injEq, exists_eq_left',
      ← AccessCodeToFlags_eq_zero]
    by_cases a0 : AccessCodeToFlags c0 = 0 <;> by_cases a1 : AccessCodeToFlags c1 = 0 <;>
    by_cases a2 : AccessCodeToFlags c2 = 0 <;> by_cases a3 : AccessCodeToFlags c3 = 0 <;>
    by_cases a4 : AccessCodeToFlags c4 = 0 <;> simp [a0, a1, a2, a3, a4]
  · intro v hv
    have hout : v.x < 0 ∨ v.x ≥ m.Size.x ∨ v.y < 0 ∨ v.y ≥ m.Size.y := by omega
    have : IMapGet m v = some MAP_NOTHING := by simp [IMapGet, hout]
    rw [levelAt_of_IMapGet m v _ this]
    decide

/-- Witness of C11: the door cell `(1, 1)` of the example grid has no access
bit itself; its left neighbour carries Blue. -/
theorem C11_door_keycard_flag_witness :
    exampleMap.WF ∧
    MapGetDoorKeycardFlag exampleMap { x := 1, y := 1 } = some FLAGS_KEYCARD_BLUE :=
  ⟨by decide,
   (C11_door_keycard_flag_first_match exampleMap { x := 1, y := 1 } (by decide)).1.trans
     (by decide)⟩

/-- C12: in a well-formed grid `MapGetAccessFlags` returns one of the five
decoded flags of the cells self, left, right, up, down, and no decoded flag of
these cells has a higher priority rank (Red > Blue > Green > Yellow > none);
so its rank is at least that of `MapGetDoorKeycardFlag` at the same position,
and each of the two is none (`0`) exactly when the other is. -/
theorem C12_access_flags_maximum (m : Map) (pos : Vec2i) (hwf : m.WF) :
    ∃ f d, MapGetAccessFlags m pos.x pos.y = some f ∧
      MapGetDoorKeycardFlag m pos = some d ∧
      f ∈ (probeCells pos).map (levelAt m) ∧
      (∀ g ∈ (probeCells pos).map (levelAt m), keycardRank g ≤ keycardRank f) ∧
      keycardRank d ≤ keycardRank f ∧
      (f = 0 ↔ d = 0) := by
  obtain ⟨c0, c1, c2, c3, c4, h0, h1, h2, h3, h4, hl⟩ := probe_levels m pos hwf
  have hf := MapGetAccessFlags_eq m pos hwf
  have hd := MapGetDoorKeycardFlag_eq m pos hwf
  have hdec : ∀ g ∈ (probeCells pos).map (levelAt m), ∃ c, g = AccessCodeToFlags c := by
    intro g hg
    rw [hl] at hg
    simp only [List.mem_cons, List.mem_singleton, List.not_mem_nil, or_false] at hg
    rcases hg with h | h | h | h | h <;> exact ⟨_, h⟩
  have hle := le_foldl_max ((probeCells pos).map (levelAt m)) 0
  have hmem : ((probeCells pos).map (levelAt m)).foldl max 0 ∈
      (probeCells pos).map (levelAt m) := by
    rcases foldl_max_mem ((probeCells pos).map (levelAt m)) 0 with h | h
    · have hz : levelAt m pos = 0 := by
        have := hle.2 (levelAt m pos) (by simp [probeCells])
        omega
      rw [h, ← hz]
      simp [probeCells]
    · exact h
  obtain ⟨cf, hcf⟩ := hdec _ hmem
  have hrank : ∀ g ∈ (probeCells pos).map (levelAt m),
      keycardRank g ≤ keycardRank (((probeCells pos).map (levelAt m)).foldl max 0) := by
    intro g hg
    obtain ⟨cg, hcg⟩ := hdec g hg
    have := hle.2 g hg
    rw [hcf, hcg, keycardRank_le_iff]
    rw [← hcf, ← hcg]
    exact this
  have hzero : ((probeCells pos).map (levelAt m)).foldl max 0 = 0 ↔
      firstNonzero ((probeCells pos).map (levelAt m)) = 0 := by
    rw [firstNonzero_eq_zero]
    constructor
    · intro h a ha
      have := hle.2 a ha
      omega
    · intro h
      rcases foldl_max_mem ((probeCells pos).map (levelAt m)) 0 with h2 | h2
      · exact h2
      · exact h _ h2
  refine ⟨_, _, hf, hd, hmem, hrank, ?_, hzero⟩
  by_cases hz : firstNonzero ((probeCells pos).map (levelAt m)) = 0
  · rw [hz]
    exact Nat.zero_le _
  · exact hrank _ (firstNonzero_mem _ hz)

/-- Witness of C12: around the door cell `(1, 1)` of the example grid both
functions find Blue. -/
theorem C12_access_flags_witness :
    exampleMap.WF ∧
    MapGetAccessFlags exampleMap 1 1 = some FLAGS_KEYCARD_BLUE ∧
    MapGetDoorKeycardFlag exampleMap { x := 1, y := 1 } = some FLAGS_KEYCARD_BLUE ∧
    ∃ f d, MapGetAccessFlags exampleMap 1 1 = some f ∧
      MapGetDoorKeycardFlag exampleMap { x := 1, y := 1 } = some d ∧
      keycardRank d ≤ keycardRank f ∧ (f = 0 ↔ d = 0) := by
  obtain ⟨f, d, h1, h2, _, _, h5, h6⟩ :=
    C12_access_flags_maximum exampleMap { x := 1, y := 1 } (by decide)
  exact ⟨by decide, by decide, by decide, f, d, h1, h2, h5, h6⟩

/-- C13 (amended): in a well-formed grid whose only door cells are the run
`(x, y), (x+1, y), (x+2, y)`, with a door-group constructor that keeps size
and access codes, `MapSetupDoors` requests exactly one door group, at the
leftmost cell `(x, y)`, and the flags passed are those of `MapGetAccessFlags`
at that anchor: the maximum over the anchor cell and its four orthogonal
neighbours. -/
theorem C13_door_run_single_group (P : PlaceEnv) (m : Map) (x y : Int)
    (hwf : m.WF) (hP : KeepsCodes P)
    (hdoor : ∀ v : Vec2i, baseAt m v = MAP_DOOR ↔
      (v = { x := x, y := y } ∨ v = { x := x + 1, y := y } ∨ v = { x := x + 2, y := y })) :
    ∃ m1 f, MapSetupDoors P m =
        Res.ok () (m1, [{ v := { x := x, y := y }, flags := f }]) ∧
      MapGetAccessFlags m x y = some f ∧
      f = ((probeCells { x := x, y := y }).map (levelAt m)).foldl max 0 := by
  obtain ⟨m1, hrun, _, _⟩ := MapSetupDoors_eq P m hwf hP
  have hanchor : ∀ v : Vec2i, isDoorAnchor m v = true ↔ v = { x := x, y := y } := by
    intro v
    unfold isDoorAnchor
    simp only [Bool.and_eq_true, decide_eq_true_eq, hdoor, ne_eq, Vec2i.mk.injEq]
    cases v with
    | mk a b =>
      simp only [Vec2i.mk.injEq]
      constructor
      · rintro ⟨⟨h1, h2⟩, _⟩
        rcases h1 with h | h | h
        · exact h
        · exact absurd (Or.inl ⟨by omega, h.2⟩) h2
        · exact absurd (Or.inr (Or.inl ⟨by omega, h.2⟩)) h2
      · rintro ⟨rfl, rfl⟩
        refine ⟨⟨Or.inl ⟨rfl, rfl⟩, ?_⟩, ?_⟩
        · rintro (h | h | h) <;> omega
        · rintro (h | h | h) <;> omega
  have hin : ({ x := x, y := y } : Vec2i) ∈ scanCells m.Size.x.toNat m.Size.y.toNat := by
    have hb : baseAt m { x := x, y := y } = MAP_DOOR := (hdoor _).2 (Or.inl rfl)
    have := in_grid_of_baseAt m { x := x, y := y } (by rw [hb]; decide)
    simp only at this
    rw [mem_scanCells]
    simp only
    have e1 : ((m.Size.x.toNat : Nat) : Int) = m.Size.x := Int.toNat_of_nonneg hwf.1
    have e2 : ((m.Size.y.toNat : Nat) : Int) = m.Size.y := Int.toNat_of_nonneg hwf.2.1
    omega
  have hfilter := filter_eq_singleton (isDoorAnchor m) _ _
    (nodup_scanCells m.Size.x.toNat m.Size.y.toNat) hin (fun b _ => hanchor b)
  rw [hfilter] at hrun
  exact ⟨m1, _, hrun, MapGetAccessFlags_eq m { x := x, y := y } hwf, rfl⟩

/-- Witness of C13: the door run of the example door grid gives one request,
at `(1, 1)`, with flags `0`. -/
theorem C13_door_run_witness :
    exampleDoorMap.WF ∧
    ∃ m1 f, MapSetupDoors examplePlaceEnv exampleDoorMap =
        Res.ok () (m1, [{ v := { x := 1, y := 1 }, flags := f }]) ∧
      MapGetAccessFlags exampleDoorMap 1 1 = some f ∧
      f = ((probeCells { x := 1, y := 1 }).map (levelAt exampleDoorMap)).foldl max 0 := by
  refine ⟨by decide, C13_door_run_single_group examplePlaceEnv exampleDoorMap 1 1
    (by decide) (fun _ _ _ => ⟨rfl, rfl⟩) ?_⟩
  intro v
  constructor
  · intro h
    have hin := in_grid_of_baseAt exampleDoorMap v (by rw [h]; decide)
    obtain ⟨a, b⟩ := v
    simp only [exampleDoorMap] at hin
    obtain ⟨h1, h2, h3, h4⟩ := hin
    simp only [Vec2i.mk.injEq]
    interval_cases a <;> interval_cases b <;> revert h <;> decide
  · rintro (h | h | h) <;> rw [h] <;> decide

/-- Counterexample to C13 as stated: in the example door grid the cell
`(3, 2)`, directly below the door cell `(3, 1)` of the run, carries the Red
access bit, yet the single door group is requested with flags `0`: only the
anchor `(1, 1)` and its four neighbours are probed. -/
theorem C13_counterexample_neighbour_of_run_ignored :
    baseAt exampleDoorMap { x := 3, y := 1 } = MAP_DOOR ∧
    levelAt exampleDoorMap { x := 3, y := 2 } = FLAGS_KEYCARD_RED ∧
    (exampleDoorMap.iMap.filter (fun c => decide (c &&& MAP_MASKACCESS = MAP_DOOR))).length = 3 ∧
    MapSetupDoors examplePlaceEnv exampleDoorMap =
      Res.ok () (exampleDoorMap, [{ v := { x := 1, y := 1 }, flags := 0 }]) ∧
    keycardRank 0 < keycardRank FLAGS_KEYCARD_RED := by
  decide

/-- C14: on a well-formed grid, with a callback that keeps the grid well
formed, `MapPlaceRandomTile` returns what the reference gives (result, final
map and data, and the very same callback invocations): the budget `R` is 1000
for 'locked' with `keyAccessCount > 1` or for 'not locked', else 100; the
callback is invoked only on drawn tiles that pass the filter, in draw order,
at most `R` times, until an invocation returns true, and the result is true
exactly when some invocation returned true. -/
theorem C14_place_random_tile_reference {δ : Type} (cb : TryPlaceFunc δ)
    (draws : Nat → Vec2i) (m : Map) (paFlags : PlacementAccessFlags) (data : δ)
    (hwf : m.WF) (hcb : KeepsWF cb) :
    MapPlaceRandomTile cb draws m paFlags data =
      Res.ok (placeRandomTileSpec cb draws m paFlags data).1
        ((placeRandomTileSpec cb draws m paFlags data).2.1,
         (placeRandomTileSpec cb draws m paFlags data).2.2.1,
         (placeRandomTileSpec cb draws m paFlags data).2.2.2) ∧
    (placeRandomTileSpec cb draws m paFlags data).2.2.2.length ≤
      (if (paFlags = PlacementAccessFlags.PLACEMENT_ACCESS_LOCKED ∧ m.keyAccessCount > 1) ∨
          paFlags = PlacementAccessFlags.PLACEMENT_ACCESS_NOT_LOCKED then 1000 else 100) ∧
    (((placeRandomTileSpec cb draws m paFlags data).2.2.2.map Prod.fst).Sublist
      ((List.range
        (if (paFlags = PlacementAccessFlags.PLACEMENT_ACCESS_LOCKED ∧ m.keyAccessCount > 1) ∨
          paFlags = PlacementAccessFlags.PLACEMENT_ACCESS_NOT_LOCKED then 1000 else 100)).map
        draws)) ∧
    ((placeRandomTileSpec cb draws m paFlags data).1 = true ↔
      ∃ c ∈ (placeRandomTileSpec cb draws m paFlags data).2.2.2, c.2 = true) ∧
    ((placeRandomTileSpec cb draws m paFlags data).1 = true →
      ∃ pre v, (placeRandomTileSpec cb draws m paFlags data).2.2.2 = pre ++ [(v, true)] ∧
        ∀ c ∈ pre, c.2 = false) := by
  have hloop := placeRandomTileLoop_eq cb draws
    (decide (paFlags = PlacementAccessFlags.PLACEMENT_ACCESS_LOCKED) && MapHasLockedRooms m)
    (decide (paFlags = PlacementAccessFlags.PLACEMENT_ACCESS_NOT_LOCKED)) hcb
  have hlock : (decide (paFlags = PlacementAccessFlags.PLACEMENT_ACCESS_LOCKED) &&
      MapHasLockedRooms m) =
      decide (paFlags = PlacementAccessFlags.PLACEMENT_ACCESS_LOCKED ∧ m.keyAccessCount > 1) := by
    simp [MapHasLockedRooms, Bool.decide_and]
  have hspec : placeRandomTileSpec cb draws m paFlags data =
      firstPlacement cb
        (fun m1 v =>
          (!decide (paFlags = PlacementAccessFlags.PLACEMENT_ACCESS_LOCKED ∧
              m.keyAccessCount > 1) || hasAccessBit m1 v) &&
          (!decide (paFlags = PlacementAccessFlags.PLACEMENT_ACCESS_NOT_LOCKED) ||
            !hasAccessBit m1 v))
        ((List.range
          (if (paFlags = PlacementAccessFlags.PLACEMENT_ACCESS_LOCKED ∧ m.keyAccessCount > 1) ∨
            paFlags = PlacementAccessFlags.PLACEMENT_ACCESS_NOT_LOCKED then 1000 else 100)).map
          draws) m data := by
    unfold placeRandomTileSpec
    simp only [decide_eq_true_eq]
  have htrace := firstPlacement_trace cb
    (fun m1 v =>
      (!decide (paFlags = PlacementAccessFlags.PLACEMENT_ACCESS_LOCKED ∧
          m.keyAccessCount > 1) || hasAccessBit m1 v) &&
      (!decide (paFlags = PlacementAccessFlags.PLACEMENT_ACCESS_NOT_LOCKED) ||
        !hasAccessBit m1 v))
    ((List.range
      (if (paFlags = PlacementAccessFlags.PLACEMENT_ACCESS_LOCKED ∧ m.keyAccessCount > 1) ∨
        paFlags = PlacementAccessFlags.PLACEMENT_ACCESS_NOT_LOCKED then 1000 else 100)).map
      draws) m data
  rw [hspec]
  obtain ⟨t1, t2, t3, _, t5⟩ := htrace
  refine ⟨?_, ?_, t1, t3, t5⟩
  · unfold MapPlaceRandomTile GetPlacementRetries
    simp only
    rw [hloop _ 0 m data [] hwf, hlock, List.range_eq_range']
    by_cases hc : (paFlags = PlacementAccessFlags.PLACEMENT_ACCESS_LOCKED ∧
        m.keyAccessCount > 1) ∨ paFlags = PlacementAccessFlags.PLACEMENT_ACCESS_NOT_LOCKED
    · have hb : (decide (paFlags = PlacementAccessFlags.PLACEMENT_ACCESS_LOCKED ∧
          m.keyAccessCount > 1) ||
          decide (paFlags = PlacementAccessFlags.PLACEMENT_ACCESS_NOT_LOCKED)) = true := by
        simpa using hc
      rw [if_pos hb, if_pos hc]
      simp
    · have hb : ¬ (decide (paFlags = PlacementAccessFlags.PLACEMENT_ACCESS_LOCKED ∧
          m.keyAccessCount > 1) ||
          decide (paFlags = PlacementAccessFlags.PLACEMENT_ACCESS_NOT_LOCKED)) = true := by
        simpa using hc
      rw [if_neg hb, if_neg hc]
      simp
  · have := t2
    simp only [List.length_map, List.length_range] at this
    exact this

set_option maxRecDepth 8000 in
/-- Witness of C14: on the example grid (`keyAccessCount = 2`) with the
'locked' constraint, the first draw `(0, 0)` has no access bit and is skipped;
the second draw `(0, 1)` carries Blue, the callback is invoked on it once and
succeeds. -/
theorem C14_place_random_tile_witness :
    exampleMap.WF ∧
    MapPlaceRandomTile exampleTryPlace exampleDraws exampleMap
        PlacementAccessFlags.PLACEMENT_ACCESS_LOCKED 0 =
      Res.ok true (exampleMap, 1, [({ x := 0, y := 1 }, true)]) :=
  ⟨by decide,
   (C14_place_random_tile_reference exampleTryPlace exampleDraws exampleMap
      PlacementAccessFlags.PLACEMENT_ACCESS_LOCKED 0 (by decide)
      (fun _ _ _ h => h)).1.trans (by decide)⟩

/-- C15 (amended): with the 'must be in locked area' constraint on a
well-formed grid with `keyAccessCount <= 1`, `MapPlaceRandomTile` uses the
100-retry budget and the constraint is waived: every drawn tile is offered to
the callback, in order, until an invocation returns true.  So it returns false
only after 100 failed invocations, and returns true as soon as an invocation
succeeds. -/
theorem C15_locked_constraint_waived_without_locked_rooms {δ : Type}
    (cb : TryPlaceFunc δ) (draws : Nat → Vec2i) (m : Map) (data : δ)
    (hwf : m.WF) (hcb : KeepsWF cb) (hk : m.keyAccessCount ≤ 1) :
    (GetPlacementRetries m PlacementAccessFlags.PLACEMENT_ACCESS_LOCKED).1 = 100 ∧
    MapPlaceRandomTile cb draws m PlacementAccessFlags.PLACEMENT_ACCESS_LOCKED data =
      Res.ok (firstPlacement cb (fun _ _ => true) ((List.range 100).map draws) m data).1
        ((firstPlacement cb (fun _ _ => true) ((List.range 100).map draws) m data).2.1,
         (firstPlacement cb (fun _ _ => true) ((List.range 100).map draws) m data).2.2.1,
         (firstPlacement cb (fun _ _ => true) ((List.range 100).map draws) m data).2.2.2) ∧
    ((∀ m1 v d1, (cb m1 v d1).1 = false) →
      ∃ m1 d1, MapPlaceRandomTile cb draws m PlacementAccessFlags.PLACEMENT_ACCESS_LOCKED data =
        Res.ok false (m1, d1, ((List.range 100).map draws).map (fun v => (v, false)))) ∧
    ((cb m (draws 0) data).1 = true →
      MapPlaceRandomTile cb draws m PlacementAccessFlags.PLACEMENT_ACCESS_LOCKED data =
        Res.ok true ((cb m (draws 0) data).2.1, (cb m (draws 0) data).2.2,
          [(draws 0, true)])) := by
  have hnl : MapHasLockedRooms m = false := by
    simp only [MapHasLockedRooms, decide_eq_false_iff_not]
    omega
  have hret : GetPlacementRetries m PlacementAccessFlags.PLACEMENT_ACCESS_LOCKED =
      (100, false, false) := by
    simp [GetPlacementRetries, hnl]
  have hmain : MapPlaceRandomTile cb draws m PlacementAccessFlags.PLACEMENT_ACCESS_LOCKED data =
      Res.ok (firstPlacement cb (fun _ _ => true) ((List.range 100).map draws) m data).1
        ((firstPlacement cb (fun _ _ => true) ((List.range 100).map draws) m data).2.1,
         (firstPlacement cb (fun _ _ => true) ((List.range 100).map draws) m data).2.2.1,
         (firstPlacement cb (fun _ _ => true) ((List.range 100).map draws) m data).2.2.2) := by
    unfold MapPlaceRandomTile
    rw [hret]
    simp only
    have h := placeRandomTileLoop_eq cb draws false false hcb 100 0 m data [] hwf
    simp only [Bool.not_false, Bool.true_or, Bool.and_self, List.nil_append] at h
    rw [List.range_eq_range']
    exact h
  refine ⟨by rw [hret], hmain, ?_, ?_⟩
  · intro hfail
    obtain ⟨h1, h2⟩ := firstPlacement_all_fail cb hfail ((List.range 100).map draws) m data
    refine ⟨(firstPlacement cb (fun _ _ => true) ((List.range 100).map draws) m data).2.1,
      (firstPlacement cb (fun _ _ => true) ((List.range 100).map draws) m data).2.2.1, ?_⟩
    rw [hmain, h1, h2]
  · intro hsucc
    rw [hmain]
    have hr : (List.range 100).map draws = draws 0 :: (List.range' 1 99).map draws := by
      rw [List.range_eq_range']
      rfl
    rw [hr]
    unfold firstPlacement
    simp only [if_true]
    rcases hres : cb m (draws 0) data with ⟨r, m1, d1⟩
    rw [hres] at hsucc
    simp only at hsucc
    subst hsucc
    rfl

/-- Witness of C15: on the open example grid with the 'locked' constraint the
callback that succeeds on `(0, 1)` fails once on the first draw `(0, 0)` and
then succeeds. -/
theorem C15_locked_constraint_witness :
    exampleOpenMap.WF ∧ exampleOpenMap.keyAccessCount ≤ 1 ∧
    MapPlaceRandomTile exampleTryPlace exampleDraws exampleOpenMap
        PlacementAccessFlags.PLACEMENT_ACCESS_LOCKED 0 =
      Res.ok true (exampleOpenMap, 2, [({ x := 0, y := 0 }, false), ({ x := 0, y := 1 }, true)]) :=
  ⟨by decide, by decide,
   (C15_locked_constraint_waived_without_locked_rooms exampleTryPlace exampleDraws
      exampleOpenMap 0 (by decide) (fun _ _ _ h => h) (by decide)).2.1.trans (by decide)⟩

/-- Counterexample to C15 as stated: the open example grid has no access bit
and `keyAccessCount = 1`; with the 'locked' constraint the callback is invoked
on the first drawn tile, and since it succeeds the call returns true. -/
theorem C15_counterexample_callback_invoked :
    (∀ c ∈ exampleOpenMap.iMap, c &&& MAP_ACCESSBITS = 0) ∧
    exampleOpenMap.keyAccessCount ≤ 1 ∧
    MapPlaceRandomTile exampleTryPlaceAlways exampleDraws exampleOpenMap
        PlacementAccessFlags.PLACEMENT_ACCESS_LOCKED 0 =
      Res.ok true (exampleOpenMap, 1, [({ x := 0, y := 0 }, true)]) := by
  decide

/-- C16 (amended): on a well-formed grid `AddKeys` runs the card searches of
`keyPlan keyAccessCount`, in this order: key 3 in a Blue room (only when
`keyAccessCount >= 5`), key 2 in a Green room (`>= 4`), key 1 in a Yellow room
(`>= 3`), key 0 in a room without access bit (`>= 2`).  Their number is
`min (max (keyAccessCount - 1) 0) 4`, which is `keyAccessCount - 1` exactly
for `1 <= keyAccessCount <= 5`.  Whenever `AddKeys` ends it has returned with
one key event per search, each on the first fit tile drawn; and it does end
when every search meets a fit tile. -/
theorem C16_add_keys_plan (P : PlaceEnv) (draws : Nat → Vec2i) (m : Map) (hwf : m.WF) :
    ((keyPlan m.keyAccessCount).length : Int) = min (max (m.keyAccessCount - 1) 0) 4 ∧
    (((keyPlan m.keyAccessCount).length : Int) = m.keyAccessCount - 1 ↔
      (1 ≤ m.keyAccessCount ∧ m.keyAccessCount ≤ 5)) ∧
    (∀ fuel s r, AddKeys P draws m fuel s = some r →
      ∃ j evs, CardRun P draws m (keyPlan m.keyAccessCount) s.next j evs ∧
        r = Res.ok () { next := j, events := s.events ++ evs } ∧
        evs.map AddPickupEvent.keyIndex = (keyPlan m.keyAccessCount).map Prod.fst ∧
        evs.length = (keyPlan m.keyAccessCount).length) ∧
    ((∀ p ∈ keyPlan m.keyAccessCount, ∀ i, ∃ n, i ≤ n ∧ cardTileOK P m p.2 (draws n) = true) →
      ∀ s, ∃ fuel j evs,
        AddKeys P draws m fuel s = some (Res.ok () { next := j, events := s.events ++ evs }) ∧
        evs.map AddPickupEvent.keyIndex = (keyPlan m.keyAccessCount).map Prod.fst ∧
        evs.length = (keyPlan m.keyAccessCount).length) := by
  have hlen : ((keyPlan m.keyAccessCount).length : Int) =
      min (max (m.keyAccessCount - 1) 0) 4 := by
    unfold keyPlan
    by_cases h5 : m.keyAccessCount ≥ 5 <;> by_cases h4 : m.keyAccessCount ≥ 4 <;>
    by_cases h3 : m.keyAccessCount ≥ 3 <;> by_cases h2 : m.keyAccessCount ≥ 2 <;>
    simp only [h5, h4, h3, h2, if_true, if_false, List.length_append, List.length_cons,
      List.length_nil] <;> omega
  refine ⟨hlen, ?_, ?_, ?_⟩
  · rw [hlen]; omega
  · intro fuel s r h
    rw [AddKeys_eq_placeCards] at h
    obtain ⟨j, evs, hrun, hr⟩ := placeCards_some P draws m hwf _ fuel s r h
    obtain ⟨e1, e2⟩ := CardRun_events P draws m _ _ _ _ hrun
    exact ⟨j, evs, hrun, hr, e1, e2⟩
  · intro hall s
    obtain ⟨j, evs, hrun⟩ := CardRun_exists P draws m _ hall s.next
    obtain ⟨e1, e2⟩ := CardRun_events P draws m _ _ _ _ hrun
    refine ⟨j + 1, j, evs, ?_, e1, e2⟩
    rw [AddKeys_eq_placeCards]
    exact placeCards_of_run P draws m hwf _ _ _ _ hrun (j + 1) s rfl (Nat.lt_succ_self j)

/-- Witness of C16: on the example key grid (`keyAccessCount = 6`) the keys 3,
2, 1, 0 are placed in this order on the Blue, Green, Yellow and plain room
cells. -/
theorem C16_add_keys_witness :
    exampleKeyMap.WF ∧
    ((keyPlan exampleKeyMap.keyAccessCount).length : Int) =
      min (max (exampleKeyMap.keyAccessCount - 1) 0) 4 ∧
    AddKeys examplePlaceEnv exampleKeyDraws exampleKeyMap 8 { next := 0, events := [] } =
      some (Res.ok () { next := 4, events :=
        [keyEvent examplePlaceEnv 3 { x := 0, y := 0 },
         keyEvent examplePlaceEnv 2 { x := 1, y := 0 },
         keyEvent examplePlaceEnv 1 { x := 2, y := 0 },
         keyEvent examplePlaceEnv 0 { x := 3, y := 0 }] }) :=
  ⟨by decide,
   (C16_add_keys_plan examplePlaceEnv exampleKeyDraws exampleKeyMap (by decide)).1,
   by decide⟩

/-- Counterexample to C16 as stated ("for every value of keyAccessCount ...
exactly keyAccessCount - 1 keys"): with `keyAccessCount = 6` every search
finds a tile and 4 keys are placed, not 5; with `keyAccessCount = 0` no key is
placed, not `-1`. -/
theorem C16_counterexample_key_count :
    exampleKeyMap.keyAccessCount - 1 = 5 ∧
    AddKeys examplePlaceEnv exampleKeyDraws exampleKeyMap 8 { next := 0, events := [] } =
      some (Res.ok () { next := 4, events :=
        [keyEvent examplePlaceEnv 3 { x := 0, y := 0 },
         keyEvent examplePlaceEnv 2 { x := 1, y := 0 },
         keyEvent examplePlaceEnv 1 { x := 2, y := 0 },
         keyEvent examplePlaceEnv 0 { x := 3, y := 0 }] }) ∧
    AddKeys examplePlaceEnv exampleKeyDraws { exampleKeyMap with keyAccessCount := 0 } 8
        { next := 0, events := [] } =
      some (Res.ok () { next := 0, events := [] }) := by
  decide

/-- C17 (amended): on a well-formed grid with `keyAccessCount = 2` whose cells
are floor except a strip of cells holding `code`, `AddKeys` makes one search
only, for key 0 with requested access code 0.  If the strip is Room with the
Blue bit, no tile is fit and `AddKeys` does not end, whatever the draws: no
event is deposited.  If the strip is Room without access bit and all tiles of
the grid are clear, then, for draws whose first strip cell is drawn at `n` and
is not in the bottom row, `AddKeys` returns after draw `n` with exactly one
event: key 0 at the centre of that cell. -/
theorem C17_key_scenario (P : PlaceEnv) (draws : Nat → Vec2i) (m : Map)
    (strip : List Vec2i) (code : Nat) (hwf : m.WF) (hk : m.keyAccessCount = 2)
    (hcells : ∀ v ∈ scanCells m.Size.x.toNat m.Size.y.toNat,
      IMapGet m v = some (if v ∈ strip then code else MAP_FLOOR)) :
    keyPlan m.keyAccessCount = [((0 : Int), 0)] ∧
    (code = MAP_ROOM ||| MAP_ACCESS_BLUE →
      ∀ fuel s, AddKeys P draws m fuel s = none) ∧
    (code = MAP_ROOM →
      (∀ v ∈ scanCells m.Size.x.toNat m.Size.y.toNat, P.TileIsClear (MapGetTile m v) = true) →
      ∀ n, draws n ∈ strip → draws n ∈ scanCells m.Size.x.toNat m.Size.y.toNat →
        (draws n).y + 1 < m.Size.y → (∀ k, k < n → draws k ∉ strip) →
        AddKeys P draws m (n + 1) { next := 0, events := [] } =
          some (Res.ok () { next := n + 1, events := [keyEvent P 0 (draws n)] })) := by
  have hplan : keyPlan m.keyAccessCount = [((0 : Int), 0)] := by rw [hk]; decide
  refine ⟨hplan, ?_, ?_⟩
  · intro hc fuel s
    subst hc
    exact AddKeys_none_of_blue_strip P draws m strip hwf hk hcells fuel s
  · intro hc hclear n hstrip hgrid hbelow hfirst
    subst hc
    have hbelowgrid : ({ x := (draws n).x, y := (draws n).y + 1 } : Vec2i) ∈
        scanCells m.Size.x.toNat m.Size.y.toNat := by
      rw [mem_scanCells, Int.toNat_of_nonneg hwf.1, Int.toNat_of_nonneg hwf.2.1] at hgrid ⊢
      simp only
      omega
    have hfit : cardTileOK P m 0 (draws n) = true := by
      unfold cardTileOK
      rw [hcells _ hgrid, hclear _ hgrid, hclear _ hbelowgrid]
      simp only [hstrip, if_true, Option.getD_some]
      decide
    have hnofit : ∀ k, (0 : Nat) ≤ k → k < n → cardTileOK P m 0 (draws k) = false := by
      intro k _ hkn
      have hns := hfirst k hkn
      have hbase : (IMapGet m (draws k)).getD 0 &&& MAP_MASKACCESS ≠ MAP_ROOM := by
        by_cases hin : (draws k).x < 0 ∨ (draws k).x ≥ m.Size.x ∨ (draws k).y < 0 ∨
            (draws k).y ≥ m.Size.y
        · simp only [IMapGet, hin, if_true, Option.getD_some]
          decide
        · have hmem : draws k ∈ scanCells m.Size.x.toNat m.Size.y.toNat := by
            rw [mem_scanCells, Int.toNat_of_nonneg hwf.1, Int.toNat_of_nonneg hwf.2.1]
            omega
          rw [hcells _ hmem]
          simp only [hns, if_false, Option.getD_some]
          decide
      unfold cardTileOK
      simp only [Bool.and_eq_false_iff, decide_eq_false_iff_not]
      left; right
      exact hbase
    rw [AddKeys_eq_placeCards, hplan, placeCards,
      MapPlaceCard_finds P draws m 0 0 hwf (n + 1) { next := 0, events := [] } n
        (Nat.zero_le n) (by simp) hfit hnofit]
    rfl

set_option maxRecDepth 100000 in
/-- Witness of C17: on the 10 by 10 scenario grid with a plain Room strip, the
draws `(0, 0)`, `(4, 4)`, ... deposit exactly one event, key 0 on tile
`(4, 4)`. -/
theorem C17_key_scenario_witness :
    (exampleStripMap MAP_ROOM).WF ∧ (exampleStripMap MAP_ROOM).keyAccessCount = 2 ∧
    AddKeys examplePlaceEnv exampleStripDraws (exampleStripMap MAP_ROOM) 2
        { next := 0, events := [] } =
      some (Res.ok () { next := 2, events := [keyEvent examplePlaceEnv 0 { x := 4, y := 4 }] }) :=
  ⟨by decide, by decide,
   (C17_key_scenario examplePlaceEnv exampleStripDraws (exampleStripMap MAP_ROOM)
      exampleStrip MAP_ROOM (by decide) (by decide) (by decide)).2.2 rfl (by decide) 1
      (by decide) (by decide) (by decide) (by decide)⟩

set_option maxRecDepth 100000 in
/-- Counterexample to C17 as stated: on the 10 by 10 scenario grid whose Room
strip carries the Blue bit, with `keyAccessCount = 2` and all tiles empty,
`AddKeys` deposits no event and does not end, for any draws and any number of
iterations. -/
theorem C17_counterexample_no_key_deposited :
    (exampleStripMap (MAP_ROOM ||| MAP_ACCESS_BLUE)).keyAccessCount = 2 ∧
    (∀ tile ∈ (exampleStripMap (MAP_ROOM ||| MAP_ACCESS_BLUE)).Tiles, tile.things = []) ∧
    ¬ ∃ (draws : Nat → Vec2i) (fuel : Nat) (r : Res PlaceState Unit),
      AddKeys examplePlaceEnv draws (exampleStripMap (MAP_ROOM ||| MAP_ACCESS_BLUE)) fuel
        { next := 0, events := [] } = some r := by
  refine ⟨by decide, by decide, ?_⟩
  rintro ⟨draws, fuel, r, h⟩
  rw [AddKeys_none_of_blue_strip examplePlaceEnv draws
    (exampleStripMap (MAP_ROOM ||| MAP_ACCESS_BLUE)) exampleStrip (by decide) (by decide)
    (by decide) fuel _] at h
  cases h

/-- C18: on a well-formed grid, if `MapPlaceCard` ends it has returned, with
exactly one event appended to the queue: the key event at the centre of the
first drawn tile that is clear, lies in a Room cell whose access sub-code
`code & 0xF00` is the requested one, and has a clear tile directly below; the
earlier draws leave no trace.  It ends as soon as such a tile is drawn, and
never ends when none is drawn.  The map is only read. -/
theorem C18_place_card_first_fit (P : PlaceEnv) (draws : Nat → Vec2i) (m : Map)
    (keyIndex : Int) (map_access : Nat) (hwf : m.WF) :
    (∀ fuel s r, MapPlaceCard P draws m keyIndex map_access fuel s = some r →
      ∃ n, s.next ≤ n ∧ cardTileOK P m map_access (draws n) = true ∧
        (∀ k, s.next ≤ k → k < n → cardTileOK P m map_access (draws k) = false) ∧
        r = Res.ok () { next := n + 1,
                        events := s.events ++ [keyEvent P keyIndex (draws n)] }) ∧
    (∀ s n, s.next ≤ n → cardTileOK P m map_access (draws n) = true →
      ∃ fuel n0, s.next ≤ n0 ∧ n0 ≤ n ∧ cardTileOK P m map_access (draws n0) = true ∧
        MapPlaceCard P draws m keyIndex map_access fuel s =
          some (Res.ok () { next := n0 + 1,
                            events := s.events ++ [keyEvent P keyIndex (draws n0)] })) ∧
    (∀ s, (∀ k, s.next ≤ k → cardTileOK P m map_access (draws k) = false) →
      ∀ fuel, MapPlaceCard P draws m keyIndex map_access fuel s = none) := by
  refine ⟨MapPlaceCard_some P draws m keyIndex map_access hwf, ?_,
    fun s hno fuel => MapPlaceCard_none P draws m keyIndex map_access hwf fuel s hno⟩
  intro s n hle hfit
  have hex : ∃ d, cardTileOK P m map_access (draws (s.next + d)) = true :=
    ⟨n - s.next, by rw [Nat.add_sub_cancel' hle]; exact hfit⟩
  classical
  have hspec := Nat.find_spec hex
  have hmin : Nat.find hex ≤ n - s.next :=
    Nat.find_min' hex (by rw [Nat.add_sub_cancel' hle]; exact hfit)
  refine ⟨Nat.find hex + 1, s.next + Nat.find hex, Nat.le_add_right _ _, by omega, hspec, ?_⟩
  apply MapPlaceCard_finds P draws m keyIndex map_access hwf _ s _ (Nat.le_add_right _ _)
    (by omega) hspec
  intro k hk1 hk2
  have := Nat.find_min hex (m := k - s.next) (by omega)
  rw [Nat.add_sub_cancel' hk1] at this
  simpa using this

/-- Witness of C18: on the example key grid the search for key 1 in a Yellow
room skips the draws `(0, 0)` and `(1, 0)` and places the key on `(2, 0)`. -/
theorem C18_place_card_witness :
    exampleKeyMap.WF ∧
    MapPlaceCard examplePlaceEnv exampleKeyDraws exampleKeyMap 1 MAP_ACCESS_YELLOW 5
        { next := 0, events := [] } =
      some (Res.ok () { next := 3, events := [keyEvent examplePlaceEnv 1 { x := 2, y := 0 }] }) ∧
    ∃ n, cardTileOK examplePlaceEnv exampleKeyMap MAP_ACCESS_YELLOW (exampleKeyDraws n) = true := by
  have hrun : MapPlaceCard examplePlaceEnv exampleKeyDraws exampleKeyMap 1 MAP_ACCESS_YELLOW 5
      { next := 0, events := [] } =
      some (Res.ok ()
        { next := 3, events := [keyEvent examplePlaceEnv 1 { x := 2, y := 0 }] }) := by
    decide
  obtain ⟨n, _, h2, _⟩ :=
    (C18_place_card_first_fit examplePlaceEnv exampleKeyDraws exampleKeyMap 1 MAP_ACCESS_YELLOW
      (by decide)).1 5 { next := 0, events := [] } _ hrun
  exact ⟨by decide, hrun, n, h2⟩

/-- C19: whatever the placement attempts do and return, `AddObjectives` keeps
the number of objectives and leaves every objective that is neither collect nor
destroy unchanged, with no attempt made for it.  For a collect or destroy
objective at index `k` the attempts made are the `Count - placed` successive
attempts of its placement routine (`MapTryPlaceCollectible` or
`MapTryPlaceBlowup`, in the world left by the objectives before it); the final
`placed` is the initial `placed` plus the number of attempts that succeeded,
the final `Count` is the final `placed`, and the final `Required` is the
minimum of the initial `Required` and the final `Count`, so `Required` does not
exceed the number of instances placed.  When the objective starts with
`placed <= Count`, initial `placed` `<=` final `Count` `<=` initial `Count`
and exactly `Count - placed` attempts are made. -/
theorem C19_add_objectives_clamps_totals {ω : Type} (P : PlaceEnv)
    (collect blowup : TryObjective ω) (objs : List Objective) (w : ω) :
    (AddObjectives P collect blowup objs 0 w).1.length = objs.length ∧
    ∀ (k : Nat) (o : Objective), objs[k]? = some o →
      ∃ (o1 : Objective) (results : List Bool),
        (AddObjectives P collect blowup objs 0 w).1[k]? = some o1 ∧
        (AddObjectives P collect blowup objs 0 w).2.2[k]? = some results ∧
        ((o.objType ≠ P.OBJECTIVE_COLLECT ∧ o.objType ≠ P.OBJECTIVE_DESTROY) →
          o1 = o ∧ results = []) ∧
        ((o.objType = P.OBJECTIVE_COLLECT ∨ o.objType = P.OBJECTIVE_DESTROY) →
          results = (attemptRun (attemptFor P collect blowup o.objType k)
            (o.Count - o.placed).toNat
            (AddObjectives P collect blowup (objs.take k) 0 w).2.1).1 ∧
          (AddObjectives P collect blowup (objs.take (k + 1)) 0 w).2.1 =
            (attemptRun (attemptFor P collect blowup o.objType k)
              (o.Count - o.placed).toNat
              (AddObjectives P collect blowup (objs.take k) 0 w).2.1).2 ∧
          o1.objType = o.objType ∧
          o1.placed = o.placed + ((results.count true : Nat) : Int) ∧
          o1.Count = o1.placed ∧
          o1.Required = min o.Required o1.Count ∧
          o1.Required ≤ o.placed + ((results.count true : Nat) : Int) ∧
          (o.placed ≤ o.Count →
            o.placed ≤ o1.Count ∧ o1.Count ≤ o.Count ∧
            (results.length : Int) = o.Count - o.placed)) := by
  obtain ⟨h1, _, h3⟩ := AddObjectives_getElem? P collect blowup objs 0 w
  refine ⟨h1, fun k o hk => ?_⟩
  obtain ⟨g1, g2⟩ := h3 k o hk
  rw [Nat.zero_add] at g1 g2
  have hs := addObjective_spec P collect blowup k o
    (AddObjectives P collect blowup (objs.take k) 0 w).2.1
  refine ⟨_, _, g1, g2, fun h => ?_, fun h => ?_⟩
  · rw [hs.1 h]
    exact ⟨rfl, rfl⟩
  · have hw := AddObjectives_take_succ P collect blowup objs k o 0 w hk
    rw [Nat.zero_add] at hw
    rw [hw, hs.2 h]
    refine ⟨rfl, rfl, rfl, rfl, rfl, rfl, min_le_right _ _, fun hle => ?_⟩
    have hlen := attemptRun_length (attemptFor P collect blowup o.objType k)
      (o.Count - o.placed).toNat (AddObjectives P collect blowup (objs.take k) 0 w).2.1
    have hcount := List.count_le_length true
      (attemptRun (attemptFor P collect blowup o.objType k)
        (o.Count - o.placed).toNat (AddObjectives P collect blowup (objs.take k) 0 w).2.1).1
    rw [hlen] at hcount
    have hcast : (((o.Count - o.placed).toNat : Nat) : Int) = o.Count - o.placed :=
      Int.toNat_of_nonneg (by omega)
    simp only [hlen]
    refine ⟨by omega, by omega, hcast⟩

/-- C19 at a concrete input: of the three attempts for the collect objective
the first and the third succeed, so it ends with `placed = Count = Required =
2`; the objective of another type is unchanged; the one attempt for the
destroy objective fails, so it ends with `placed = Count = Required = 1`. -/
theorem C19_add_objectives_witness :
    AddObjectives examplePlaceEnv exampleTryCollect exampleTryBlowup exampleObjectives 0 0 =
      ([{ objType := 1, Count := 2, placed := 2, Required := 2 },
        { objType := 0, Count := 5, placed := 1, Required := 2 },
        { objType := 2, Count := 1, placed := 1, Required := 1 }],
       4, [[true, false, true], [], [false]]) ∧
    (AddObjectives examplePlaceEnv exampleTryCollect exampleTryBlowup
      exampleObjectives 0 0).1.length = exampleObjectives.length :=
  ⟨by decide,
   (C19_add_objectives_clamps_totals examplePlaceEnv exampleTryCollect exampleTryBlowup
      exampleObjectives 0).1⟩

/-- C20: on a grid, from a start tile inside it and for a predicate that
holds on at least one tile inside it, `MapSearchTileAround` ends without
reaching the fatal assertion and returns a tile inside the grid that
satisfies the predicate and whose Chebyshev distance from `start` is minimal
among the tiles inside the grid that satisfy it; it returns `start` itself
when `start` satisfies the predicate; and every evaluation of the predicate
is on a tile inside the grid lying on the perimeter of the ring that was
current (the evaluation on `start` counts as the ring of radius zero). -/
theorem C20_search_tile_around_nearest (func : Vec2i → Bool) (m : Map) (start : Vec2i)
    (hstart : MapIsTileIn m start = true)
    (hex : ∃ t : Vec2i, MapIsTileIn m t = true ∧ func t = true) :
    ∃ (v : Vec2i) (evals : List (Int × Vec2i)),
      MapSearchTileAround func m start = Res.ok v evals ∧
      MapIsTileIn m v = true ∧ func v = true ∧
      (∀ t : Vec2i, MapIsTileIn m t = true → func t = true →
        chebDist start v ≤ chebDist start t) ∧
      (func start = true → v = start) ∧
      (∀ e ∈ evals, MapIsTileIn m e.2 = true ∧ chebDist start e.2 = e.1) := by
  have hself : chebDist start start = 0 := by simp only [chebDist]; omega
  have hnn : ∀ t : Vec2i, 0 ≤ chebDist start t := by
    intro t
    simp only [chebDist]
    omega
  have hev0 : ∀ e ∈ [((0 : Int), start)], EvalOK m start e := by
    intro e he
    simp only [List.mem_singleton] at he
    rw [he]
    exact ⟨hstart, hself⟩
  unfold MapSearchTileAround
  by_cases hs : func start = true
  · rw [if_pos hs]
    refine ⟨start, [(0, start)], rfl, hstart, hs, fun t _ _ => ?_, fun _ => rfl, hev0⟩
    rw [hself]
    exact hnn t
  · rw [if_neg hs]
    obtain ⟨t, ht1, ht2⟩ := hex
    have hlt := chebDist_lt_of_in m start t hstart ht1
    obtain ⟨v, evals1, h1, h2, h3, h4, h5⟩ := searchRadii_spec func m start
      (max m.Size.x m.Size.y - 1).toNat 1 [(0, start)] (by omega) hev0
      (fun u _ hu => by
        rw [chebDist_lt_one start u hu]
        simpa using hs)
      ⟨t, ht1, ht2, by
        have := hnn t
        rw [Int.toNat_of_nonneg (by omega)]
        omega⟩
    exact ⟨v, evals1, h1, h2, h3, h4, fun h => absurd h hs, h5⟩

set_option maxRecDepth 100000 in
/-- C20 at a concrete input: on the 5x3 grid, from tile (0, 0), the search for
a tile in column 3 or beyond returns (3, 0). -/
theorem C20_search_tile_around_witness :
    MapIsTileIn exampleDoorMap { x := 0, y := 0 } = true ∧
    (∃ t : Vec2i, MapIsTileIn exampleDoorMap t = true ∧ decide (3 ≤ t.x) = true) ∧
    ∃ (v : Vec2i) (evals : List (Int × Vec2i)),
      MapSearchTileAround (fun t => decide (3 ≤ t.x)) exampleDoorMap { x := 0, y := 0 } =
        Res.ok v evals ∧
      MapIsTileIn exampleDoorMap v = true ∧ decide (3 ≤ v.x) = true ∧
      (∀ t : Vec2i, MapIsTileIn exampleDoorMap t = true → decide (3 ≤ t.x) = true →
        chebDist { x := 0, y := 0 } v ≤ chebDist { x := 0, y := 0 } t) ∧
      ((decide ((3 : Int) ≤ (0 : Int)) = true) → v = { x := 0, y := 0 }) ∧
      (∀ e ∈ evals, MapIsTileIn exampleDoorMap e.2 = true ∧
        chebDist { x := 0, y := 0 } e.2 = e.1) :=
  ⟨by decide, ⟨{ x := 3, y := 0 }, by decide, by decide⟩,
    C20_search_tile_around_nearest (fun t => decide (3 ≤ t.x)) exampleDoorMap
      { x := 0, y := 0 } (by decide) ⟨{ x := 3, y := 0 }, by decide, by decide⟩⟩

/-- C21: on a well-formed grid and a tile `v` inside it, a call of
`MapTryPlaceOneObject` that returns false leaves the map and the object store
as they were (no add-object event, no access code and no tile changed); a call
that returns true has emitted exactly one add-object event, has passed the
loose tile check and, in strict mode, the strict tile check, and has changed
nothing of the map except, only for an object with the free-in-front flag, the
access code of the cell directly below `v`, which is a cell of the grid and
holds its old code with the leave-free bit OR-ed in, base type and keycard
access bits unchanged.  No assertion fails, and the call returns unless the
checks pass for an object with the free-in-front flag on a tile of the bottom
row. -/
theorem C21_place_one_object_frame (P : PlaceEnv) (O : ObjEnv) (m : Map) (v : Vec2i)
    (mo : MapObject) (extraFlags : Nat) (isStrictMode : Bool) (s : ObjState)
    (hwf : m.WF) (hv : MapIsTileIn m v = true) :
    (∀ m1 s1, MapTryPlaceOneObject P O m v mo extraFlags isStrictMode s =
        Res.ok false (m1, s1) → m1 = m ∧ s1 = s) ∧
    (∀ m1 s1, MapTryPlaceOneObject P O m v mo extraFlags isStrictMode s =
        Res.ok true (m1, s1) →
      s1.added = s.added ++ [addObjectEvent O v mo extraFlags s] ∧
      m1 = { m with iMap := m1.iMap } ∧
      looseCheckAt P O m v mo = true ∧
      (isStrictMode = true → strictCheckAt P O m v mo = true) ∧
      (hasFreeInFront O mo = false → m1.iMap = m.iMap) ∧
      (hasFreeInFront O mo = true →
        MapIsTileIn m { x := v.x, y := v.y + 1 } = true ∧
        IMapGet m1 { x := v.x, y := v.y + 1 } =
          some (codeAt m { x := v.x, y := v.y + 1 } ||| MAP_LEAVEFREE) ∧
        (∀ u : Vec2i, u ≠ { x := v.x, y := v.y + 1 } → IMapGet m1 u = IMapGet m u) ∧
        (codeAt m { x := v.x, y := v.y + 1 } ||| MAP_LEAVEFREE) &&& MAP_MASKACCESS =
          codeAt m { x := v.x, y := v.y + 1 } &&& MAP_MASKACCESS ∧
        (codeAt m { x := v.x, y := v.y + 1 } ||| MAP_LEAVEFREE) &&& MAP_ACCESSBITS =
          codeAt m { x := v.x, y := v.y + 1 } &&& MAP_ACCESSBITS)) ∧
    (∀ msg st, MapTryPlaceOneObject P O m v mo extraFlags isStrictMode s ≠
      Res.assertFail msg st) ∧
    (MapTryPlaceOneObject P O m v mo extraFlags isStrictMode s = Res.undef ↔
      (ammoSpawnerOff O mo = false ∧ looseCheckAt P O m v mo = true ∧
        (isStrictMode = true → strictCheckAt P O m v mo = true) ∧
        hasFreeInFront O mo = true ∧ v.y + 1 = m.Size.y)) := by
  obtain ⟨hx0, hx1, hy0, hy1⟩ := (MapIsTileIn_iff m v).1 hv
  rw [MapTryPlaceOneObject_eq P O m v mo extraFlags isStrictMode s hwf]
  unfold placeOneObjectOutcome
  by_cases hA : ammoSpawnerOff O mo = true ∨
      (isStrictMode = true ∧ strictCheckAt P O m v mo = false) ∨ looseCheckAt P O m v mo = false
  · rw [if_pos hA]
    refine ⟨fun m1 s1 h => ?_, fun m1 s1 h => ?_, fun msg st h => (by cases h), ?_⟩
    · simp only [Res.ok.injEq, Prod.mk.injEq, true_and] at h
      exact ⟨h.1.symm, h.2.symm⟩
    · simp only [Res.ok.injEq, Prod.mk.injEq] at h
      exact absurd h.1 (by decide)
    · constructor
      · intro h; cases h
      · rintro ⟨h1, h2, h3, _, _⟩
        rcases hA with h | ⟨h, h'⟩ | h
        · rw [h1] at h; cases h
        · rw [h3 h] at h'; cases h'
        · rw [h2] at h; cases h
  · rw [if_neg hA]
    have hammo : ammoSpawnerOff O mo = false := by
      cases hb : ammoSpawnerOff O mo
      · rfl
      · exact absurd (Or.inl hb) hA
    have hloose : looseCheckAt P O m v mo = true := by
      cases hb : looseCheckAt P O m v mo
      · exact absurd (Or.inr (Or.inr hb)) hA
      · rfl
    have hstrict : isStrictMode = true → strictCheckAt P O m v mo = true := by
      intro hs
      cases hb : strictCheckAt P O m v mo
      · exact absurd (Or.inr (Or.inl ⟨hs, hb⟩)) hA
      · rfl
    by_cases hF : hasFreeInFront O mo = false
    · rw [if_pos hF]
      refine ⟨fun m1 s1 h => ?_, fun m1 s1 h => ?_, fun msg st h => (by cases h), ?_⟩
      · simp only [Res.ok.injEq, Prod.mk.injEq] at h
        exact absurd h.1 (by decide)
      · simp only [Res.ok.injEq, Prod.mk.injEq, true_and] at h
        obtain ⟨h1, h2⟩ := h
        subst h1
        subst h2
        refine ⟨rfl, rfl, hloose, hstrict, fun _ => rfl, fun hf => ?_⟩
        rw [hF] at hf
        cases hf
      · constructor
        · intro h; cases h
        · rintro ⟨_, _, _, hf, _⟩
          rw [hF] at hf
          cases hf
    · rw [if_neg hF]
      have hflag : hasFreeInFront O mo = true := by
        cases hb : hasFreeInFront O mo
        · exact absurd hb hF
        · rfl
      by_cases hI : 0 ≤ (v.y + 1) * m.Size.x + v.x ∧
          (v.y + 1) * m.Size.x + v.x < (m.iMap.length : Int)
      · rw [if_pos hI]
        have hbelow := (below_index_in_range m v hwf hv).1 hI
        refine ⟨fun m1 s1 h => ?_, fun m1 s1 h => ?_, fun msg st h => (by cases h), ?_⟩
        · simp only [Res.ok.injEq, Prod.mk.injEq] at h
          exact absurd h.1 (by decide)
        · simp only [Res.ok.injEq, Prod.mk.injEq, true_and] at h
          obtain ⟨h1, h2⟩ := h
          subst h1
          subst h2
          obtain ⟨g1, g2⟩ := IMapGet_leaveFreeBelow m v hwf hv hbelow
          obtain ⟨b1, b2, _⟩ := or_leavefree_keeps (codeAt m { x := v.x, y := v.y + 1 })
          refine ⟨rfl, rfl, hloose, hstrict, fun hf => ?_, fun _ => ⟨?_, g1, g2, b1, b2⟩⟩
          · rw [hflag] at hf
            cases hf
          · rw [MapIsTileIn_iff]
            simp only
            omega
        · constructor
          · intro h; cases h
          · rintro ⟨_, _, _, _, hrow⟩
            omega
      · rw [if_neg hI]
        refine ⟨fun m1 s1 h => (by cases h), fun m1 s1 h => (by cases h),
          fun msg st h => (by cases h), ?_⟩
        constructor
        · intro _
          have hnb : ¬ v.y + 1 < m.Size.y := fun h =>
            hI ((below_index_in_range m v hwf hv).2 h)
          exact ⟨hammo, hloose, hstrict, hflag, by omega⟩
        · intro _; rfl

/-- Witness of C21: on the open example grid the shelf, an object with the
free-in-front flag, is placed on tile `(0, 0)` in loose mode: one event, and
the leave-free bit on the cell `(0, 1)` below. -/
theorem C21_place_one_object_witness :
    exampleOpenMap.WF ∧ MapIsTileIn exampleOpenMap { x := 0, y := 0 } = true ∧
    MapTryPlaceOneObject examplePlaceEnv exampleObjEnv exampleOpenMap { x := 0, y := 0 }
        exampleShelf 0 false { nextUID := 7, added := [] } =
      Res.ok true
        ({ exampleOpenMap with iMap := [0, 0, 0x1000, 0] },
         { nextUID := 8,
           added := [{ UID := 7, MapObjectClass := "shelf", Pos := { x := 8, y := 6 },
                       TileItemFlags := 0, Health := 40 }] }) ∧
    looseCheckAt examplePlaceEnv exampleObjEnv exampleOpenMap { x := 0, y := 0 }
      exampleShelf = true := by
  have hrun : MapTryPlaceOneObject examplePlaceEnv exampleObjEnv exampleOpenMap
      { x := 0, y := 0 } exampleShelf 0 false { nextUID := 7, added := [] } =
      Res.ok true
        ({ exampleOpenMap with iMap := [0, 0, 0x1000, 0] },
         { nextUID := 8,
           added := [{ UID := 7, MapObjectClass := "shelf", Pos := { x := 8, y := 6 },
                       TileItemFlags := 0, Health := 40 }] }) := by
    decide
  exact ⟨by decide, by decide, hrun,
    ((C21_place_one_object_frame examplePlaceEnv exampleObjEnv exampleOpenMap
      { x := 0, y := 0 } exampleShelf 0 false { nextUID := 7, added := [] }
      (by decide) (by decide)).2.1 _ _ hrun).2.2.1⟩

/-- C22 evaluated at a failing input: on the open example grid (2 by 2, all
floor, all tiles empty) tile `(0, 1)` is inside the grid, in the bottom row,
and passes the loose check for the shelf, an object with the free-in-front
flag.  In loose mode `MapTryPlaceOneObject` then writes the leave-free hint
to `(0, 2)`, which is outside the grid: the store of `IMapSet` goes to index 4
of an `iMap` of 4 entries and the call does not return.  On the tile `(0, 0)`
above it the same call writes inside the grid and returns true. -/
theorem C22_bottom_row_hint_written_outside_grid :
    exampleOpenMap.WF ∧
    MapIsTileIn exampleOpenMap { x := 0, y := 1 } = true ∧
    (1 : Int) = exampleOpenMap.Size.y - 1 ∧
    hasFreeInFront exampleObjEnv exampleShelf = true ∧
    ammoSpawnerOff exampleObjEnv exampleShelf = false ∧
    looseCheckAt examplePlaceEnv exampleObjEnv exampleOpenMap { x := 0, y := 1 }
      exampleShelf = true ∧
    MapIsTileIn exampleOpenMap { x := 0, y := 1 + 1 } = false ∧
    ((1 : Int) + 1) * exampleOpenMap.Size.x + 0 = (exampleOpenMap.iMap.length : Int) ∧
    IMapSet exampleOpenMap { x := 0, y := 1 + 1 }
      (codeAt exampleOpenMap { x := 0, y := 1 + 1 } ||| MAP_LEAVEFREE) = Res.undef ∧
    MapTryPlaceOneObject examplePlaceEnv exampleObjEnv exampleOpenMap { x := 0, y := 1 }
      exampleShelf 0 false { nextUID := 7, added := [] } = Res.undef ∧
    (∃ m1 s1, MapTryPlaceOneObject examplePlaceEnv exampleObjEnv exampleOpenMap
      { x := 0, y := 0 } exampleShelf 0 false { nextUID := 7, added := [] } =
        Res.ok true (m1, s1)) := by
  refine ⟨by decide, by decide, by decide, by decide, by decide, by decide, by decide,
    by decide, by decide, by decide, ?_⟩
  exact ⟨{ exampleOpenMap with iMap := [0, 0, 0x1000, 0] },
    { nextUID := 8, added := [{ UID := 7, MapObjectClass := "shelf", Pos := { x := 8, y := 6 }, TileItemFlags := 0, Health := 40 }] },
    by decide⟩

/-- C23 (amended): on a well-formed grid, with a door-group constructor that
keeps size and access codes, `MapSetupDoors` returns and requests a door group
at a cell if and only if that cell is inside the grid, its base type is Door,
and neither its left nor its top neighbour has base type Door (a neighbour
outside the grid is not Door); each such anchor gets exactly one request, the
flags passed are `MapGetAccessFlags` at the anchor, and the requests are
issued in column-major scan order of the anchors (by `x`, then by `y`). -/
theorem C23_door_groups_at_anchors (P : PlaceEnv) (m : Map) (hwf : m.WF)
    (hP : KeepsCodes P) :
    ∃ m1 reqs, MapSetupDoors P m = Res.ok () (m1, reqs) ∧
      (∀ v : Vec2i, v ∈ reqs.map DoorGroupRequest.v ↔
        (MapIsTileIn m v = true ∧ baseAt m v = MAP_DOOR ∧
          baseAt m { x := v.x - 1, y := v.y } ≠ MAP_DOOR ∧
          baseAt m { x := v.x, y := v.y - 1 } ≠ MAP_DOOR)) ∧
      (∀ u : Vec2i, MapIsTileIn m u = false → baseAt m u ≠ MAP_DOOR) ∧
      (reqs.map DoorGroupRequest.v).Nodup ∧
      (∀ r ∈ reqs, MapGetAccessFlags m r.v.x r.v.y = some r.flags) ∧
      (reqs.map DoorGroupRequest.v).Pairwise columnMajorBefore := by
  obtain ⟨m1, hrun, _, _⟩ := MapSetupDoors_eq P m hwf hP
  have e1 : ((m.Size.x.toNat : Nat) : Int) = m.Size.x := Int.toNat_of_nonneg hwf.1
  have e2 : ((m.Size.y.toNat : Nat) : Int) = m.Size.y := Int.toNat_of_nonneg hwf.2.1
  have hcells : (((scanCells m.Size.x.toNat m.Size.y.toNat).filter (isDoorAnchor m)).map
      (fun v => ({ v := v, flags := flagsAt m v } : DoorGroupRequest))).map DoorGroupRequest.v =
      (scanCells m.Size.x.toNat m.Size.y.toNat).filter (isDoorAnchor m) := by
    rw [List.map_map]
    exact List.map_id _
  have hout : ∀ u : Vec2i, MapIsTileIn m u = false → baseAt m u ≠ MAP_DOOR := by
    intro u hu hd
    have := in_grid_of_baseAt m u (by rw [hd]; decide)
    rw [← MapIsTileIn_iff, hu] at this
    cases this
  refine ⟨m1, _, hrun, fun v => ?_, hout, ?_, fun r hr => ?_, ?_⟩
  · rw [hcells, List.mem_filter, mem_scanCells, e1, e2, MapIsTileIn_iff]
    unfold isDoorAnchor
    simp only [Bool.and_eq_true, decide_eq_true_eq, ne_eq, and_assoc]
  · rw [hcells]
    exact (nodup_scanCells _ _).filter _
  · obtain ⟨v, _, rfl⟩ := List.mem_map.1 hr
    exact MapGetAccessFlags_eq m v hwf
  · rw [hcells]
    exact (pairwise_scanCells _ _).filter _

/-- Witness of C23: the two door cells of the example grid are both anchors;
the group of `(0, 1)` is requested first, then the group of `(1, 0)`. -/
theorem C23_door_groups_witness :
    exampleTwoDoorMap.WF ∧ KeepsCodes examplePlaceEnv ∧
    MapSetupDoors examplePlaceEnv exampleTwoDoorMap =
      Res.ok () (exampleTwoDoorMap,
        [{ v := { x := 0, y := 1 }, flags := 0 }, { v := { x := 1, y := 0 }, flags := 0 }]) ∧
    ∃ m1 reqs, MapSetupDoors examplePlaceEnv exampleTwoDoorMap = Res.ok () (m1, reqs) ∧
      (reqs.map DoorGroupRequest.v).Pairwise columnMajorBefore := by
  obtain ⟨m1, reqs, h1, _, _, _, _, h6⟩ :=
    C23_door_groups_at_anchors examplePlaceEnv exampleTwoDoorMap (by decide)
      (fun _ _ _ => ⟨rfl, rfl⟩)
  exact ⟨by decide, fun _ _ _ => ⟨rfl, rfl⟩, by decide, m1, reqs, h1, h6⟩

/-- Counterexample to C23 as stated (row-major order of the requests): in the
example grid the anchors are `(1, 0)` in row 0 and `(0, 1)` in row 1, so in
row-major order `(1, 0)` comes first; `MapSetupDoors` requests the group of
`(0, 1)` first. -/
theorem C23_counterexample_not_row_major :
    isDoorAnchor exampleTwoDoorMap { x := 1, y := 0 } = true ∧
    isDoorAnchor exampleTwoDoorMap { x := 0, y := 1 } = true ∧
    rowMajorBefore { x := 1, y := 0 } { x := 0, y := 1 } ∧
    MapSetupDoors examplePlaceEnv exampleTwoDoorMap =
      Res.ok () (exampleTwoDoorMap,
        [{ v := { x := 0, y := 1 }, flags := 0 }, { v := { x := 1, y := 0 }, flags := 0 }]) ∧
    ¬ ([({ x := 0, y := 1 } : Vec2i), { x := 1, y := 0 }]).Pairwise rowMajorBefore := by
  decide

/-- C24 (amended): from a freshly loaded grid (no tile visited,
`tilesSeen = 0`, `NumExplorableTiles` the number of tiles without the no-walk
flag), every sequence of `MapMarkAsVisited` and `MapMarkAllAsVisited` calls on
tiles inside the grid returns, and in the state reached (`s2`, reached through
any earlier state `s1`) the tile flags are unchanged, `tilesSeen` is the
number of tiles that are visited and lack the no-walk flag, `0 <= tilesSeen <=
NumExplorableTiles`, `tilesSeen` has not decreased since `s1`, and when
`0 < NumExplorableTiles <= 21474836`, so that `100 * tilesSeen` fits a 32-bit
`int`, the explored percentage is defined and within `0..100`. -/
theorem C24_exploration_reachable_invariant (E : Env) (m : Map) (ops1 ops2 : List ExploreOp)
    (hfresh : FreshlyLoaded E m)
    (hin : ∀ pos, ExploreOp.mark pos ∈ ops1 ++ ops2 → MapIsTileIn m pos = true) :
    ∃ s1 s2, runExplore E m ops1 = Res.ok () s1 ∧ runExplore E s1 ops2 = Res.ok () s2 ∧
      runExplore E m (ops1 ++ ops2) = Res.ok () s2 ∧
      s2.Tiles.map Tile.flags = m.Tiles.map Tile.flags ∧
      s2.NumExplorableTiles = m.NumExplorableTiles ∧
      s2.NumExplorableTiles = (numWalkable E s2 : Int) ∧
      s2.tilesSeen = (numSeen E s2 : Int) ∧
      0 ≤ s2.tilesSeen ∧ s2.tilesSeen ≤ s2.NumExplorableTiles ∧
      s1.tilesSeen ≤ s2.tilesSeen ∧
      (0 < s2.NumExplorableTiles → s2.NumExplorableTiles ≤ 21474836 →
        ∃ p, MapGetExploredPercentage s2 = some p ∧ 0 ≤ p ∧ p ≤ 100) := by
  have hwf : m.WF := hfresh.1
  obtain ⟨s1, h1⟩ := runExplore_returns E ops1 m hwf
    (fun pos hp => hin pos (List.mem_append_left _ hp))
  have he1 := runExplore_explores E ops1 m s1 hwf h1
  have hwf1 := ExploredFrom_WF E m s1 he1 hwf
  obtain ⟨s2, h2⟩ := runExplore_returns E ops2 s1 hwf1
    (fun pos hp => by
      rw [MapIsTileIn_congr m s1 he1.1]
      exact hin pos (List.mem_append_right _ hp))
  have he2 := runExplore_explores E ops2 s1 s2 hwf1 h2
  have he := ExploredFrom_trans E m s1 s2 he1 he2
  obtain ⟨hseen, hN, hle⟩ := explored_counters E m s2 hfresh he
  have hnn : 0 ≤ s2.tilesSeen := by rw [hseen]; exact Int.natCast_nonneg _
  have hub : s2.tilesSeen ≤ s2.NumExplorableTiles := by
    rw [hseen, hN]
    exact_mod_cast hle
  refine ⟨s1, s2, h1, h2, ?_, he.2.2.2.2.1, he.2.2.1, hN, hseen, hnn, hub,
    he2.2.2.2.2.2.2.2.2, fun hpos hsmall => ?_⟩
  · rw [runExplore_append E ops1 ops2 m s1 h1]
    exact h2
  · exact ⟨Int.tdiv (100 * s2.tilesSeen) s2.NumExplorableTiles,
      MapGetExploredPercentage_of_small s2 hnn (by omega) hpos,
      percentage_bounds _ _ hnn hub hpos⟩

/-- Witness of C24: on the example grid, marking tile `(0, 0)`, then all
tiles, then tile `(1, 1)` again leaves `tilesSeen = 3` of 3 explorable tiles,
up from 1 after the first call. -/
theorem C24_exploration_witness :
    FreshlyLoaded exampleEnv exampleMap ∧
    ∃ s1 s2,
      runExplore exampleEnv exampleMap [ExploreOp.mark { x := 0, y := 0 }] = Res.ok () s1 ∧
      runExplore exampleEnv s1 [ExploreOp.markAll, ExploreOp.mark { x := 1, y := 1 }] =
        Res.ok () s2 ∧
      s1.tilesSeen = 1 ∧ s2.tilesSeen = 3 ∧ s2.NumExplorableTiles = 3 ∧
      s2.tilesSeen = (numSeen exampleEnv s2 : Int) ∧
      s1.tilesSeen ≤ s2.tilesSeen ∧
      MapGetExploredPercentage s2 = some 100 := by
  have hf : FreshlyLoaded exampleEnv exampleMap := by
    unfold FreshlyLoaded
    decide
  have hin : ∀ pos, ExploreOp.mark pos ∈
      [ExploreOp.mark { x := 0, y := 0 }] ++
        [ExploreOp.markAll, ExploreOp.mark { x := 1, y := 1 }] →
      MapIsTileIn exampleMap pos = true := by
    intro pos hp
    simp only [List.singleton_append, List.mem_cons, ExploreOp.mark.injEq, List.mem_singleton,
      List.not_mem_nil, or_false, reduceCtorEq, false_or] at hp
    rcases hp with h | h <;> rw [h] <;> decide
  obtain ⟨s1, s2, h1, h2, _, _, _, _, h7, _, _, h10, _⟩ :=
    C24_exploration_reachable_invariant exampleEnv exampleMap
      [ExploreOp.mark { x := 0, y := 0 }]
      [ExploreOp.markAll, ExploreOp.mark { x := 1, y := 1 }] hf hin
  have e1 : runExplore exampleEnv exampleMap [ExploreOp.mark { x := 0, y := 0 }] =
      Res.ok () { exampleMap with tilesSeen := 1, Tiles := [{ flags := 0, isVisited := true, things := [{ Id := 3, Kind := 1 }] }, { flags := 1, isVisited := false, things := [] }, { flags := 0, isVisited := false, things := [] }, { flags := 0, isVisited := false, things := [{ Id := 5, Kind := 0 }, { Id := 7, Kind := 0 }] }] } := by
    decide
  have hs1 : s1 = _ := (Res.ok.inj (h1.symm.trans e1)).2
  subst hs1
  have e2 : runExplore exampleEnv { exampleMap with tilesSeen := 1, Tiles := [{ flags := 0, isVisited := true, things := [{ Id := 3, Kind := 1 }] }, { flags := 1, isVisited := false, things := [] }, { flags := 0, isVisited := false, things := [] }, { flags := 0, isVisited := false, things := [{ Id := 5, Kind := 0 }, { Id := 7, Kind := 0 }] }] }
      [ExploreOp.markAll, ExploreOp.mark { x := 1, y := 1 }] =
      Res.ok () { exampleMap with tilesSeen := 3, Tiles := [{ flags := 0, isVisited := true, things := [{ Id := 3, Kind := 1 }] }, { flags := 1, isVisited := true, things := [] }, { flags := 0, isVisited := true, things := [] }, { flags := 0, isVisited := true, things := [{ Id := 5, Kind := 0 }, { Id := 7, Kind := 0 }] }] } := by
    decide
  have hs2 : s2 = _ := (Res.ok.inj (h2.symm.trans e2)).2
  subst hs2
  exact ⟨hf, _, _, e1, e2, rfl, rfl, rfl, h7, h10, by decide⟩

/-- Counterexample to C24 as stated (percentage within `0..100` whenever
`NumExplorableTiles > 0`): the large example grid is freshly loaded; the state
reached by the one call `MapMarkAllAsVisited` has `NumExplorableTiles =
30000000 > 0` and `tilesSeen = 30000000`, and its explored percentage is
`-43`, below 0. -/
theorem C24_counterexample_percentage_below_zero :
    FreshlyLoaded exampleEnv exampleLargeMap ∧
    ∃ s, runExplore exampleEnv exampleLargeMap [ExploreOp.markAll] = Res.ok () s ∧
      0 < s.NumExplorableTiles ∧ s.tilesSeen = 30000000 ∧
      MapGetExploredPercentage s = some (-43) ∧
      ¬ ∃ p, MapGetExploredPercentage s = some p ∧ 0 ≤ p ∧ p ≤ 100 := by
  obtain ⟨m1, h1, _, h3, h4, h5⟩ := exampleLargeMap_marked
  refine ⟨exampleLargeMap_fresh, m1, ?_, by rw [h4]; decide, h3, h5, ?_⟩
  · exact runExplore_markAll exampleEnv exampleLargeMap m1 h1
  · rintro ⟨p, hp, hp0, _⟩
    rw [h5] at hp
    have : p = -43 := (Option.some.inj hp).symm
    omega

end CDogs
